import Mathlib

/-! ClamBCRebuild: type flattening, address rewriting, instruction rewriting and the
run over a module.

A shallow embedding of `ClamBC/ClamBCRebuild.cpp`, the pass that rebuilds an
LLVM module into the restricted vocabulary of the ClamAV bytecode backend
(integers, flat arrays of one integer type, pointers to integers).

Conventions of the embedding:

* an `assert` that fails, `llvm_unreachable`, a failing `cast<>` and a
  division by zero are all fatal: the function returns `Except.error` with a
  `Fatal` value naming the source line that stopped;
* C++ `unsigned` is a natural number reduced modulo `2 ^ 32`; `int64_t`
  values are integers, `/` and `%` on them truncate toward zero
  (`Int.tdiv`, `Int.tmod`);
* types are finite trees (`Ty`); the data layout (`TargetData`) is a
  parameter;
* the instruction builder is the log of the requests made to it
  (`State.emitted`); the value of a request is identified by its position in
  the log;
* a function is the record of what a pointer to it shows (`Function`); the
  module keeps the functions of the input apart from those the pass creates
  (`Module`), and `deleteBody` changes what the calls still to be rewritten
  see of their callee (`Function.afterDeleteBody`).
-/

namespace ClamBCRebuild

/-! ## Types -/

/-- Type kinds of the IR that are neither integer, void, pointer nor composite. -/
inductive TypeID
  | FloatTyID
  | DoubleTyID
  | X86_FP80TyID
  | FP128TyID
  | PPC_FP128TyID
  | LabelTyID
  | MetadataTyID
  | FunctionTyID
  | OpaqueTyID
  deriving DecidableEq, Repr

/-- IR types (`llvm::Type`). `pointer`, `array`, `vector` are the sequential
types, `struct` carries its ordered field list; the four of them are the
composite types (`llvm::CompositeType`). -/
inductive Ty
  | void
  | integer (bits : Nat)
  | other (id : TypeID)
  | pointer (pointee : Ty) (addrSpace : Nat)
  | array (elem : Ty) (numElements : Nat)
  | vector (elem : Ty) (numElements : Nat)
  | struct (fields : List Ty) (packed : Bool)
  deriving Repr

mutual
/-- Decision procedure for equality of types. -/
def Ty.decEq : (a b : Ty) → Decidable (a = b)
  | .void, .void => isTrue rfl
  | .integer m, .integer n =>
    if h : m = n then isTrue (by rw [h]) else isFalse (by intro e; cases e; exact h rfl)
  | .other i, .other j =>
    if h : i = j then isTrue (by rw [h]) else isFalse (by intro e; cases e; exact h rfl)
  | .pointer p s, .pointer q t =>
    match Ty.decEq p q with
    | isTrue hp =>
      if h : s = t then isTrue (by rw [hp, h]) else isFalse (by intro e; cases e; exact h rfl)
    | isFalse hp => isFalse (by intro e; cases e; exact hp rfl)
  | .array p s, .array q t =>
    match Ty.decEq p q with
    | isTrue hp =>
      if h : s = t then isTrue (by rw [hp, h]) else isFalse (by intro e; cases e; exact h rfl)
    | isFalse hp => isFalse (by intro e; cases e; exact hp rfl)
  | .vector p s, .vector q t =>
    match Ty.decEq p q with
    | isTrue hp =>
      if h : s = t then isTrue (by rw [hp, h]) else isFalse (by intro e; cases e; exact h rfl)
    | isFalse hp => isFalse (by intro e; cases e; exact hp rfl)
  | .struct p s, .struct q t =>
    match Ty.decEqList p q with
    | isTrue hp =>
      if h : s = t then isTrue (by rw [hp, h]) else isFalse (by intro e; cases e; exact h rfl)
    | isFalse hp => isFalse (by intro e; cases e; exact hp rfl)
  | .void, .integer _ | .void, .other _ | .void, .pointer _ _ | .void, .array _ _
  | .void, .vector _ _ | .void, .struct _ _ => isFalse (by intro e; cases e)
  | .integer _, .void | .integer _, .other _ | .integer _, .pointer _ _
  | .integer _, .array _ _ | .integer _, .vector _ _ | .integer _, .struct _ _ =>
    isFalse (by intro e; cases e)
  | .other _, .void | .other _, .integer _ | .other _, .pointer _ _ | .other _, .array _ _
  | .other _, .vector _ _ | .other _, .struct _ _ => isFalse (by intro e; cases e)
  | .pointer _ _, .void | .pointer _ _, .integer _ | .pointer _ _, .other _
  | .pointer _ _, .array _ _ | .pointer _ _, .vector _ _ | .pointer _ _, .struct _ _ =>
    isFalse (by intro e; cases e)
  | .array _ _, .void | .array _ _, .integer _ | .array _ _, .other _
  | .array _ _, .pointer _ _ | .array _ _, .vector _ _ | .array _ _, .struct _ _ =>
    isFalse (by intro e; cases e)
  | .vector _ _, .void | .vector _ _, .integer _ | .vector _ _, .other _
  | .vector _ _, .pointer _ _ | .vector _ _, .array _ _ | .vector _ _, .struct _ _ =>
    isFalse (by intro e; cases e)
  | .struct _ _, .void | .struct _ _, .integer _ | .struct _ _, .other _
  | .struct _ _, .pointer _ _ | .struct _ _, .array _ _ | .struct _ _, .vector _ _ =>
    isFalse (by intro e; cases e)
/-- Decision procedure for equality of field lists. -/
def Ty.decEqList : (as bs : List Ty) → Decidable (as = bs)
  | [], [] => isTrue rfl
  | [], _ :: _ => isFalse (by intro e; cases e)
  | _ :: _, [] => isFalse (by intro e; cases e)
  | a :: as, b :: bs =>
    match Ty.decEq a b with
    | isTrue h =>
      match Ty.decEqList as bs with
      | isTrue hs => isTrue (by rw [h, hs])
      | isFalse hs => isFalse (by intro e; cases e; exact hs rfl)
    | isFalse h => isFalse (by intro e; cases e; exact h rfl)
end

instance : DecidableEq Ty := Ty.decEq

/-- The test `Type::isIntegerTy()`. -/
def Ty.isIntegerTy : Ty → Bool
  | .integer _ => true
  | _ => false

/-- The test `Type::isVoidTy()`. -/
def Ty.isVoidTy : Ty → Bool
  | .void => true
  | _ => false

/-- The test `isa<PointerType>(Ty)`. -/
def Ty.isPointerTy : Ty → Bool
  | .pointer _ _ => true
  | _ => false

/-- The test `isa<CompositeType>(Ty)`: array, struct, pointer or vector. -/
def Ty.isCompositeTy : Ty → Bool
  | .pointer _ _ => true
  | .array _ _ => true
  | .vector _ _ => true
  | .struct _ _ => true
  | _ => false

/-- The constructor `PointerType::getUnqual(ElementType)`: the pointer in
address space 0. -/
def PointerType.getUnqual (ElementType : Ty) : Ty :=
  .pointer ElementType 0

/-- The test `CompositeType::indexValid(0u)`: always true for a sequential type
(pointer, array, vector, whatever its length), true for a struct exactly when
it has a field. -/
def Ty.indexValid0 : Ty → Bool
  | .pointer _ _ => true
  | .array _ _ => true
  | .vector _ _ => true
  | .struct (_ :: _) _ => true
  | _ => false

/-- The query `CompositeType::getTypeAtIndex(0u)`: the element type of a sequential
type, the first field of a struct. -/
def Ty.getTypeAtIndex0 : Ty → Option Ty
  | .pointer ETy _ => some ETy
  | .array ETy _ => some ETy
  | .vector ETy _ => some ETy
  | .struct (ETy :: _) _ => some ETy
  | _ => none

/-! ## The specification's restricted vocabulary -/

/-- The restricted vocabulary in the words of the specification: an integer
type, void, a pointer to an integer type, or an array of an integer type.
Defined from the specification, for comparison with the types of the values
the pass produces. -/
def Ty.inVocabulary : Ty → Bool
  | .integer _ => true
  | .void => true
  | .pointer (.integer _) _ => true
  | .array (.integer _) _ => true
  | _ => false

/-! ## Values -/

/-- The kinds of IR value the pass tells apart (`isa<Constant>`,
`isa<ConstantInt>`, `isa<PHINode>`). A `ConstantInt` carries its zero-extended
value. -/
inductive ValueKind
  | ConstantInt (zext : Nat)
  | Constant
  | Argument
  | Instruction
  | PHINode
  deriving DecidableEq

/-- An IR value (`llvm::Value`): `id` stands for the identity of the object,
`type` is `getType()`, and `rebuilt` tells the values created by the builder
in the new function from those of the old function. -/
structure Value where
  id : Nat
  kind : ValueKind
  type : Ty
  rebuilt : Bool
  deriving DecidableEq

/-! ## Fatal conditions -/

/-- The ways the pass stops; each names the statement of `ClamBCRebuild.cpp`
that does not return. -/
inductive Fatal
  /-- Line 102, `assert(CTy->indexValid(0u))` in `getInnerElementType`. -/
  | assertIndexValid
  /-- Line 106, `assert(ETy->isIntegerTy())` in `getInnerElementType`. -/
  | assertIntegerTy
  /-- Applying `getInnerElementType` to a type that is no `CompositeType`
  (excluded by the C++ parameter type). -/
  | notComposite
  /-- Lines 120 and 247, `bytes / esize` in `rebuildType` or `% divisor` in
  `visitGetElementPtrInst` with a zero right operand. -/
  | divisionByZero
  /-- Line 121, `assert(!(bytes % esize))` in `rebuildType`. -/
  | assertDivisible
  /-- Line 124, `llvm_unreachable("unknown type")` in `rebuildType`. -/
  | unknownType
  /-- Line 162, `assert(NV)` in `mapValue`. -/
  | assertMapped
  /-- Line 245, `cast<PointerType>(P->getType())` in `visitGetElementPtrInst`. -/
  | castPointerType
  /-- Line 271, `assert((int64_t)m2 == m)` in `visitGetElementPtrInst`. -/
  | assertFitsInt32
  /-- Modelled from the spec: the call `stop(Msg, I)` (lines 139 and 368)
  reports `Msg` against the instruction `I` and ends the compilation; it does
  not return (`ClamBCModule::stop` is not part of these sources). -/
  | stop (Msg : String) (I : Value)
  /-- Line 176, `assert(NBB)` in `mapBlock`. -/
  | assertBlockMapped
  /-- Line 303, `cast<PHINode>(VV)` in `visitPHINode`. -/
  | castPHINode
  /-- Line 336, `F->getFunctionType()` in `visitCallInst` on the null pointer
  `getCalledFunction()` returns for an indirect call. -/
  | nullCalledFunction
  /-- Lines 339 and 398, `assert(!FTy->isVarArg())` in `visitCallInst` and
  `assert(!F->isVarArg())` in `createFunction`. -/
  | assertNotVarArg
  /-- Lines 352 and 374, `assert(F)` in `visitCallInst` and `assert(NF)` in
  `runOnFunction`. -/
  | assertFunctionMapped
  /-- An operand or incoming-value index past the end of the instruction
  (`getOperand`, `getSuccessor`, `getIncomingValue` assert the index). -/
  | operandIndex
  deriving DecidableEq

deriving instance DecidableEq for Except

/-! ## TypeRebuilder -/

/-- Source function `getInnerElementType`: descend into element 0 until the element is no
composite type; that element must be an integer type. -/
def getInnerElementType : Ty → Except Fatal Ty
  | .pointer ETy _ | .array ETy _ | .vector ETy _ | .struct (ETy :: _) _ =>
    if ETy.isCompositeTy then getInnerElementType ETy
    else if ETy.isIntegerTy then .ok ETy
    else .error .assertIntegerTy
  | .struct [] _ => .error .assertIndexValid
  | _ => .error .notComposite

/-- The data layout service (`llvm::TargetData`), a parameter of the pass.
`getTypeAllocSize` is the storage size in bytes, a `uint64_t` in the source.
The three laws are those of the host layout the pass relies on: an array
occupies its length times the size of its element, and an integer type has a
positive size that fits the `unsigned` the pass stores it in. -/
structure TargetData where
  /-- The query `TargetData::getTypeAllocSize`. -/
  getTypeAllocSize : Ty → Nat
  /-- An array is laid out as `numElements` consecutive elements. -/
  array_size : ∀ (ETy : Ty) (n : Nat),
    getTypeAllocSize (.array ETy n) = n * getTypeAllocSize ETy
  /-- Every integer type occupies at least one byte. -/
  integer_pos : ∀ bits : Nat, 0 < getTypeAllocSize (.integer bits)
  /-- The size of an integer type fits 32 bits. -/
  integer_lt : ∀ bits : Nat, getTypeAllocSize (.integer bits) < 2 ^ 32

/-- Conversion of a `uint64_t` size to C++ `unsigned`. -/
def toUnsigned (n : Nat) : Nat :=
  n % 2 ^ 32

/-- Source function `rebuildType`: integer and void types are returned as
they are, a pointer becomes the unqualified pointer to the inner element type,
any other composite becomes the array of its inner element type whose length
is the quotient of the two sizes, both held in C++ `unsigned`. -/
def rebuildType (TD : TargetData) (T : Ty) : Except Fatal Ty :=
  if T.isIntegerTy || T.isVoidTy then
    .ok T
  else if T.isPointerTy then
    (getInnerElementType T).map PointerType.getUnqual
  else if T.isCompositeTy then do
    let ETy ← getInnerElementType T
    let bytes := toUnsigned (TD.getTypeAllocSize T)
    let esize := toUnsigned (TD.getTypeAllocSize ETy)
    if esize = 0 then
      .error .divisionByZero
    else
      let n := bytes / esize
      if bytes % esize ≠ 0 then
        .error .assertDivisible
      else
        .ok (.array ETy n)
  else
    .error .unknownType

/-! ## A concrete data layout

A 32-bit little-endian layout in the manner of the host's x86-32 description
(`p:32:32`, `i8:8`, `i16:16`, `i32:32`, `i64:32`): it instantiates the
`TargetData` parameter wherever a statement is evaluated on a concrete type. -/

/-- Rounding `n` up to the next multiple of `a` (`RoundUpAlignment`). -/
def roundUp (n a : Nat) : Nat :=
  (n + a - 1) / a * a

/-- ABI alignment of an integer type of the concrete layout. -/
def Layout32.intAlign (bits : Nat) : Nat :=
  if bits ≤ 8 then 1 else if bits ≤ 16 then 2 else 4

/-- Storage size of an integer type of the concrete layout: its bytes (the bit
width is at most `MAX_INT_BITS = 2 ^ 23 - 1`), rounded up to the alignment. -/
def Layout32.intSize (bits : Nat) : Nat :=
  roundUp (max 1 ((min bits 8388607 + 7) / 8)) (Layout32.intAlign bits)

/-- Storage size and alignment of the non-integer scalar kinds of the concrete
layout; the kinds without a size are given `0`. -/
def Layout32.otherSize : TypeID → Nat
  | .FloatTyID => 4
  | .DoubleTyID => 8
  | .X86_FP80TyID => 12
  | .FP128TyID => 16
  | .PPC_FP128TyID => 16
  | _ => 0

mutual
/-- ABI alignment in bytes in the concrete layout. -/
def Layout32.align : Ty → Nat
  | .void => 1
  | .integer bits => Layout32.intAlign bits
  | .other _ => 4
  | .pointer _ _ => 4
  | .array ETy _ => Layout32.align ETy
  | .vector _ _ => 8
  | .struct fields packed => if packed then 1 else Layout32.alignFields fields
/-- Largest field alignment of a struct in the concrete layout. -/
def Layout32.alignFields : List Ty → Nat
  | [] => 1
  | T :: Ts => max (Layout32.align T) (Layout32.alignFields Ts)
end

mutual
/-- Storage size in bytes in the concrete layout. -/
def Layout32.size : Ty → Nat
  | .void => 0
  | .integer bits => Layout32.intSize bits
  | .other id => Layout32.otherSize id
  | .pointer _ _ => 4
  | .array ETy n => n * Layout32.size ETy
  | .vector ETy n => roundUp (n * Layout32.size ETy) 8
  | .struct fields packed =>
    roundUp (Layout32.endOffset fields packed 0)
      (if packed then 1 else Layout32.alignFields fields)
/-- Offset reached after laying out the fields from offset `off`, each field at
the next multiple of its alignment unless the struct is packed. -/
def Layout32.endOffset : List Ty → Bool → Nat → Nat
  | [], _, off => off
  | T :: Ts, packed, off =>
    Layout32.endOffset Ts packed
      ((if packed then off else roundUp off (Layout32.align T)) + Layout32.size T)
end

/-- The concrete layout as a `TargetData`. -/
def layout32 : TargetData where
  getTypeAllocSize := Layout32.size
  array_size := by
    intro ETy n
    simp [Layout32.size]
  integer_pos := by
    intro bits
    simp only [Layout32.size, Layout32.intSize, Layout32.intAlign, roundUp]
    split_ifs <;> omega
  integer_lt := by
    intro bits
    simp only [Layout32.size, Layout32.intSize, Layout32.intAlign, roundUp]
    split_ifs <;> omega

/-! ## The specification's leaf -/

/-- The leaf element type in the words of the specification: repeatedly take
the type of sub-element 0 until reaching a scalar, that is a type that is no
composite; `none` when a composite on the way has no sub-element 0 (an empty
struct). Defined from the specification, for comparison with
`getInnerElementType`. -/
def innerLeaf : Ty → Option Ty
  | .pointer ETy _ | .array ETy _ | .vector ETy _ | .struct (ETy :: _) _ => innerLeaf ETy
  | .struct [] _ => none
  | T => some T

/-! ## Values, the value map and the instruction builder -/

/-- The test `isa<Constant>(V)`. -/
def Value.isConstant (V : Value) : Bool :=
  match V.kind with
  | .ConstantInt _ => true
  | .Constant => true
  | _ => false

/-- Conversion of an `int64_t` to `int32_t` (`int32_t m2 = m`). -/
def toInt32 (m : Int) : Int :=
  (m + 2 ^ 31) % 2 ^ 32 - 2 ^ 31

/-- Source function `i32const`: the 32-bit constant holding the bits of `n`. -/
def i32const (n : Int) : Value :=
  { id := 0, kind := .ConstantInt (n % 2 ^ 32).toNat, type := .integer 32, rebuilt := false }

/-- A basic block (`llvm::BasicBlock`): `id` stands for the identity of the
object, `name` is `getName()`, and `rebuilt` tells the blocks created in the
new function from those of the old function. -/
structure BasicBlock where
  id : Nat
  name : String
  rebuilt : Bool
  deriving DecidableEq

/-- A function type (`llvm::FunctionType`). -/
structure FunctionType where
  returnType : Ty
  params : List Ty
  isVarArg : Bool
  deriving DecidableEq

/-- Linkage of a function (`GlobalValue::LinkageTypes`), the two kinds the
pass meets. -/
inductive LinkageTypes
  | ExternalLinkage
  | InternalLinkage
  deriving DecidableEq

/-- A function as a call refers to it (`llvm::Function` without its body):
`type` is `getFunctionType()`, `isDeclaration` holds for a function without a
body, `rebuilt` tells the functions the pass creates, `linkage` is
`getLinkage()`. -/
structure Function where
  id : Nat
  name : String
  type : FunctionType
  isDeclaration : Bool
  rebuilt : Bool
  linkage : LinkageTypes := .ExternalLinkage
  deriving DecidableEq

/-- Modelled from the spec: the host's instruction-construction utility
(`IRBuilder<true,TargetFolder>`, not part of these sources) is the log of the
construction requests the pass makes, one constructor per `Builder->Create...`
call of the pass, with the arguments as passed. The index of `ConstGEP1_64` is
the `int64_t` the pass computed; the count of `Alloca` is absent for the null
pointer; `Switch` and `PHI` carry the cases and the incoming edges their
instruction has been given so far (`addCase`, `setIncomingValue`). -/
inductive Request
  | PointerCast (V : Value) (DestTy : Ty) (Name : String)
  | ConstGEP1_64 (Ptr : Value) (Idx0 : Int) (Name : String)
  | TruncOrBitCast (V : Value) (DestTy : Ty)
  | NSWMul (LHS RHS : Value)
  | NSWAdd (LHS RHS : Value)
  | GEP (Ptr : Value) (Idx : Value)
  | Alloca (T : Ty) (ArraySize : Option Value) (Name : String)
  | RetVoid
  | Ret (V : Value)
  | Br (Dest : BasicBlock)
  | CondBr (Cond : Value) (True False : BasicBlock)
  | Switch (V : Value) (Dest : BasicBlock) (NumCases : Nat) (Cases : List (Value × BasicBlock))
  | Unreachable
  | ICmp (P : Nat) (LHS RHS : Value) (Name : String)
  | Load (Ptr : Value) (Name : String)
  | Store (Val Ptr : Value)
  | PHI (T : Ty) (Incoming : List (Value × BasicBlock))
  | Cast (Op : Nat) (V : Value) (DestTy : Ty) (Name : String)
  | Select (C True False : Value) (Name : String)
  | BitCast (V : Value) (DestTy : Ty)
  | Call (Callee : Function) (Args : List Value) (Name : String)
  | BinOp (Opc : Nat) (LHS RHS : Value) (Name : String)
  deriving DecidableEq

/-- Type of the value a request produces: a cast has its destination type, an
element-address step with one index keeps the type of its pointer, an
arithmetic instruction has the type of its operands, an allocation is a
pointer to the allocated type, a load has the pointee type, a call the return
type, a comparison is `i1`, and terminators and stores are `void`. -/
def Request.type : Request → Ty
  | .PointerCast _ DestTy _ => DestTy
  | .ConstGEP1_64 Ptr _ _ => Ptr.type
  | .TruncOrBitCast _ DestTy => DestTy
  | .NSWMul LHS _ => LHS.type
  | .NSWAdd LHS _ => LHS.type
  | .GEP Ptr _ => Ptr.type
  | .Alloca T _ _ => PointerType.getUnqual T
  | .RetVoid => .void
  | .Ret _ => .void
  | .Br _ => .void
  | .CondBr _ _ _ => .void
  | .Switch _ _ _ _ => .void
  | .Unreachable => .void
  | .ICmp _ _ _ _ => .integer 1
  | .Load Ptr _ =>
    match Ptr.type with
    | .pointer ETy _ => ETy
    | _ => .void
  | .Store _ _ => .void
  | .PHI T _ => T
  | .Cast _ _ DestTy _ => DestTy
  | .Select _ True _ _ => True.type
  | .BitCast _ DestTy => DestTy
  | .Call Callee _ _ => Callee.type.returnType
  | .BinOp _ LHS _ _ => LHS.type

/-- Requests that are a cast to the byte pointer type `i8*`. -/
def Request.isBytePointerCast : Request → Bool
  | .PointerCast _ DestTy _ => decide (DestTy = PointerType.getUnqual (.integer 8))
  | _ => false

/-- Requests that compute an address or an offset: element-address steps,
additions and multiplications. -/
def Request.isAddressArithmetic : Request → Bool
  | .ConstGEP1_64 _ _ _ => true
  | .GEP _ _ => true
  | .NSWMul _ _ => true
  | .NSWAdd _ _ => true
  | _ => false

/-- The value map `VMap` (`DenseMap<const Value*, Value*>`), newest entry
first. -/
abbrev ValueMapTy := List (Value × Value)

/-- Entry of the value map for `V`, `none` for the null pointer a `DenseMap`
yields for an absent key. -/
def ValueMapTy.lookup : ValueMapTy → Value → Option Value
  | [], _ => none
  | (K, NV) :: rest, V => if K = V then some NV else ValueMapTy.lookup rest V

/-- The state the rewriting of an instruction reads and updates: the value
map and the requests made to the builder so far. -/
structure State where
  VMap : ValueMapTy
  emitted : List Request
  deriving DecidableEq

/-- The assignment `VMap[K] = NV`. -/
def State.setVMap (s : State) (K NV : Value) : State :=
  { s with VMap := (K, NV) :: s.VMap }

/-- Modelled from the spec: a `Builder->Create...` call appends its request to
the log and returns the new value, an instruction of the new function whose
identity is its position in the log. -/
def State.insert (s : State) (r : Request) : Value × State :=
  ({ id := s.emitted.length, kind := .Instruction, type := r.type, rebuilt := true },
   { s with emitted := s.emitted ++ [r] })

/-- Source function `mapConstant`. -/
def mapConstant (C : Value) : Value :=
  C

/-- Source function `mapValue`: a constant maps to itself, any other value to
its entry of the value map, which must exist. -/
def mapValue (s : State) (V : Value) : Except Fatal Value :=
  if V.isConstant then
    .ok (mapConstant V)
  else
    match s.VMap.lookup V with
    | some NV => .ok NV
    | none => .error .assertMapped

/-! ## PointerArithmeticDecomposer -/

/-- An address computation of the old function (`GetElementPtrInst`): `self`
is the instruction as a value (its type is `II.getType()`), `pointerOperand`
is operand 0 and `indices` are the remaining operands. -/
structure GetElementPtrInst where
  self : Value
  name : String
  pointerOperand : Value
  indices : List Value
  deriving DecidableEq

/-- Modelled from the spec: an all-zero index chain, every index being the
integer constant zero (`GetElementPtrInst::hasAllZeroIndices`, not part of
these sources). -/
def GetElementPtrInst.hasAllZeroIndices (II : GetElementPtrInst) : Bool :=
  II.indices.all fun V => decide (V.kind = .ConstantInt 0)

/-- The outcome of the host's `DecomposeGEPExpression` on an address
computation, a parameter of the rewrite: the base value, the constant byte
offset `BaseOffs` and the variable indices, each with its byte stride. -/
structure Decomposition where
  base : Value
  BaseOffs : Int
  VarIndices : List (Value × Int)
  deriving DecidableEq

/-- The checked cast `cast<PointerType>(T)` followed by `getElementType()`. -/
def castPointerElementType : Ty → Except Fatal Ty
  | .pointer ETy _ => .ok ETy
  | _ => .error .castPointerType

/-- The second loop of `visitGetElementPtrInst`: each variable index is
truncated to `i32`, multiplied by its stride over `divisor` unless that
factor is 1, and added to the running `Sum` (absent before the first
index). -/
def sumVarIndices (divisor : Nat) :
    List (Value × Int) → Option Value → State → Except Fatal (Option Value × State)
  | [], Sum, s => .ok (Sum, s)
  | I :: rest, Sum, s =>
    let m := I.2.tdiv divisor
    let m2 := toInt32 m
    if m2 ≠ m then
      .error .assertFitsInt32
    else
      let (V, s) := s.insert (.TruncOrBitCast I.1 (.integer 32))
      let (V, s) := if m2 ≠ 1 then s.insert (.NSWMul (i32const m) V) else (V, s)
      let (Sum, s) :=
        match Sum with
        | some Sum => s.insert (.NSWAdd Sum V)
        | none => (V, s)
      sumVarIndices divisor rest (some Sum) s

/-- Source function `visitGetElementPtrInst`, with `D` the decomposition
`DecomposeGEPExpression` returns for `II`. -/
def visitGetElementPtrInst (TD : TargetData) (D : Decomposition) (II : GetElementPtrInst)
    (s : State) : Except Fatal State :=
  if II.hasAllZeroIndices then do
    let V ← mapValue s II.pointerOperand
    let T ← rebuildType TD II.self.type
    let (C, s) := s.insert (.PointerCast V T "rbcast")
    .ok (s.setVMap II.self C)
  else do
    let i8pTy := PointerType.getUnqual (.integer 8)
    let P ← mapValue s D.base
    let ETy ← castPointerElementType P.type
    let divisor := toUnsigned (TD.getTypeAllocSize ETy)
    if divisor = 0 then
      .error .divisionByZero
    else
      let (P, s) :=
        if D.BaseOffs.tmod divisor ≠ 0 then
          s.insert (.ConstGEP1_64 P (D.BaseOffs.tdiv divisor) "rb.base")
        else
          let (P, s) := s.insert (.PointerCast P i8pTy "")
          s.insert (.ConstGEP1_64 P D.BaseOffs "rb.base8")
      let allDivisible := D.VarIndices.all fun I => decide (I.2.tmod divisor = 0)
      let (divisor, P, s) :=
        if !allDivisible then
          let (P, s) := s.insert (.PointerCast P i8pTy "")
          (1, P, s)
        else
          (divisor, P, s)
      let (Sum, s) ← sumVarIndices divisor D.VarIndices none s
      let (P, s) :=
        match Sum with
        | some Sum => s.insert (.GEP P Sum)
        | none => (P, s)
      let (P, s) := s.insert (.PointerCast P II.self.type II.name)
      .ok (s.setVMap II.self P)

/-! ## The specification's scaled index terms -/

/-- The signed 32-bit range, in the words of the specification: an integer
fits when it lies between `-2 ^ 31` and `2 ^ 31 - 1`. -/
def fitsInt32 (m : Int) : Bool :=
  decide (-(2 ^ 31) ≤ m ∧ m < 2 ^ 31)

/-- The divisor the strides are scaled by, in the words of the specification:
the size of the pointee of the base, reset to 1 when byte granularity is
forced, that is when some stride is not divisible by that size. -/
def scaleDivisor (divisor : Nat) (VarIndices : List (Value × Int)) : Nat :=
  if VarIndices.all (fun I => decide (I.2.tmod divisor = 0)) then divisor else 1

/-- Requests that belong to the index sum: truncations, multiplications and
additions. -/
def Request.isIndexTerm : Request → Bool
  | .TruncOrBitCast _ _ => true
  | .NSWMul _ _ => true
  | .NSWAdd _ _ => true
  | _ => false

/-- The requests for the variable terms and their sum, in the words of the
specification, for a log that holds `n` requests and a running sum `Sum`: each
index in list order is truncated to 32 bits; the truncation is multiplied by
the scaled stride `stride / d` with a no-signed-wrap multiplication unless
that factor is 1; and the term is added to the running sum with a
no-signed-wrap addition, the first term starting the sum. Defined from the
specification, for comparison with `sumVarIndices`. -/
def scaledTerms (d : Nat) :
    List (Value × Int) → Nat → Option Value → List Request × Option Value
  | [], _, Sum => ([], Sum)
  | I :: rest, n, Sum =>
    let factor := I.2.tdiv d
    let index : Value := { id := n, kind := .Instruction, type := .integer 32, rebuilt := true }
    let scale : List Request :=
      if factor = 1 then [] else [.NSWMul (i32const factor) index]
    let term : Value :=
      { id := n + scale.length, kind := .Instruction, type := .integer 32, rebuilt := true }
    let add : List Request :=
      match Sum with
      | some S => [.NSWAdd S term]
      | none => []
    let Total : Value :=
      match Sum with
      | some S =>
        { id := n + scale.length + 1, kind := .Instruction, type := S.type, rebuilt := true }
      | none => term
    let (more, Total) :=
      scaledTerms d rest (n + 1 + scale.length + add.length) (some Total)
    (.TruncOrBitCast I.1 (.integer 32) :: (scale ++ add ++ more), Total)

/-! ## InstructionRewriter -/

/-- The block map `BBMap` (`DenseMap<const BasicBlock*, BasicBlock*>`), newest
entry first. -/
abbrev BBMapTy := List (BasicBlock × BasicBlock)

/-- Entry of the block map for `BB`, `none` for the null pointer of an absent
key. -/
def BBMapTy.lookup : BBMapTy → BasicBlock → Option BasicBlock
  | [], _ => none
  | (K, NBB) :: rest, BB => if K = BB then some NBB else BBMapTy.lookup rest BB

/-- The function map `FMap` (`DenseMap<const Function*, Function*>`), newest
entry first. -/
abbrev FMapTy := List (Function × Function)

/-- Entry of the function map for `F`, `none` for the null pointer of an absent
key. -/
def FMapTy.lookup : FMapTy → Function → Option Function
  | [], _ => none
  | (K, NF) :: rest, F => if K = F then some NF else FMapTy.lookup rest F

/-- The call `VMap.clear()`. -/
def ValueMapTy.clear (_ : ValueMapTy) : ValueMapTy :=
  []

/-- The call `BBMap.clear()`. -/
def BBMapTy.clear (_ : BBMapTy) : BBMapTy :=
  []

/-- Source function `mapBlock`: the entry of the block map, which must
exist. -/
def mapBlock (BBMap : BBMapTy) (BB : BasicBlock) : Except Fatal BasicBlock :=
  match BBMap.lookup BB with
  | some NBB => .ok NBB
  | none => .error .assertBlockMapped

/-- Source function `mapPointer`: the mapped value, cast to the type of the
original pointer. -/
def mapPointer (s : State) (P : Value) : Except Fatal (Value × State) := do
  let PV ← mapValue s P
  .ok (s.insert (.PointerCast PV P.type "rbcast"))

/-- Source function `u64const`: the 64-bit constant `n`. -/
def u64const (n : Nat) : Value :=
  { id := 0, kind := .ConstantInt (n % 2 ^ 64), type := .integer 64, rebuilt := false }

/-- A stack allocation of the old function (`AllocaInst`): `self` is the
instruction as a value (its type is `AI.getType()`), `arraySize` is
`getArraySize()`. -/
structure AllocaInst where
  self : Value
  name : String
  allocatedType : Ty
  arraySize : Value
  deriving DecidableEq

/-- Source function `visitAllocaInst`. The count `n` is a `uint64_t`, so the
product with the array length is reduced modulo `2 ^ 64`. -/
def visitAllocaInst (TD : TargetData) (AI : AllocaInst) (s : State) : Except Fatal State :=
  match AI.arraySize.kind with
  | .ConstantInt zext => do
    let n := zext % 2 ^ 64
    let T ← rebuildType TD AI.allocatedType
    let (T, n) :=
      match T with
      | .array ETy k => (ETy, n * k % 2 ^ 64)
      | _ => (T, n)
    let (V, s) := s.insert (.Alloca T (if n = 1 then none else some (u64const n)) AI.name)
    let (C, s) := s.insert (.PointerCast V AI.self.type AI.name)
    .ok (s.setVMap AI.self C)
  | _ => .error (.stop "VLA not supported" AI.self)

/-- A return of the old function (`ReturnInst`). -/
structure ReturnInst where
  returnValue : Option Value
  deriving DecidableEq

/-- Source function `visitReturnInst`. -/
def visitReturnInst (I : ReturnInst) (s : State) : Except Fatal State :=
  match I.returnValue with
  | none => .ok (s.insert .RetVoid).2
  | some V => do
    let NV ← mapValue s V
    .ok (s.insert (.Ret NV)).2

/-- A branch of the old function (`BranchInst`), unconditional with one
successor or conditional with a condition and two successors. -/
inductive BranchInst
  | unconditional (succ0 : BasicBlock)
  | conditional (condition : Value) (succ0 succ1 : BasicBlock)
  deriving DecidableEq

/-- Source function `visitBranchInst`. -/
def visitBranchInst (BBMap : BBMapTy) (I : BranchInst) (s : State) : Except Fatal State :=
  match I with
  | .conditional condition succ0 succ1 => do
    let C ← mapValue s condition
    let T ← mapBlock BBMap succ0
    let F ← mapBlock BBMap succ1
    .ok (s.insert (.CondBr C T F)).2
  | .unconditional succ0 => do
    let D ← mapBlock BBMap succ0
    .ok (s.insert (.Br D)).2

/-- A multi-way branch of the old function (`SwitchInst`): the condition, the
default destination and the cases other than the default, in order. -/
structure SwitchInst where
  condition : Value
  defaultDest : BasicBlock
  cases : List (Value × BasicBlock)
  deriving DecidableEq

/-- Modelled from the spec: in this version of the host `getNumCases()` counts
the default destination as case 0. -/
def SwitchInst.getNumCases (I : SwitchInst) : Nat :=
  I.cases.length + 1

/-- Modelled from the spec: successor 0 is the default destination, successor
`i` is the destination of case `i`. -/
def SwitchInst.getSuccessor (I : SwitchInst) (i : Nat) : Option BasicBlock :=
  if i = 0 then some I.defaultDest else (I.cases.get? (i - 1)).map Prod.snd

/-- Modelled from the spec: the constant of case `i`, for `i` from 1. -/
def SwitchInst.getCaseValue (I : SwitchInst) (i : Nat) : Option Value :=
  if i = 0 then none else (I.cases.get? (i - 1)).map Prod.fst

/-- The call `SI->addCase(OnVal, Dest)` on the switch the builder created as
`SI`. -/
def State.addCase (s : State) (SI : Value) (OnVal : Value) (Dest : BasicBlock) : State :=
  match s.emitted.get? SI.id with
  | some (.Switch V D NumCases Cases) =>
    { s with emitted := s.emitted.set SI.id (.Switch V D NumCases (Cases ++ [(OnVal, Dest)])) }
  | _ => s

/-- The loop `for (i = ...; i < I.getNumCases(); i++)` of `visitSwitchInst`,
from index `i` with `k` iterations left. -/
def visitSwitchInst.loop (BBMap : BBMapTy) (I : SwitchInst) (SI : Value) :
    Nat → Nat → State → Except Fatal State
  | _, 0, s => .ok s
  | i, k + 1, s =>
    match I.getSuccessor i, I.getCaseValue i with
    | some Succ, some OnVal => do
      let BB ← mapBlock BBMap Succ
      visitSwitchInst.loop BBMap I SI (i + 1) k (s.addCase SI OnVal BB)
    | _, _ => .error .operandIndex

/-- Source function `visitSwitchInst`. -/
def visitSwitchInst (BBMap : BBMapTy) (I : SwitchInst) (s : State) : Except Fatal State := do
  let C ← mapValue s I.condition
  let D ← mapBlock BBMap I.defaultDest
  let (SI, s) := s.insert (.Switch C D I.getNumCases [])
  visitSwitchInst.loop BBMap I SI 1 (I.getNumCases - 1) s

/-- Source function `visitUnreachableInst`. -/
def visitUnreachableInst (s : State) : Except Fatal State :=
  .ok (s.insert .Unreachable).2

/-- An integer comparison of the old function (`ICmpInst`). -/
structure ICmpInst where
  self : Value
  name : String
  predicate : Nat
  operand0 : Value
  operand1 : Value
  deriving DecidableEq

/-- Source function `visitICmpInst`. -/
def visitICmpInst (I : ICmpInst) (s : State) : Except Fatal State := do
  let LHS ← mapValue s I.operand0
  let RHS ← mapValue s I.operand1
  let (C, s) := s.insert (.ICmp I.predicate LHS RHS I.name)
  .ok (s.setVMap I.self C)

/-- A load of the old function (`LoadInst`). -/
structure LoadInst where
  self : Value
  name : String
  pointerOperand : Value
  deriving DecidableEq

/-- Source function `visitLoadInst`. -/
def visitLoadInst (I : LoadInst) (s : State) : Except Fatal State := do
  let (P, s) ← mapPointer s I.pointerOperand
  let (L, s) := s.insert (.Load P I.name)
  .ok (s.setVMap I.self L)

/-- A store of the old function (`StoreInst`): operand 0 is the value. -/
structure StoreInst where
  valueOperand : Value
  pointerOperand : Value
  deriving DecidableEq

/-- Source function `visitStoreInst`. -/
def visitStoreInst (I : StoreInst) (s : State) : Except Fatal State := do
  let V ← mapValue s I.valueOperand
  let (P, s) ← mapPointer s I.pointerOperand
  .ok (s.insert (.Store V P)).2

/-- A phi node of the old function (`PHINode`) with its incoming
(value, predecessor block) edges. -/
structure PHINode where
  self : Value
  incoming : List (Value × BasicBlock)
  deriving DecidableEq

/-- The call `Builder->CreatePHI(T)`: a new phi node without incoming edge. -/
def State.createPHI (s : State) (T : Ty) : Value × State :=
  ({ id := s.emitted.length, kind := .PHINode, type := T, rebuilt := true },
   { s with emitted := s.emitted ++ [.PHI T []] })

/-- The incoming edges of the phi node the builder created as `PN`, `none` when
`PN` is no such phi node. -/
def State.phiIncoming (s : State) (PN : Value) : Option (List (Value × BasicBlock)) :=
  match PN.kind, s.emitted.get? PN.id with
  | .PHINode, some (.PHI _ Incoming) => some Incoming
  | _, _ => none

/-- The calls `PN->setIncomingBlock(i, BB)` and `PN->setIncomingValue(i, V)` on
the phi node the builder created as `PN`. -/
def State.setIncoming (s : State) (PN : Value) (i : Nat) (V : Value) (BB : BasicBlock) :
    State :=
  match s.emitted.get? PN.id with
  | some (.PHI T Incoming) =>
    { s with emitted := s.emitted.set PN.id (.PHI T (Incoming.set i (V, BB))) }
  | _ => s

/-- Source function `mapPHIValue`: a phi node maps to its entry of the value
map, created empty when absent; any other value goes through `mapValue`. -/
def mapPHIValue (s : State) (V : Value) : Except Fatal (Value × State) :=
  if V.kind = .PHINode then
    match s.VMap.lookup V with
    | some NV => .ok (NV, s)
    | none =>
      let (NV, s) := s.createPHI V.type
      .ok (NV, s.setVMap V NV)
  else do
    let NV ← mapValue s V
    .ok (NV, s)

/-- The loop `for (i = ...; i < PN->getNumIncomingValues(); i++)` of
`visitPHINode`, from index `i` with `k` iterations left; `PN` is the phi node
of the new function, whose number of incoming edges the body does not
change. -/
def visitPHINode.loop (BBMap : BBMapTy) (PN : Value) : Nat → Nat → State → Except Fatal State
  | _, 0, s => .ok s
  | i, k + 1, s =>
    match (s.phiIncoming PN).bind fun Incoming => Incoming.get? i with
    | some (IV, IB) => do
      let (V, s) ← mapPHIValue s IV
      let BB ← mapBlock BBMap IB
      visitPHINode.loop BBMap PN (i + 1) k (s.setIncoming PN i V BB)
    | none => .error .operandIndex

/-- Source function `visitPHINode`. The loop runs over the incoming edges of
`PN`, the phi node of the new function. -/
def visitPHINode (BBMap : BBMapTy) (I : PHINode) (s : State) : Except Fatal State := do
  let (PN, s) ←
    match s.VMap.lookup I.self with
    | some VV =>
      match s.phiIncoming VV with
      | some _ => (.ok (VV, s) : Except Fatal (Value × State))
      | none => .error .castPHINode
    | none =>
      let (PN, s) := s.createPHI I.self.type
      .ok (PN, s.setVMap I.self PN)
  match s.phiIncoming PN with
  | some Incoming => visitPHINode.loop BBMap PN 0 Incoming.length s
  | none => .error .castPHINode

/-- A type conversion of the old function (`CastInst`); its destination type
is the type of `self`. -/
structure CastInst where
  self : Value
  name : String
  opcode : Nat
  operand : Value
  deriving DecidableEq

/-- Source function `visitCastInst`. -/
def visitCastInst (TD : TargetData) (I : CastInst) (s : State) : Except Fatal State := do
  let V ← mapValue s I.operand
  let T ← rebuildType TD I.self.type
  let (C, s) := s.insert (.Cast I.opcode V T I.name)
  .ok (s.setVMap I.self C)

/-- A select of the old function (`SelectInst`). -/
structure SelectInst where
  self : Value
  name : String
  condition : Value
  trueValue : Value
  falseValue : Value
  deriving DecidableEq

/-- Source function `visitSelectInst`. -/
def visitSelectInst (I : SelectInst) (s : State) : Except Fatal State := do
  let C ← mapValue s I.condition
  let T ← mapValue s I.trueValue
  let F ← mapValue s I.falseValue
  let (V, s) := s.insert (.Select C T F I.name)
  .ok (s.setVMap I.self V)

/-- A call of the old function (`CallInst`): `calledFunction` is
`getCalledFunction()`, absent for an indirect call, and `args` are the
operands from operand 1 on. -/
structure CallInst where
  self : Value
  name : String
  calledFunction : Option Function
  args : List Value
  deriving DecidableEq

/-- The first loop of `visitCallInst`, over the declared parameter types from
parameter `i`: each operand is mapped and, when its type is not the declared
one, bit-cast to it. -/
def visitCallInst.externalParams (I : CallInst) :
    List Ty → Nat → State → Except Fatal (List Value × State)
  | [], _, s => .ok ([], s)
  | T :: rest, i, s =>
    match I.args.get? i with
    | none => .error .operandIndex
    | some Op => do
      let V ← mapValue s Op
      let (V, s) := if V.type ≠ T then s.insert (.BitCast V T) else (V, s)
      let (params, s) ← visitCallInst.externalParams I rest (i + 1) s
      .ok (V :: params, s)

/-- The second loop of `visitCallInst`, over the declared parameter types from
parameter `i`: each operand is mapped. -/
def visitCallInst.internalParams (I : CallInst) (s : State) :
    List Ty → Nat → Except Fatal (List Value)
  | [], _ => .ok []
  | _ :: rest, i =>
    match I.args.get? i with
    | none => .error .operandIndex
    | some Op => do
      let V ← mapValue s Op
      let params ← visitCallInst.internalParams I s rest (i + 1)
      .ok (V :: params)

/-- Source function `visitCallInst`. -/
def visitCallInst (FMap : FMapTy) (I : CallInst) (s : State) : Except Fatal State :=
  match I.calledFunction with
  | none => .error .nullCalledFunction
  | some F =>
    if F.isDeclaration then
      if F.type.isVarArg then
        .error .assertNotVarArg
      else do
        let (params, s) ← visitCallInst.externalParams I F.type.params 0 s
        let (C, s) := s.insert (.Call F params I.name)
        .ok (s.setVMap I.self C)
    else
      match FMap.lookup F with
      | none => .error .assertFunctionMapped
      | some NF => do
        let params ← visitCallInst.internalParams I s F.type.params 0
        let (C, s) := s.insert (.Call NF params I.name)
        .ok (s.setVMap I.self C)

/-- A binary operator of the old function (`BinaryOperator`). -/
structure BinaryOperator where
  self : Value
  name : String
  opcode : Nat
  operand0 : Value
  operand1 : Value
  deriving DecidableEq

/-- Source function `visitBinaryOperator`. -/
def visitBinaryOperator (I : BinaryOperator) (s : State) : Except Fatal State := do
  let LHS ← mapValue s I.operand0
  let RHS ← mapValue s I.operand1
  let (V, s) := s.insert (.BinOp I.opcode LHS RHS I.name)
  .ok (s.setVMap I.self V)

/-- Source function `visitInstruction`, the visitor of every instruction kind
the pass does not override. -/
def visitInstruction (I : Value) (_ : State) : Except Fatal State :=
  .error (.stop "ClamAV bytecode backend rebuilder does not know about " I)

/-- An instruction of the old function, by the visitor the instruction
dispatch (`InstVisitor`) selects for it; `Other` stands for every kind without
a visitor of its own in the pass. -/
inductive Instruction
  | Alloca (I : AllocaInst)
  | Ret (I : ReturnInst)
  | Br (I : BranchInst)
  | Switch (I : SwitchInst)
  | Unreachable
  | ICmp (I : ICmpInst)
  | Load (I : LoadInst)
  | Store (I : StoreInst)
  | GetElementPtr (I : GetElementPtrInst)
  | PHI (I : PHINode)
  | Cast (I : CastInst)
  | Select (I : SelectInst)
  | Call (I : CallInst)
  | BinaryOp (I : BinaryOperator)
  | Other (self : Value) (opcodeName : String)
  deriving DecidableEq

/-- The dispatch `visit(Instruction&)` of `InstVisitor`; `Decompose` is the
host's `DecomposeGEPExpression` against the layout `TD`. -/
def visit (TD : TargetData) (Decompose : GetElementPtrInst → Decomposition) (FMap : FMapTy)
    (BBMap : BBMapTy) (I : Instruction) (s : State) : Except Fatal State :=
  match I with
  | .Alloca I => visitAllocaInst TD I s
  | .Ret I => visitReturnInst I s
  | .Br I => visitBranchInst BBMap I s
  | .Switch I => visitSwitchInst BBMap I s
  | .Unreachable => visitUnreachableInst s
  | .ICmp I => visitICmpInst I s
  | .Load I => visitLoadInst I s
  | .Store I => visitStoreInst I s
  | .GetElementPtr I => visitGetElementPtrInst TD (Decompose I) I s
  | .PHI I => visitPHINode BBMap I s
  | .Cast I => visitCastInst TD I s
  | .Select I => visitSelectInst I s
  | .Call I => visitCallInst FMap I s
  | .BinaryOp I => visitBinaryOperator I s
  | .Other self _ => visitInstruction self s

/-- The call `visit(BB)`: the instructions of a block are visited in order. -/
def visitBasicBlock (TD : TargetData) (Decompose : GetElementPtrInst → Decomposition)
    (FMap : FMapTy) (BBMap : BBMapTy) : List Instruction → State → Except Fatal State
  | [], s => .ok s
  | I :: rest, s => do
    let s ← visit TD Decompose FMap BBMap I s
    visitBasicBlock TD Decompose FMap BBMap rest s

/-! ## ModuleRebuildOrchestrator: one function -/

/-- A function with a body: the function and its blocks in order, each with
its instructions. -/
structure FunctionBody where
  F : Function
  blocks : List (BasicBlock × List Instruction)
  deriving DecidableEq

/-- The first loop of `runOnFunction`: for each old block in order,
`BasicBlock::Create(.., BB->getName(), NF, 0)` appends a new block of the same
name to the new function, and the block map records it. `blocks` are the
blocks of the new function so far. -/
def runOnFunction.createBlocks :
    List BasicBlock → BBMapTy → List BasicBlock → BBMapTy × List BasicBlock
  | [], BBMap, blocks => (BBMap, blocks)
  | BB :: rest, BBMap, blocks =>
    let NBB : BasicBlock := { id := blocks.length, name := BB.name, rebuilt := true }
    runOnFunction.createBlocks rest ((BB, NBB) :: BBMap) (blocks ++ [NBB])

/-- The second loop of `runOnFunction`: each old block is visited with a
builder that appends to its new block; `ends` records, for each block done,
its new block and the length of the log when its builder was deleted. -/
def runOnFunction.visitBlocks (TD : TargetData)
    (Decompose : GetElementPtrInst → Decomposition) (FMap : FMapTy) (BBMap : BBMapTy) :
    List (BasicBlock × List Instruction) → State → List (BasicBlock × Nat) →
      Except Fatal (State × List (BasicBlock × Nat))
  | [], s, ends => .ok (s, ends)
  | (BB, insts) :: rest, s, ends => do
    let NBB ← mapBlock BBMap BB
    let s ← visitBasicBlock TD Decompose FMap BBMap insts s
    runOnFunction.visitBlocks TD Decompose FMap BBMap rest s (ends ++ [(NBB, s.emitted.length)])

/-- What `runOnFunction` leaves behind: the new function `NF`, its blocks in
order, the block map, the value map and the log of the requests made for `NF`
(`st`), and the extent of each new block in that log (`ends`). -/
structure Rebuilt where
  NF : Function
  blocks : List BasicBlock
  BBMap : BBMapTy
  st : State
  ends : List (BasicBlock × Nat)
  deriving DecidableEq

/-- Source function `runOnFunction`. `VMap` and `BBMap` are the maps as the
previous function left them; both are cleared first. -/
def runOnFunction (TD : TargetData) (Decompose : GetElementPtrInst → Decomposition)
    (FMap : FMapTy) (VMap : ValueMapTy) (BBMap : BBMapTy) (F : FunctionBody) :
    Except Fatal Rebuilt :=
  match FMap.lookup F.F with
  | none => .error .assertFunctionMapped
  | some NF =>
    let VMap := VMap.clear
    let BBMap := BBMap.clear
    let (BBMap, blocks) := runOnFunction.createBlocks (F.blocks.map Prod.fst) BBMap []
    match runOnFunction.visitBlocks TD Decompose FMap BBMap F.blocks
        { VMap := VMap, emitted := [] } [] with
    | .error e => .error e
    | .ok (s, ends) => .ok { NF := NF, blocks := blocks, BBMap := BBMap, st := s, ends := ends }

/-! ## ModuleRebuildOrchestrator: the module -/

/-- A module (`llvm::Module`) during the pass. `functions` are the functions of
the input still in the function list, in order, each with its blocks (none
for a declaration); `created` are the functions the pass has appended to the
function list, in order; `rebuilt` holds, for each created function whose body
has been built, what `runOnFunction` left (`Rebuilt.NF` is the function the
body belongs to). A module given to the pass has no created function. -/
structure Module where
  functions : List FunctionBody
  created : List Function
  rebuilt : List Rebuilt
  deriving DecidableEq

/-- Modelled from the spec: `Function::Create(FTy, Linkage, Name, M)`
(`llvm::Function`, not part of these sources) creates a function of the given
type, linkage and name, without a body, and appends it to the function list of
`M`; its identity is its position among the created functions. -/
def Function.Create (FTy : FunctionType) (Linkage : LinkageTypes) (Name : String)
    (M : Module) : Function × Module :=
  let NF : Function :=
    { id := M.created.length, name := Name, type := FTy, isDeclaration := true,
      rebuilt := true, linkage := Linkage }
  (NF, { M with created := M.created ++ [NF] })

/-- The loop of `createFunction`: the parameter types are rebuilt in order. -/
def createFunction.params (TD : TargetData) : List Ty → Except Fatal (List Ty)
  | [] => .ok []
  | T :: rest => do
    let T ← rebuildType TD T
    let params ← createFunction.params TD rest
    .ok (T :: params)

/-- Source function `createFunction`. -/
def createFunction (TD : TargetData) (F : Function) (M : Module) :
    Except Fatal (Function × Module) :=
  if F.type.isVarArg then
    .error .assertNotVarArg
  else do
    let params ← createFunction.params TD F.type.params
    let Ret ← rebuildType TD F.type.returnType
    let FTy : FunctionType := { returnType := Ret, params := params, isVarArg := false }
    .ok (Function.Create FTy .InternalLinkage F.name M)

/-- Modelled from the spec: `F->deleteBody()` (`llvm::Function`, not part of
these sources) discards the body of `F`. The function is then one without a
body, which is what `isDeclaration()` tests; the host also resets its linkage
to external. -/
def Function.deleteBody (F : Function) : Function :=
  { F with isDeclaration := true, linkage := .ExternalLinkage }

/-- What a pointer to the function `G` shows once `deleteBody` has run on `F`:
`G` without its body when it is the same object, `G` as it was otherwise. -/
def Function.afterDeleteBody (G F : Function) : Function :=
  if G.id = F.id then G.deleteBody else G

/-- An instruction once `deleteBody` has run on `F`: a call holds a pointer to
its callee, so `getCalledFunction()` shows the callee in its new state. -/
def Instruction.afterDeleteBody (F : Function) : Instruction → Instruction
  | .Call I =>
    .Call { I with calledFunction := I.calledFunction.map fun G => G.afterDeleteBody F }
  | I => I

/-- A function of the module once `deleteBody` has run on `F`: `F` itself has
no block left, any other function keeps its blocks. -/
def FunctionBody.afterDeleteBody (F : Function) (B : FunctionBody) : FunctionBody :=
  { F := B.F.afterDeleteBody F,
    blocks :=
      if B.F.id = F.id then []
      else B.blocks.map fun b => (b.1, b.2.map (Instruction.afterDeleteBody F)) }

/-- The call `F->deleteBody()` on a function of the module `M`. -/
def Module.deleteBody (M : Module) (F : Function) : Module :=
  { M with functions := M.functions.map (FunctionBody.afterDeleteBody F) }

/-- Modelled from the spec: `F->eraseFromParent()` (`llvm::Function`, not part
of these sources) unlinks the object `F` from the function list of `M`. -/
def Module.eraseFromParent (M : Module) (F : Function) : Module :=
  { M with functions := M.functions.filter fun G => decide (G.F.id ≠ F.id) }

/-- The call `FMap.clear()`. -/
def FMapTy.clear (_ : FMapTy) : FMapTy :=
  []

/-- The second loop of `runOnModule`: `FMap[F] = createFunction(F, &M)` for
each collected function in order. -/
def runOnModule.createFunctions (TD : TargetData) :
    List FunctionBody → FMapTy → Module → Except Fatal (FMapTy × Module)
  | [], FMap, M => .ok (FMap, M)
  | F :: rest, FMap, M => do
    let (NF, M) ← createFunction TD F.F M
    runOnModule.createFunctions TD rest ((F.F, NF) :: FMap) M

/-- The function a pointer of the collected vector points to, in the state the
module holds it now. -/
def Module.deref (M : Module) (F : FunctionBody) : FunctionBody :=
  (M.functions.find? fun G => decide (G.F.id = F.F.id)).getD F

/-- The third loop of `runOnModule`: `runOnFunction(F)` then `F->deleteBody()`
for each collected function in order. The vector holds pointers, so each
function is rewritten in the state the deletions before it left. -/
def runOnModule.rewriteFunctions (TD : TargetData)
    (Decompose : GetElementPtrInst → Decomposition) (FMap : FMapTy) :
    List FunctionBody → ValueMapTy → BBMapTy → Module →
      Except Fatal (ValueMapTy × BBMapTy × Module)
  | [], VMap, BBMap, M => .ok (VMap, BBMap, M)
  | F :: rest, VMap, BBMap, M => do
    let F := M.deref F
    let R ← runOnFunction TD Decompose FMap VMap BBMap F
    let M := { M with rebuilt := M.rebuilt ++ [R] }
    let M := M.deleteBody F.F
    runOnModule.rewriteFunctions TD Decompose FMap rest R.st.VMap R.BBMap M

/-- The fourth loop of `runOnModule`: `F->eraseFromParent()` for each
collected function in order. -/
def runOnModule.eraseFunctions : List FunctionBody → Module → Module
  | [], M => M
  | F :: rest, M => runOnModule.eraseFunctions rest (M.eraseFromParent F.F)

/-- What `runOnModule` leaves behind: the value it returns (`changed`), the
module, and the three maps. -/
structure ModuleRun where
  changed : Bool
  M : Module
  FMap : FMapTy
  VMap : ValueMapTy
  BBMap : BBMapTy
  deriving DecidableEq

/-- Source function `runOnModule`. `FMap`, `VMap` and `BBMap` are the maps as
the pass object holds them on entry. -/
def runOnModule (TD : TargetData) (Decompose : GetElementPtrInst → Decomposition)
    (FMap : FMapTy) (VMap : ValueMapTy) (BBMap : BBMapTy) (M : Module) :
    Except Fatal ModuleRun := do
  let FMap := FMap.clear
  let functions := M.functions.filter fun F => !F.F.isDeclaration
  let (FMap, M) ← runOnModule.createFunctions TD functions FMap M
  let (VMap, BBMap, M) ← runOnModule.rewriteFunctions TD Decompose FMap functions VMap BBMap M
  let M := runOnModule.eraseFunctions functions M
  .ok { changed := true, M := M, FMap := FMap, VMap := VMap, BBMap := BBMap }

/-! ## The address a request sequence denotes

The reading of the emitted cast and element-address sequence the statements on
byte offsets use: a pointer cast keeps the address, an element-address step
adds its index times the storage size of the pointee of its pointer, and the
integer instructions of the index sum are exact (their no-signed-wrap forms
have a result only when the 32-bit arithmetic does not overflow). -/

/-- Signed value of an integer constant of type `T` whose zero-extended value
is `zext`. -/
def getSExtValue (T : Ty) (zext : Nat) : Int :=
  match T with
  | .integer bits => ((zext : Int) + 2 ^ (bits - 1)) % 2 ^ bits - 2 ^ (bits - 1)
  | _ => zext

/-- Storage size of the pointee of a pointer type. -/
def pointeeSize (TD : TargetData) (T : Ty) : Int :=
  match T with
  | .pointer ETy _ => TD.getTypeAllocSize ETy
  | _ => 0

/-- The integer or address an operand denotes: a constant integer its signed
value, a value of the new function the entry of `vals` at its position in the
log, any other value what the assignment `env` gives it. -/
def denoteValue (env : Value → Int) (vals : List Int) (V : Value) : Int :=
  match V.kind with
  | .ConstantInt zext => getSExtValue V.type zext
  | _ => if V.rebuilt then vals.getD V.id 0 else env V

/-- The integer or address a request denotes, given what the earlier requests
denote. Requests outside address computation denote `0`. -/
def denoteRequest (TD : TargetData) (env : Value → Int) (vals : List Int) : Request → Int
  | .PointerCast V _ _ => denoteValue env vals V
  | .ConstGEP1_64 Ptr Idx0 _ => denoteValue env vals Ptr + Idx0 * pointeeSize TD Ptr.type
  | .GEP Ptr Idx => denoteValue env vals Ptr + denoteValue env vals Idx * pointeeSize TD Ptr.type
  | .TruncOrBitCast V _ => denoteValue env vals V
  | .NSWMul LHS RHS => denoteValue env vals LHS * denoteValue env vals RHS
  | .NSWAdd LHS RHS => denoteValue env vals LHS + denoteValue env vals RHS
  | _ => 0

/-- What each request of a log denotes, in log order. -/
def denoteLog (TD : TargetData) (env : Value → Int) (log : List Request) : List Int :=
  log.foldl (fun vals r => vals ++ [denoteRequest TD env vals r]) []

/-- What a value denotes after the requests of state `s`. -/
def State.denote (TD : TargetData) (env : Value → Int) (s : State) (V : Value) : Int :=
  denoteValue env (denoteLog TD env s.emitted) V

/-! ## The operands of a request -/

/-- The values a request has as operands, in order (blocks, types and the
called function apart). -/
def Request.operands : Request → List Value
  | .PointerCast V _ _ => [V]
  | .ConstGEP1_64 Ptr _ _ => [Ptr]
  | .TruncOrBitCast V _ => [V]
  | .NSWMul LHS RHS => [LHS, RHS]
  | .NSWAdd LHS RHS => [LHS, RHS]
  | .GEP Ptr Idx => [Ptr, Idx]
  | .Alloca _ ArraySize _ => ArraySize.toList
  | .RetVoid => []
  | .Ret V => [V]
  | .Br _ => []
  | .CondBr Cond _ _ => [Cond]
  | .Switch V _ _ Cases => V :: Cases.map Prod.fst
  | .Unreachable => []
  | .ICmp _ LHS RHS _ => [LHS, RHS]
  | .Load Ptr _ => [Ptr]
  | .Store Val Ptr => [Val, Ptr]
  | .PHI _ Incoming => Incoming.map Prod.fst
  | .Cast _ V _ _ => [V]
  | .Select C True False _ => [C, True, False]
  | .BitCast V _ => [V]
  | .Call _ Args _ => Args
  | .BinOp _ LHS RHS _ => [LHS, RHS]

/-! ## The storage an allocation reserves -/

/-- The bytes an allocation request reserves: the storage size of the element
type times the element count, which is 1 when the request has no count.
Requests that are no allocation reserve nothing. -/
def Request.allocaBytes (TD : TargetData) : Request → Nat
  | .Alloca T (some ArraySize) _ =>
    match ArraySize.kind with
    | .ConstantInt zext => zext * TD.getTypeAllocSize T
    | _ => 0
  | .Alloca T none _ => TD.getTypeAllocSize T
  | _ => 0

/-! ## What an instruction defines and which operands it maps -/

/-- The value an instruction of the old function defines: the key under which
its visitor records a value in the value map. -/
def Instruction.defines : Instruction → Option Value
  | .Alloca I => some I.self
  | .ICmp I => some I.self
  | .Load I => some I.self
  | .GetElementPtr I => some I.self
  | .PHI I => some I.self
  | .Cast I => some I.self
  | .Select I => some I.self
  | .Call I => some I.self
  | .BinaryOp I => some I.self
  | _ => none

/-- The operands of an instruction of the old function that its visitor
passes to `mapValue`: the value returned, the condition of a branch or
switch, the operands of a comparison, binary operator, cast and select, the
pointer of a load, the value and the pointer of a store, the arguments of a
call up to the number of declared parameters, and the base of an address
computation (operand 0 when all indices are zero, the base of the
decomposition otherwise). -/
def Instruction.mappedOperands (Decompose : GetElementPtrInst → Decomposition) :
    Instruction → List Value
  | .Ret I => I.returnValue.toList
  | .Br (.conditional condition _ _) => [condition]
  | .Switch I => [I.condition]
  | .ICmp I => [I.operand0, I.operand1]
  | .Load I => [I.pointerOperand]
  | .Store I => [I.valueOperand, I.pointerOperand]
  | .GetElementPtr I =>
    [if I.hasAllZeroIndices then I.pointerOperand else (Decompose I).base]
  | .Cast I => [I.operand]
  | .Select I => [I.condition, I.trueValue, I.falseValue]
  | .Call I =>
    match I.calledFunction with
    | some F => I.args.take F.type.params.length
    | none => []
  | .BinaryOp I => [I.operand0, I.operand1]
  | _ => []

/-! ## Concrete values for evaluation

A global `@g` of type `[4 x i32]*`, the address computation
`%p = getelementptr [4 x i32]* @g, i64 0, i64 0` (all indices zero), an index
`%i` of type `i64`, and two address computations on `%p`. -/

/-- The pointer type `i32*`. -/
def Example.i32p : Ty := PointerType.getUnqual (.integer 32)

/-- The pointer type `i8*`. -/
def Example.i8p : Ty := PointerType.getUnqual (.integer 8)

/-- The constant `i64 0`. -/
def Example.zero64 : Value :=
  { id := 0, kind := .ConstantInt 0, type := .integer 64, rebuilt := false }

/-- The global `@g`, a constant of type `[4 x i32]*`. -/
def Example.g : Value :=
  { id := 1, kind := .Constant, type := PointerType.getUnqual (.array (.integer 32) 4),
    rebuilt := false }

/-- The old instruction `%p = getelementptr [4 x i32]* @g, i64 0, i64 0`. -/
def Example.p : GetElementPtrInst :=
  { self := { id := 2, kind := .Instruction, type := Example.i32p, rebuilt := false },
    name := "p", pointerOperand := Example.g, indices := [Example.zero64, Example.zero64] }

/-- The old value `%i` of type `i64`, an instruction result of the old
function. -/
def Example.i : Value :=
  { id := 3, kind := .Instruction, type := .integer 64, rebuilt := false }

/-- The value produced by request number `n` of the log, of type `T`. -/
def Example.built (n : Nat) (T : Ty) : Value :=
  { id := n, kind := .Instruction, type := T, rebuilt := true }

/-- The state after `%p` has been rewritten from the empty state: one pointer
cast of `@g` to `i32*`, recorded for `%p`. -/
def Example.s1 : State :=
  { VMap := [(Example.p.self, Example.built 0 Example.i32p)],
    emitted := [.PointerCast Example.g Example.i32p "rbcast"] }

/-- The old instruction `%q = getelementptr i8* (bitcast %p), i64 6`, six bytes
past `%p`. -/
def Example.q : GetElementPtrInst :=
  { self := { id := 5, kind := .Instruction, type := Example.i8p, rebuilt := false },
    name := "q",
    pointerOperand := { id := 4, kind := .Instruction, type := Example.i8p, rebuilt := false },
    indices := [{ id := 0, kind := .ConstantInt 6, type := .integer 64, rebuilt := false }] }

/-- Decomposition of `%q`: base `%p`, constant offset 6 bytes, no variable
index. -/
def Example.qDecomposition : Decomposition :=
  { base := Example.p.self, BaseOffs := 6, VarIndices := [] }

/-- The old instruction `%r = getelementptr i32* %p, i64 %i`. -/
def Example.r : GetElementPtrInst :=
  { self := { id := 6, kind := .Instruction, type := Example.i32p, rebuilt := false },
    name := "r", pointerOperand := Example.p.self, indices := [Example.i] }

/-- Decomposition of `%r`: base `%p`, constant offset 0, index `%i` with a
stride of 4 bytes. -/
def Example.rDecomposition : Decomposition :=
  { base := Example.p.self, BaseOffs := 0, VarIndices := [(Example.i, 4)] }

/-! ### Values for the instruction rewriter

A stack allocation of the struct `{i32, i32, i32}`, one of `[2 x i32]` with
`2 ^ 63` elements, an array of four `{i32, i32}` with the address of field 1
of its element `%i`, a loop with its phi node, a switch, and a call of an
external function. -/

/-- The struct type `{i32, i32, i32}`. -/
def Example.S3 : Ty := .struct [.integer 32, .integer 32, .integer 32] false

/-- The constant `i32 1`. -/
def Example.one32 : Value :=
  { id := 0, kind := .ConstantInt 1, type := .integer 32, rebuilt := false }

/-- The old instruction `%s = alloca {i32, i32, i32}`. -/
def Example.allocaS : AllocaInst :=
  { self := { id := 10, kind := .Instruction, type := PointerType.getUnqual Example.S3,
              rebuilt := false },
    name := "s", allocatedType := Example.S3, arraySize := Example.one32 }

/-- The old instruction `%v = alloca i32, i32 %i`, of variable length. -/
def Example.allocaVLA : AllocaInst :=
  { self := { id := 11, kind := .Instruction, type := Example.i32p, rebuilt := false },
    name := "v", allocatedType := .integer 32, arraySize := Example.i }

/-- The old instruction `%h = alloca [2 x i32], i64 9223372036854775808`. -/
def Example.allocaHuge : AllocaInst :=
  { self := { id := 12, kind := .Instruction,
              type := PointerType.getUnqual (.array (.integer 32) 2), rebuilt := false },
    name := "h", allocatedType := .array (.integer 32) 2,
    arraySize := { id := 0, kind := .ConstantInt 9223372036854775808, type := .integer 64,
                   rebuilt := false } }

/-- The struct type `{i32, i32}`. -/
def Example.S2 : Ty := .struct [.integer 32, .integer 32] false

/-- The pointer type `[4 x {i32, i32}]*`. -/
def Example.A4p : Ty := PointerType.getUnqual (.array Example.S2 4)

/-- The old instruction `%a = alloca [4 x {i32, i32}]`. -/
def Example.allocaA : AllocaInst :=
  { self := { id := 13, kind := .Instruction, type := Example.A4p, rebuilt := false },
    name := "a", allocatedType := .array Example.S2 4, arraySize := Example.one32 }

/-- The state after `%a` has been rewritten from the empty state: the
allocation of 8 elements of `i32` and its cast back to `[4 x {i32, i32}]*`,
recorded for `%a`. -/
def Example.sA : State :=
  { VMap := [(Example.allocaA.self, Example.built 1 Example.A4p)],
    emitted := [.Alloca (.integer 32) (some (u64const 8)) "a",
                .PointerCast (Example.built 0 Example.i32p) Example.A4p "a"] }

/-- The old instruction
`%f = getelementptr [4 x {i32, i32}]* %a, i64 0, i64 %i, i32 1`, the address of
field 1 of element `%i`. -/
def Example.f : GetElementPtrInst :=
  { self := { id := 14, kind := .Instruction, type := Example.i32p, rebuilt := false },
    name := "f", pointerOperand := Example.allocaA.self,
    indices := [Example.zero64, Example.i, Example.one32] }

/-- Decomposition of `%f` against the original layout: base `%a`, constant
offset 4 bytes (field 1), index `%i` with a stride of 8 bytes. -/
def Example.fDecomposition : Decomposition :=
  { base := Example.allocaA.self, BaseOffs := 4, VarIndices := [(Example.i, 8)] }

/-- An assignment of integers to the old values: `%i` is 1, every address
is 0. -/
def Example.env (V : Value) : Int :=
  if V = Example.i then 1 else 0

/-- The old block `entry`. -/
def Example.entry : BasicBlock := { id := 0, name := "entry", rebuilt := false }

/-- The old block `loop`. -/
def Example.loop : BasicBlock := { id := 1, name := "loop", rebuilt := false }

/-- The old block `exit`. -/
def Example.exit : BasicBlock := { id := 2, name := "exit", rebuilt := false }

/-- The new block created for the old block number `n` named `name`. -/
def Example.newBlock (n : Nat) (name : String) : BasicBlock :=
  { id := n, name := name, rebuilt := true }

/-- The block map after the first loop of `runOnFunction` on the blocks
`entry`, `loop`, `exit`. -/
def Example.BBMap : BBMapTy :=
  [(Example.exit, Example.newBlock 2 "exit"), (Example.loop, Example.newBlock 1 "loop"),
   (Example.entry, Example.newBlock 0 "entry")]

/-- The loop-carried phi node `%x = phi i32 [ 0, %entry ], [ %x, %loop ]`, one
of whose two incoming values is the phi node itself. -/
def Example.x : PHINode :=
  { self := { id := 20, kind := .PHINode, type := .integer 32, rebuilt := false },
    incoming :=
      [({ id := 0, kind := .ConstantInt 0, type := .integer 32, rebuilt := false },
        Example.entry),
       ({ id := 20, kind := .PHINode, type := .integer 32, rebuilt := false }, Example.loop)] }

/-- The old value `%c` of type `i32`, mapped in `Example.sC`. -/
def Example.c : Value :=
  { id := 21, kind := .Instruction, type := .integer 32, rebuilt := false }

/-- A state in which `%c` is mapped to the value of request 0, a load. -/
def Example.sC : State :=
  { VMap := [(Example.c, Example.built 0 (.integer 32))],
    emitted := [.Load Example.g "c"] }

/-- The constant `i32 n`. -/
def Example.const32 (n : Nat) : Value :=
  { id := 0, kind := .ConstantInt n, type := .integer 32, rebuilt := false }

/-- The old instruction
`switch i32 %c, label %exit [ i32 7, label %loop  i32 9, label %entry ]`. -/
def Example.sw : SwitchInst :=
  { condition := Example.c, defaultDest := Example.exit,
    cases := [(Example.const32 7, Example.loop), (Example.const32 9, Example.entry)] }

/-- The external function `declare i32 @api(i8*, i32)`. -/
def Example.api : Function :=
  { id := 30, name := "api",
    type := { returnType := .integer 32, params := [Example.i8p, .integer 32],
              isVarArg := false },
    isDeclaration := true, rebuilt := false }

/-- The old instruction `%r = call i32 @api(%p, %c)`, whose first argument
`%p` is mapped to an `i32*` and whose second argument has the declared type. -/
def Example.call : CallInst :=
  { self := { id := 31, kind := .Instruction, type := .integer 32, rebuilt := false },
    name := "r", calledFunction := some Example.api,
    args := [Example.p.self, Example.c] }

/-- A state in which `%p` is mapped to an `i32*` and `%c` to an `i32`. -/
def Example.sPC : State :=
  { VMap := [(Example.c, Example.built 1 (.integer 32)),
             (Example.p.self, Example.built 0 Example.i32p)],
    emitted := [.PointerCast Example.g Example.i32p "rbcast", .Load Example.g "c"] }

/-- The function `@fn`, with a body. -/
def Example.fnF : Function :=
  { id := 40, name := "fn",
    type := { returnType := .void, params := [], isVarArg := false },
    isDeclaration := false, rebuilt := false }

/-- The function the pass creates for `@fn`. -/
def Example.fnNF : Function :=
  { id := 0, name := "fn",
    type := { returnType := .void, params := [], isVarArg := false },
    isDeclaration := false, rebuilt := true }

/-- The body of `@fn`: `entry` branches to `loop`, `loop` holds the phi node
`%x` and branches to `exit`, `exit` returns. -/
def Example.fn : FunctionBody :=
  { F := Example.fnF,
    blocks := [(Example.entry, [.Br (.unconditional Example.loop)]),
               (Example.loop, [.PHI Example.x, .Br (.unconditional Example.exit)]),
               (Example.exit, [.Ret { returnValue := none }])] }

/-- What `runOnFunction` leaves behind for `@fn`. -/
def Example.fnRebuilt : Rebuilt :=
  { NF := Example.fnNF,
    blocks := [Example.newBlock 0 "entry", Example.newBlock 1 "loop",
               Example.newBlock 2 "exit"],
    BBMap := Example.BBMap,
    st := { VMap := [(Example.x.self,
                      { id := 1, kind := .PHINode, type := .integer 32, rebuilt := true })],
            emitted := [.Br (Example.newBlock 1 "loop"), .PHI (.integer 32) [],
                        .Br (Example.newBlock 2 "exit"), .RetVoid] },
    ends := [(Example.newBlock 0 "entry", 1), (Example.newBlock 1 "loop", 3),
             (Example.newBlock 2 "exit", 4)] }

/-- The phi node of the new function created for `%x`, request 0 of the log. -/
def Example.xNew : Value :=
  { id := 0, kind := .PHINode, type := .integer 32, rebuilt := true }

/-- The state after `%x` has been visited from the empty state: one phi node
without incoming edge, recorded for `%x`. -/
def Example.sX : State :=
  { VMap := [(Example.x.self, Example.xNew)], emitted := [.PHI (.integer 32) []] }

/-- The state after `%f` has been rewritten from `Example.sA`. -/
def Example.sF : State :=
  { VMap := [(Example.f.self, Example.built 7 Example.i32p),
             (Example.allocaA.self, Example.built 1 Example.A4p)],
    emitted := [.Alloca (.integer 32) (some (u64const 8)) "a",
                .PointerCast (Example.built 0 Example.i32p) Example.A4p "a",
                .ConstGEP1_64 (Example.built 1 Example.A4p) 0 "rb.base",
                .PointerCast (Example.built 2 Example.A4p) Example.i8p "",
                .TruncOrBitCast Example.i (.integer 32),
                .NSWMul (i32const 8) (Example.built 4 (.integer 32)),
                .GEP (Example.built 3 Example.i8p) (Example.built 5 (.integer 32)),
                .PointerCast (Example.built 6 Example.i8p) Example.i32p "f"] }

/-! ### Values for the module orchestrator

Two mutually recursive functions `@A` and `@B`, each calling the other and
returning. -/

/-- The function type `void ()`. -/
def Example.voidFn : FunctionType :=
  { returnType := .void, params := [], isVarArg := false }

/-- The function `@A`, with a body. -/
def Example.A : Function :=
  { id := 50, name := "A", type := Example.voidFn, isDeclaration := false, rebuilt := false }

/-- The function `@B`, with a body. -/
def Example.B : Function :=
  { id := 51, name := "B", type := Example.voidFn, isDeclaration := false, rebuilt := false }

/-- The old instruction `call void @B()` of `@A`. -/
def Example.callB : CallInst :=
  { self := { id := 52, kind := .Instruction, type := .void, rebuilt := false },
    name := "", calledFunction := some Example.B, args := [] }

/-- The old instruction `call void @A()` of `@B`. -/
def Example.callA : CallInst :=
  { self := { id := 53, kind := .Instruction, type := .void, rebuilt := false },
    name := "", calledFunction := some Example.A, args := [] }

/-- The module of `@A` and `@B`, in this order:
`define void @A() { entry: call void @B()  ret void }` and
`define void @B() { entry: call void @A()  ret void }`. -/
def Example.moduleAB : Module :=
  { functions :=
      [{ F := Example.A,
         blocks := [(Example.entry, [.Call Example.callB, .Ret { returnValue := none }])] },
       { F := Example.B,
         blocks := [(Example.entry, [.Call Example.callA, .Ret { returnValue := none }])] }],
    created := [], rebuilt := [] }

/-- The function the pass creates for `@A`. -/
def Example.newA : Function :=
  { id := 0, name := "A", type := Example.voidFn, isDeclaration := true, rebuilt := true,
    linkage := .InternalLinkage }

/-- The function the pass creates for `@B`. -/
def Example.newB : Function :=
  { id := 1, name := "B", type := Example.voidFn, isDeclaration := true, rebuilt := true,
    linkage := .InternalLinkage }

/-- A decomposition service for the functions without address computation. -/
def Example.noDecompose (_ : GetElementPtrInst) : Decomposition :=
  { base := Example.g, BaseOffs := 0, VarIndices := [] }

/-- The old instruction `%fc = fcmp olt float 1.0, 2.0`, a floating-point
comparison. -/
def Example.fcmp : Value :=
  { id := 60, kind := .Instruction, type := .integer 1, rebuilt := false }

/-- The old instruction `%va = va_arg i8** %ap, i32`. -/
def Example.vaArg : Value :=
  { id := 61, kind := .Instruction, type := .integer 32, rebuilt := false }

/-- A body for `@fn` with a floating-point comparison in its second block:
`entry` branches to `loop`, `loop` holds the comparison and is unreachable
after it. -/
def Example.fnFCmp : FunctionBody :=
  { F := Example.fnF,
    blocks := [(Example.entry, [.Br (.unconditional Example.loop)]),
               (Example.loop, [.Other Example.fcmp "fcmp", .Unreachable])] }

/-- The variadic external function `declare i32 @printf(i8*, ...)`. -/
def Example.printf : Function :=
  { id := 56, name := "printf",
    type := { returnType := .integer 32, params := [Example.i8p], isVarArg := true },
    isDeclaration := true, rebuilt := false }

/-- The old instruction `%n = call i32 (i8*, ...)* @printf(%p, %c)`. -/
def Example.callPrintf : CallInst :=
  { self := { id := 57, kind := .Instruction, type := .integer 32, rebuilt := false },
    name := "n", calledFunction := some Example.printf,
    args := [Example.p.self, Example.c] }

/-- The variadic function `define void @log(i8*, ...)`, with a body. -/
def Example.logFn : Function :=
  { id := 58, name := "log",
    type := { returnType := .void, params := [Example.i8p], isVarArg := true },
    isDeclaration := false, rebuilt := false }

/-- A module whose second function is the variadic `@log`:
`define void @fn()` as in `Example.fn`, then
`define void @log(i8*, ...) { entry: ret void }`. -/
def Example.moduleLog : Module :=
  { functions :=
      [Example.fn,
       { F := Example.logFn,
         blocks := [(Example.entry, [.Ret { returnValue := none }])] }],
    created := [], rebuilt := [] }

/-- The empty module. -/
def Example.emptyModule : Module :=
  { functions := [], created := [], rebuilt := [] }

/-- The function `define {i32, i32}* @pick([4 x {i32, i32}]*, i32)`, with a
body. -/
def Example.pick : Function :=
  { id := 59, name := "pick",
    type := { returnType := PointerType.getUnqual Example.S2,
              params := [Example.A4p, .integer 32], isVarArg := false },
    isDeclaration := false, rebuilt := false }

/-- The function `define void @fl(float)`, with a body; its parameter type is
outside what `rebuildType` accepts. -/
def Example.fl : Function :=
  { id := 62, name := "fl",
    type := { returnType := .void, params := [.other .FloatTyID], isVarArg := false },
    isDeclaration := false, rebuilt := false }

/-- What `runOnFunction` leaves behind for `@A`: the call of the function
created for `@B`. -/
def Example.rebuiltA : Rebuilt :=
  { NF := Example.newA, blocks := [Example.newBlock 0 "entry"],
    BBMap := [(Example.entry, Example.newBlock 0 "entry")],
    st := { VMap := [(Example.callB.self, Example.built 0 .void)],
            emitted := [.Call Example.newB [] "", .RetVoid] },
    ends := [(Example.newBlock 0 "entry", 2)] }

/-- What `runOnFunction` leaves behind for `@B`: the call of the old `@A`,
whose body is deleted by then. -/
def Example.rebuiltB : Rebuilt :=
  { NF := Example.newB, blocks := [Example.newBlock 0 "entry"],
    BBMap := [(Example.entry, Example.newBlock 0 "entry")],
    st := { VMap := [(Example.callA.self, Example.built 0 .void)],
            emitted := [.Call Example.A.deleteBody [] "", .RetVoid] },
    ends := [(Example.newBlock 0 "entry", 2)] }

/-- A module of declarations only: `declare i32 @api(i8*, i32)`. -/
def Example.moduleApi : Module :=
  { functions := [{ F := Example.api, blocks := [] }], created := [], rebuilt := [] }

/-- The module of the declaration `@api` and the function `@fn`. -/
def Example.moduleFn : Module :=
  { functions := [{ F := Example.api, blocks := [] }, Example.fn], created := [],
    rebuilt := [] }

/-- The function the pass creates for `@fn` in `Example.moduleFn`. -/
def Example.newFn : Function :=
  { id := 0, name := "fn", type := Example.voidFn, isDeclaration := true, rebuilt := true,
    linkage := .InternalLinkage }

/-- What `runOnModule` leaves behind for `Example.moduleFn`. -/
def Example.runFn : ModuleRun :=
  { changed := true,
    M := { functions := [{ F := Example.api, blocks := [] }], created := [Example.newFn],
           rebuilt := [{ Example.fnRebuilt with NF := Example.newFn }] },
    FMap := [(Example.fnF, Example.newFn)],
    VMap := Example.fnRebuilt.st.VMap, BBMap := Example.BBMap }

/-- The function `@sf`, with a body. -/
def Example.sf : Function :=
  { id := 63, name := "sf", type := Example.voidFn, isDeclaration := false, rebuilt := false }

/-- The module of Scenario A:
`define void @sf() { entry: %s = alloca {i32, i32, i32}  ret void }`. -/
def Example.moduleS : Module :=
  { functions :=
      [{ F := Example.sf,
         blocks := [(Example.entry, [.Alloca Example.allocaS,
                                     .Ret { returnValue := none }])] }],
    created := [], rebuilt := [] }

/-- The function the pass creates for `@sf`. -/
def Example.newSf : Function :=
  { id := 0, name := "sf", type := Example.voidFn, isDeclaration := true, rebuilt := true,
    linkage := .InternalLinkage }

/-- What `runOnFunction` leaves behind for `@sf`: the allocation of 3 elements
of `i32` and its cast to the struct pointer type, recorded for `%s`. -/
def Example.rebuiltS : Rebuilt :=
  { NF := Example.newSf, blocks := [Example.newBlock 0 "entry"],
    BBMap := [(Example.entry, Example.newBlock 0 "entry")],
    st := { VMap := [(Example.allocaS.self,
                      Example.built 1 (PointerType.getUnqual Example.S3))],
            emitted := [.Alloca (.integer 32) (some (u64const 3)) "s",
                        .PointerCast (Example.built 0 Example.i32p)
                          (PointerType.getUnqual Example.S3) "s",
                        .RetVoid] },
    ends := [(Example.newBlock 0 "entry", 3)] }

/-- The old instruction `%l = load {i32, i32, i32}* %s`. -/
def Example.loadS : LoadInst :=
  { self := { id := 64, kind := .Instruction, type := Example.S3, rebuilt := false },
    name := "l", pointerOperand := Example.allocaS.self }

/-- A decomposition of `%r` with a stride of `2 ^ 40` bytes: base `%p`,
constant offset 0, index `%i`. -/
def Example.hugeDecomposition : Decomposition :=
  { base := Example.p.self, BaseOffs := 0, VarIndices := [(Example.i, 1099511627776)] }

/-- The old value `%j` of type `i64`, an instruction result of the old
function. -/
def Example.j : Value :=
  { id := 7, kind := .Instruction, type := .integer 64, rebuilt := false }

/-- A decomposition of `%r` with two indices: base `%p`, constant offset 0,
index `%i` with a stride of 4 bytes and index `%j` with a stride of 12
bytes. -/
def Example.twoDecomposition : Decomposition :=
  { base := Example.p.self, BaseOffs := 0, VarIndices := [(Example.i, 4), (Example.j, 12)] }

/-! ### Values for the simple instructions, loads and stores -/

/-- The struct type `{i8, i32}`, of size 8 in the concrete layout. -/
def Example.S8 : Ty := .struct [.integer 8, .integer 32] false

/-- The old instruction `%b = add i32 %c, 1` (opcode 8). -/
def Example.add : BinaryOperator :=
  { self := { id := 70, kind := .Instruction, type := .integer 32, rebuilt := false },
    name := "b", opcode := 8, operand0 := Example.c, operand1 := Example.one32 }

/-- The old instruction `%t = icmp eq i32 %c, 7` (predicate 32). -/
def Example.icmp : ICmpInst :=
  { self := { id := 71, kind := .Instruction, type := .integer 1, rebuilt := false },
    name := "t", predicate := 32, operand0 := Example.c, operand1 := Example.const32 7 }

/-- The constant `i1 true`. -/
def Example.true1 : Value :=
  { id := 0, kind := .ConstantInt 1, type := .integer 1, rebuilt := false }

/-- The old instruction `%m = select i1 true, i32 %c, i32 1`. -/
def Example.select : SelectInst :=
  { self := { id := 72, kind := .Instruction, type := .integer 32, rebuilt := false },
    name := "m", condition := Example.true1, trueValue := Example.c,
    falseValue := Example.one32 }

/-- The old instruction `%pc = bitcast i32* %p to {i32, i32}*` (opcode 44). -/
def Example.bitcast : CastInst :=
  { self := { id := 73, kind := .Instruction, type := PointerType.getUnqual Example.S2,
              rebuilt := false },
    name := "pc", opcode := 44, operand := Example.p.self }

/-- The old instruction `%l = load i32* %p`. -/
def Example.load : LoadInst :=
  { self := { id := 74, kind := .Instruction, type := .integer 32, rebuilt := false },
    name := "l", pointerOperand := Example.p.self }

/-- The old instruction `store i32 %c, i32* %p`. -/
def Example.store : StoreInst :=
  { valueOperand := Example.c, pointerOperand := Example.p.self }

/-- The old instruction `%e = getelementptr [4 x {i32, i32}]* %a, i64 0, i64 %i`,
the address of element `%i`, of type `{i32, i32}*`. -/
def Example.e : GetElementPtrInst :=
  { self := { id := 15, kind := .Instruction, type := PointerType.getUnqual Example.S2,
              rebuilt := false },
    name := "e", pointerOperand := Example.allocaA.self,
    indices := [Example.zero64, Example.i] }

/-- Decomposition of `%e` against the original layout: base `%a`, constant
offset 0, index `%i` with a stride of 8 bytes. -/
def Example.eDecomposition : Decomposition :=
  { base := Example.allocaA.self, BaseOffs := 0, VarIndices := [(Example.i, 8)] }

/-- The old instruction `%e0 = getelementptr [4 x {i32, i32}]* %a, i64 0, i64 0`,
the address of element 0, of the same type `{i32, i32}*` as `%e`, with all
indices zero. -/
def Example.e0 : GetElementPtrInst :=
  { self := { id := 16, kind := .Instruction, type := PointerType.getUnqual Example.S2,
              rebuilt := false },
    name := "e0", pointerOperand := Example.allocaA.self,
    indices := [Example.zero64, Example.zero64] }

/-- Decomposition of `%e0`: base `%a`, constant offset 0, no variable index. -/
def Example.e0Decomposition : Decomposition :=
  { base := Example.allocaA.self, BaseOffs := 0, VarIndices := [] }

/-! ### Values for the operands of the rebuilt instructions -/

/-- A state in which `%p` is mapped to an `i32*` and `%i` to an `i64`. -/
def Example.sPI : State :=
  { VMap := [(Example.i, Example.built 1 (.integer 64)),
             (Example.p.self, Example.built 0 Example.i32p)],
    emitted := [.PointerCast Example.g Example.i32p "rbcast", .Load Example.g "i"] }

/-- The function `define void @caller()`, with a body. -/
def Example.caller : Function :=
  { id := 80, name := "caller", type := Example.voidFn, isDeclaration := false,
    rebuilt := false }

/-- The function `define void @takes({i32, i32, i32}*)`, with a body. -/
def Example.takes : Function :=
  { id := 81, name := "takes",
    type := { returnType := .void, params := [PointerType.getUnqual Example.S3],
              isVarArg := false },
    isDeclaration := false, rebuilt := false }

/-- The old instruction `call void @takes({i32, i32, i32}* %s)`. -/
def Example.callTakes : CallInst :=
  { self := { id := 82, kind := .Instruction, type := .void, rebuilt := false },
    name := "", calledFunction := some Example.takes, args := [Example.allocaS.self] }

/-- The module of `@caller` and `@takes`, in this order:
`define void @caller() { entry: %s = alloca {i32, i32, i32}
call void @takes({i32, i32, i32}* %s)  ret void }` and
`define void @takes({i32, i32, i32}* %q) { entry: ret void }`. -/
def Example.moduleCall : Module :=
  { functions :=
      [{ F := Example.caller,
         blocks := [(Example.entry, [.Alloca Example.allocaS, .Call Example.callTakes,
                                     .Ret { returnValue := none }])] },
       { F := Example.takes,
         blocks := [(Example.entry, [.Ret { returnValue := none }])] }],
    created := [], rebuilt := [] }

/-- The function the pass creates for `@takes`, with the parameter type
`i32*`. -/
def Example.newTakes : Function :=
  { id := 1, name := "takes",
    type := { returnType := .void, params := [Example.i32p], isVarArg := false },
    isDeclaration := true, rebuilt := true, linkage := .InternalLinkage }

/-- The array type `[0 x i32]`, of size 0. -/
def Example.Z0 : Ty := .array (.integer 32) 0

/-- The old instruction `%z = alloca [0 x i32]`. -/
def Example.allocaZ : AllocaInst :=
  { self := { id := 83, kind := .Instruction, type := PointerType.getUnqual Example.Z0,
              rebuilt := false },
    name := "z", allocatedType := Example.Z0, arraySize := Example.one32 }

/-- The state after `%z` has been rewritten from the empty state: the
allocation of 0 elements of `i32` and its cast back to `[0 x i32]*`, recorded
for `%z`. -/
def Example.sZ : State :=
  { VMap := [(Example.allocaZ.self, Example.built 1 (PointerType.getUnqual Example.Z0))],
    emitted := [.Alloca (.integer 32) (some (u64const 0)) "z",
                .PointerCast (Example.built 0 Example.i32p)
                  (PointerType.getUnqual Example.Z0) "z"] }

/-- The old instruction `%ze = getelementptr [0 x i32]* %z, i64 0, i64 %i`, the
address of element `%i` of the zero-length array. -/
def Example.ze : GetElementPtrInst :=
  { self := { id := 84, kind := .Instruction, type := Example.i32p, rebuilt := false },
    name := "ze", pointerOperand := Example.allocaZ.self,
    indices := [Example.zero64, Example.i] }

/-- Decomposition of `%ze`: base `%z`, constant offset 0, index `%i` with a
stride of 4 bytes. -/
def Example.zeDecomposition : Decomposition :=
  { base := Example.allocaZ.self, BaseOffs := 0, VarIndices := [(Example.i, 4)] }

/-- The old instruction `%a3 = alloca [4 x {i32, i32}], i32 3`. -/
def Example.allocaA3 : AllocaInst :=
  { self := { id := 85, kind := .Instruction, type := Example.A4p, rebuilt := false },
    name := "a3", allocatedType := .array Example.S2 4, arraySize := Example.const32 3 }

/-- The state after `%a3` has been rewritten from the empty state: the
allocation of 24 elements of `i32` and its cast back to `[4 x {i32, i32}]*`. -/
def Example.sA3 : State :=
  { VMap := [(Example.allocaA3.self, Example.built 1 Example.A4p)],
    emitted := [.Alloca (.integer 32) (some (u64const 24)) "a3",
                .PointerCast (Example.built 0 Example.i32p) Example.A4p "a3"] }

/-! ### Values for the formal parameters -/

/-- The formal parameter `%n` of type `i32` of `@inc`. -/
def Example.n : Value :=
  { id := 90, kind := .Argument, type := .integer 32, rebuilt := false }

/-- The function `define i32 @inc(i32 %n)`, with a body. -/
def Example.incF : Function :=
  { id := 91, name := "inc",
    type := { returnType := .integer 32, params := [.integer 32], isVarArg := false },
    isDeclaration := false, rebuilt := false }

/-- The function the pass creates for `@inc`. -/
def Example.newInc : Function :=
  { id := 0, name := "inc",
    type := { returnType := .integer 32, params := [.integer 32], isVarArg := false },
    isDeclaration := true, rebuilt := true, linkage := .InternalLinkage }

/-- The old instruction `%d = add i32 %n, 1` (opcode 8). -/
def Example.addN : BinaryOperator :=
  { self := { id := 92, kind := .Instruction, type := .integer 32, rebuilt := false },
    name := "d", opcode := 8, operand0 := Example.n, operand1 := Example.one32 }

/-- The body of `@inc`: `entry: %d = add i32 %n, 1  ret i32 %d`. -/
def Example.inc : FunctionBody :=
  { F := Example.incF,
    blocks := [(Example.entry, [.BinaryOp Example.addN,
                                .Ret { returnValue := some Example.addN.self }])] }

/-! ## Theorems -/

/-! ### Auxiliary facts on the TypeRebuilder -/

theorem getInnerElementType_integer : ∀ (T L : Ty),
    getInnerElementType T = .ok L → ∃ bits, L = .integer bits
  | .pointer ETy _, L, h | .array ETy _, L, h | .vector ETy _, L, h
  | .struct (ETy :: _) _, L, h => by
    rw [getInnerElementType] at h
    split_ifs at h with h1 h2
    · exact getInnerElementType_integer ETy L h
    · cases h
      cases ETy <;> simp [Ty.isIntegerTy] at h2
      exact ⟨_, rfl⟩
  | .struct [] _, L, h => by simp [getInnerElementType] at h
  | .void, L, h | .integer _, L, h | .other _, L, h => by simp [getInnerElementType] at h

theorem getInnerElementType_eq_innerLeaf : ∀ (T : Ty), T.isCompositeTy = true →
    getInnerElementType T =
      match innerLeaf T with
      | none => .error .assertIndexValid
      | some L => if L.isIntegerTy then .ok L else .error .assertIntegerTy
  | .pointer ETy _, _ | .array ETy _, _ | .vector ETy _, _
  | .struct (ETy :: _) _, _ => by
    rw [getInnerElementType, innerLeaf]
    by_cases h1 : ETy.isCompositeTy = true
    · rw [if_pos h1]
      exact getInnerElementType_eq_innerLeaf ETy h1
    · rw [if_neg h1]
      cases ETy <;> simp_all [Ty.isCompositeTy, innerLeaf, Ty.isIntegerTy]
  | .struct [] _, _ => by simp [getInnerElementType, innerLeaf]
  | .void, h | .integer _, h | .other _, h => by simp [Ty.isCompositeTy] at h

/-- One turn of the `do ... while (CTy)` loop of `getInnerElementType`: the
index assertion, the step to element 0, and the loop test. -/
theorem getInnerElementType_loop (CTy : Ty) (hC : CTy.isCompositeTy = true) :
    getInnerElementType CTy =
      if CTy.indexValid0 = false then .error .assertIndexValid
      else
        match CTy.getTypeAtIndex0 with
        | some ETy =>
          if ETy.isCompositeTy then getInnerElementType ETy
          else if ETy.isIntegerTy then .ok ETy
          else .error .assertIntegerTy
        | none => .error .assertIndexValid := by
  cases CTy with
  | struct fields packed =>
    cases fields <;> simp [getInnerElementType, Ty.indexValid0, Ty.getTypeAtIndex0]
  | pointer ETy a => simp [getInnerElementType, Ty.indexValid0, Ty.getTypeAtIndex0]
  | array ETy n => simp [getInnerElementType, Ty.indexValid0, Ty.getTypeAtIndex0]
  | vector ETy n => simp [getInnerElementType, Ty.indexValid0, Ty.getTypeAtIndex0]
  | void => simp [Ty.isCompositeTy] at hC
  | integer bits => simp [Ty.isCompositeTy] at hC
  | other id => simp [Ty.isCompositeTy] at hC

theorem isPointerTy_eq_pointer (T : Ty) (hP : T.isPointerTy = true) :
    ∃ P a, T = .pointer P a := by
  cases T <;> simp [Ty.isPointerTy] at hP
  exact ⟨_, _, rfl⟩

theorem isIntegerTy_eq_integer (L : Ty) (hI : L.isIntegerTy = true) :
    ∃ bits, L = .integer bits := by
  cases L <;> simp [Ty.isIntegerTy] at hI
  exact ⟨_, rfl⟩

theorem rebuildType_pointer_eq (TD : TargetData) (P : Ty) (a : Nat) :
    rebuildType TD (.pointer P a) =
      (getInnerElementType (.pointer P a)).map PointerType.getUnqual := by
  simp [rebuildType, Ty.isIntegerTy, Ty.isVoidTy, Ty.isPointerTy]

theorem rebuildType_composite_eq (TD : TargetData) (C : Ty)
    (hC : C.isCompositeTy = true) (hP : C.isPointerTy = false) :
    rebuildType TD C =
      (getInnerElementType C).bind fun ETy =>
        if toUnsigned (TD.getTypeAllocSize ETy) = 0 then .error .divisionByZero
        else if toUnsigned (TD.getTypeAllocSize C) % toUnsigned (TD.getTypeAllocSize ETy) ≠ 0 then
          .error .assertDivisible
        else .ok (.array ETy
          (toUnsigned (TD.getTypeAllocSize C) / toUnsigned (TD.getTypeAllocSize ETy))) := by
  cases C <;> simp [Ty.isCompositeTy, Ty.isPointerTy] at hC hP <;>
    simp [rebuildType, Ty.isIntegerTy, Ty.isVoidTy, Ty.isPointerTy, Ty.isCompositeTy] <;> rfl

theorem toUnsigned_integer (TD : TargetData) (bits : Nat) :
    toUnsigned (TD.getTypeAllocSize (.integer bits)) = TD.getTypeAllocSize (.integer bits) :=
  Nat.mod_eq_of_lt (TD.integer_lt bits)

theorem toUnsigned_idem (n : Nat) : toUnsigned (toUnsigned n) = toUnsigned n := by
  simp [toUnsigned]

theorem rebuildType_integer_eq (TD : TargetData) (bits : Nat) :
    rebuildType TD (.integer bits) = .ok (.integer bits) := by
  simp [rebuildType, Ty.isIntegerTy]

theorem rebuildType_void_eq (TD : TargetData) : rebuildType TD .void = .ok .void := by
  simp [rebuildType, Ty.isVoidTy]

theorem rebuildType_other_eq (TD : TargetData) (id : TypeID) :
    rebuildType TD (.other id) = .error .unknownType := by
  simp [rebuildType, Ty.isIntegerTy, Ty.isVoidTy, Ty.isPointerTy, Ty.isCompositeTy]

/-- For a composite that is no pointer and whose leaf is the integer type `L`,
`rebuildType` is decided by the remainder of the 32-bit size of the composite by
the size of `L`. -/
theorem rebuildType_composite_ok (TD : TargetData) (C L : Ty)
    (hC : C.isCompositeTy = true) (hP : C.isPointerTy = false)
    (hL : innerLeaf C = some L) (hI : L.isIntegerTy = true) :
    rebuildType TD C =
      if toUnsigned (TD.getTypeAllocSize C) % TD.getTypeAllocSize L ≠ 0 then
        .error .assertDivisible
      else .ok (.array L (toUnsigned (TD.getTypeAllocSize C) / TD.getTypeAllocSize L)) := by
  obtain ⟨bits, rfl⟩ := isIntegerTy_eq_integer L hI
  have hpos := TD.integer_pos bits
  rw [rebuildType_composite_eq TD C hC hP, getInnerElementType_eq_innerLeaf C hC, hL]
  simp only [Ty.isIntegerTy, if_true, Except.bind, toUnsigned_integer]
  rw [if_neg (by omega)]

theorem rebuildType_ok_cases (TD : TargetData) (T R : Ty)
    (h : rebuildType TD T = .ok R) :
    (∃ bits, R = .integer bits) ∨ R = .void ∨
    (∃ bits, R = .pointer (.integer bits) 0) ∨
    (∃ bits n, R = .array (.integer bits) n) := by
  by_cases hC : T.isCompositeTy = true
  · by_cases hP : T.isPointerTy = true
    · obtain ⟨P, a, rfl⟩ := isPointerTy_eq_pointer T hP
      rw [rebuildType_pointer_eq] at h
      cases hg : getInnerElementType (.pointer P a) with
      | error e => rw [hg] at h; cases h
      | ok L =>
        rw [hg] at h
        obtain ⟨bits, rfl⟩ := getInnerElementType_integer _ _ hg
        cases h
        exact Or.inr (Or.inr (Or.inl ⟨bits, rfl⟩))
    · simp only [Bool.not_eq_true] at hP
      rw [rebuildType_composite_eq TD T hC hP] at h
      cases hg : getInnerElementType T with
      | error e => rw [hg] at h; cases h
      | ok L =>
        rw [hg] at h
        obtain ⟨bits, rfl⟩ := getInnerElementType_integer _ _ hg
        simp only [Except.bind] at h
        split_ifs at h
        cases h
        exact Or.inr (Or.inr (Or.inr ⟨bits, _, rfl⟩))
  · cases T <;> simp [Ty.isCompositeTy] at hC
    · rw [rebuildType_void_eq] at h; cases h; exact Or.inr (Or.inl rfl)
    · rw [rebuildType_integer_eq] at h; cases h; exact Or.inl ⟨_, rfl⟩
    · rw [rebuildType_other_eq] at h; cases h

/-! ### TypeRebuilder -/

/-- C1: `rebuildType` is idempotent. For every data layout `TD` and type `T` on
which `rebuildType` succeeds with result `R`, `rebuildType` succeeds on `R` and
returns `R` again. -/
theorem rebuildType_idempotent (TD : TargetData) (T R : Ty)
    (h : rebuildType TD T = .ok R) : rebuildType TD R = .ok R := by
  by_cases hC : T.isCompositeTy = true
  · by_cases hP : T.isPointerTy = true
    · obtain ⟨P, a, rfl⟩ := isPointerTy_eq_pointer T hP
      rw [rebuildType_pointer_eq] at h
      cases hg : getInnerElementType (.pointer P a) with
      | error e => rw [hg] at h; cases h
      | ok L =>
        rw [hg] at h
        obtain ⟨bits, rfl⟩ := getInnerElementType_integer _ _ hg
        cases h
        simp [PointerType.getUnqual, rebuildType_pointer_eq, getInnerElementType,
          Ty.isCompositeTy, Ty.isIntegerTy, Except.map]
    · simp only [Bool.not_eq_true] at hP
      rw [rebuildType_composite_eq TD T hC hP] at h
      cases hg : getInnerElementType T with
      | error e => rw [hg] at h; cases h
      | ok L =>
        rw [hg] at h
        obtain ⟨bits, rfl⟩ := getInnerElementType_integer _ _ hg
        simp only [Except.bind, toUnsigned_integer] at h
        split_ifs at h with h1 h2
        cases h
        have hdvd : TD.getTypeAllocSize (.integer bits) ∣ toUnsigned (TD.getTypeAllocSize T) :=
          Nat.dvd_of_mod_eq_zero (by simpa using h2)
        have hmul := Nat.div_mul_cancel hdvd
        rw [rebuildType_composite_eq TD _ (by rfl) (by rfl)]
        simp [getInnerElementType, Ty.isCompositeTy, Ty.isIntegerTy, Except.bind,
          toUnsigned_integer, TD.array_size, hmul, toUnsigned_idem, h1]
        simpa using h2
  · cases T <;> simp [Ty.isCompositeTy] at hC
    · rw [rebuildType_void_eq] at h; cases h; exact rebuildType_void_eq TD
    · rw [rebuildType_integer_eq] at h; cases h; exact rebuildType_integer_eq TD _
    · rw [rebuildType_other_eq] at h; cases h

/-- C1, witness: the struct `{i32, i32, i32}` rebuilds to `[3 x i32]`, which
rebuilds to itself. -/
theorem rebuildType_idempotent_witness :
    rebuildType layout32 (.struct [.integer 32, .integer 32, .integer 32] false) =
      .ok (.array (.integer 32) 3) ∧
    rebuildType layout32 (.array (.integer 32) 3) = .ok (.array (.integer 32) 3) :=
  ⟨by decide,
   rebuildType_idempotent layout32 (.struct [.integer 32, .integer 32, .integer 32] false) _
     (by decide)⟩

/-- C2, counterexample: the array `[1073741824 x i64]` is a composite with
integer leaf `i64` whose storage size is exactly `1073741824 * sizeof(i64)`
(8 GiB), yet `rebuildType` returns `[0 x i64]`, not `[1073741824 x i64]`: the
size is held in a 32-bit `unsigned`. -/
theorem rebuildType_exact_multiple_truncates :
    (Ty.array (.integer 64) 1073741824).isCompositeTy = true ∧
    innerLeaf (Ty.array (.integer 64) 1073741824) = some (.integer 64) ∧
    layout32.getTypeAllocSize (Ty.array (.integer 64) 1073741824) =
      1073741824 * layout32.getTypeAllocSize (.integer 64) ∧
    rebuildType layout32 (Ty.array (.integer 64) 1073741824) = .ok (.array (.integer 64) 0) ∧
    rebuildType layout32 (Ty.array (.integer 64) 1073741824) ≠
      .ok (.array (.integer 64) 1073741824) := by
  decide

/-- C2, amended: for every composite type `C` that is no pointer, whose
first-element chain ends in an integer leaf `L`, and whose storage size is
exactly `N * sizeof(L)` and below `2 ^ 32`, `rebuildType` returns the array of
`N` elements of `L`. -/
theorem rebuildType_exact_multiple (TD : TargetData) (C L : Ty) (N : Nat)
    (hC : C.isCompositeTy = true) (hP : C.isPointerTy = false)
    (hL : innerLeaf C = some L) (hI : L.isIntegerTy = true)
    (hsize : TD.getTypeAllocSize C = N * TD.getTypeAllocSize L)
    (hlt : TD.getTypeAllocSize C < 2 ^ 32) :
    rebuildType TD C = .ok (.array L N) := by
  obtain ⟨bits, rfl⟩ := isIntegerTy_eq_integer L hI
  have hpos := TD.integer_pos bits
  have hu : toUnsigned (TD.getTypeAllocSize C) = N * TD.getTypeAllocSize (.integer bits) := by
    rw [toUnsigned, Nat.mod_eq_of_lt hlt, hsize]
  rw [rebuildType_composite_ok TD C _ hC hP hL hI, hu]
  simp [Nat.mul_div_cancel _ hpos]

/-- C2, witness: the struct `{i32, i32, i32}` of size 12 gives `[3 x i32]`. -/
theorem rebuildType_exact_multiple_witness :
    rebuildType layout32 (.struct [.integer 32, .integer 32, .integer 32] false) =
      .ok (.array (.integer 32) 3) :=
  rebuildType_exact_multiple layout32 (.struct [.integer 32, .integer 32, .integer 32] false)
    (.integer 32) 3 (by decide) (by decide) (by decide) (by decide) (by decide) (by decide)

/-- C3, counterexample: the struct `{i96, [4294967296 x i8]}` is a composite, no
pointer, with integer leaf `i96` of size 12; its storage size `4294967308` is no
multiple of 12, yet `rebuildType` succeeds and returns `[1 x i96]`: the size is
held in a 32-bit `unsigned`, where it is 12. -/
theorem rebuildType_not_multiple_truncates :
    (Ty.struct [.integer 96, .array (.integer 8) 4294967296] false).isCompositeTy = true ∧
    (Ty.struct [.integer 96, .array (.integer 8) 4294967296] false).isPointerTy = false ∧
    innerLeaf (Ty.struct [.integer 96, .array (.integer 8) 4294967296] false) =
      some (.integer 96) ∧
    layout32.getTypeAllocSize (Ty.struct [.integer 96, .array (.integer 8) 4294967296] false) %
      layout32.getTypeAllocSize (.integer 96) ≠ 0 ∧
    rebuildType layout32 (Ty.struct [.integer 96, .array (.integer 8) 4294967296] false) =
      .ok (.array (.integer 96) 1) := by
  decide

/-- C3, amended: for every composite type `C` that is no pointer, with integer
leaf `L` and storage size below `2 ^ 32`, if `sizeof(C)` is no exact multiple of
`sizeof(L)` then `rebuildType` fails, at the divisibility assertion. -/
theorem rebuildType_not_multiple (TD : TargetData) (C L : Ty)
    (hC : C.isCompositeTy = true) (hP : C.isPointerTy = false)
    (hL : innerLeaf C = some L) (hI : L.isIntegerTy = true)
    (hlt : TD.getTypeAllocSize C < 2 ^ 32)
    (hrem : TD.getTypeAllocSize C % TD.getTypeAllocSize L ≠ 0) :
    rebuildType TD C = .error .assertDivisible := by
  have hu : toUnsigned (TD.getTypeAllocSize C) = TD.getTypeAllocSize C := by
    rw [toUnsigned, Nat.mod_eq_of_lt hlt]
  rw [rebuildType_composite_ok TD C L hC hP hL hI, hu, if_pos hrem]

/-- C3, witness: the packed struct `<{i32, i16}>` of size 6 with leaf `i32` of
size 4 is rejected. -/
theorem rebuildType_not_multiple_witness :
    rebuildType layout32 (.struct [.integer 32, .integer 16] true) = .error .assertDivisible :=
  rebuildType_not_multiple layout32 (.struct [.integer 32, .integer 16] true) (.integer 32)
    (by decide) (by decide) (by decide) (by decide) (by decide) (by decide)

/-- C4: for every pointer type with pointee `P` (in any address space),
`rebuildType` returns the unqualified pointer to `innerLeaf P` when that leaf
exists and is an integer type, fails at the index assertion when the chain hits
a composite without element 0, and fails at the integer assertion when the
chain ends in a non-integer; the leaf of an integer type is that type. -/
theorem rebuildType_pointer (TD : TargetData) (P : Ty) (addrSpace : Nat) :
    rebuildType TD (.pointer P addrSpace) =
      (match innerLeaf P with
       | some L =>
         if L.isIntegerTy then .ok (PointerType.getUnqual L) else .error .assertIntegerTy
       | none => .error .assertIndexValid) ∧
    (∀ bits : Nat, innerLeaf (.integer bits) = some (.integer bits)) := by
  refine ⟨?_, fun bits => by simp [innerLeaf]⟩
  rw [rebuildType_pointer_eq, getInnerElementType_eq_innerLeaf _ (by rfl), innerLeaf]
  cases innerLeaf P with
  | none => rfl
  | some L => by_cases hI : L.isIntegerTy = true <;> simp [hI, Except.map]

/-- C5: for every data layout, `rebuildType` returns every integer type and the
void type unchanged, and so never fails on them. -/
theorem rebuildType_integer_void (TD : TargetData) :
    (∀ bits : Nat, rebuildType TD (.integer bits) = .ok (.integer bits)) ∧
    rebuildType TD .void = .ok .void :=
  ⟨rebuildType_integer_eq TD, rebuildType_void_eq TD⟩

/-- C6: whenever `rebuildType` succeeds, its result is an integer type, void,
an unqualified pointer to an integer type, or an array of an integer type. -/
theorem rebuildType_vocabulary (TD : TargetData) (T R : Ty)
    (h : rebuildType TD T = .ok R) :
    (∃ bits, R = .integer bits) ∨ R = .void ∨
    (∃ bits, R = .pointer (.integer bits) 0) ∨
    (∃ bits n, R = .array (.integer bits) n) :=
  rebuildType_ok_cases TD T R h

/-- C6, witness: the result `[3 x i32]` of rebuilding `{i32, i32, i32}` is an
array of an integer type. -/
theorem rebuildType_vocabulary_witness :
    (∃ bits, Ty.array (.integer 32) 3 = .integer bits) ∨ Ty.array (.integer 32) 3 = .void ∨
    (∃ bits, Ty.array (.integer 32) 3 = .pointer (.integer bits) 0) ∨
    (∃ bits n, Ty.array (.integer 32) 3 = .array (.integer bits) n) :=
  rebuildType_vocabulary layout32 (.struct [.integer 32, .integer 32, .integer 32] false) _
    (by decide)

/-- C7: `rebuildType` fails, at `llvm_unreachable`, for every type that is
neither integer, void, pointer nor composite; and it fails, at the integer
assertion, for every pointer or other composite type whose first-element chain
ends in a scalar that is no integer type. -/
theorem rebuildType_unsupported (TD : TargetData) (T : Ty) :
    (T.isIntegerTy = false → T.isVoidTy = false → T.isPointerTy = false →
      T.isCompositeTy = false → rebuildType TD T = .error .unknownType) ∧
    (T.isCompositeTy = true → ∀ L : Ty, innerLeaf T = some L → L.isIntegerTy = false →
      rebuildType TD T = .error .assertIntegerTy) := by
  constructor
  · intro h1 h2 h3 h4
    simp [rebuildType, h1, h2, h3, h4]
  · intro hC L hL hI
    by_cases hP : T.isPointerTy = true
    · obtain ⟨P, a, rfl⟩ := isPointerTy_eq_pointer T hP
      rw [rebuildType_pointer_eq, getInnerElementType_eq_innerLeaf _ hC, hL]
      simp [hI, Except.map]
    · simp only [Bool.not_eq_true] at hP
      rw [rebuildType_composite_eq TD T hC hP, getInnerElementType_eq_innerLeaf _ hC, hL]
      simp [hI, Except.bind]

/-- C7, witness: the type `float` is rejected as an unknown type, and the
struct `{float, i32}` and the pointer to it are rejected because their leaf
`float` is no integer type. -/
theorem rebuildType_unsupported_witness :
    rebuildType layout32 (.other .FloatTyID) = .error .unknownType ∧
    rebuildType layout32 (.struct [.other .FloatTyID, .integer 32] false) =
      .error .assertIntegerTy ∧
    rebuildType layout32 (.pointer (.struct [.other .FloatTyID, .integer 32] false) 0) =
      .error .assertIntegerTy :=
  ⟨(rebuildType_unsupported layout32 (.other .FloatTyID)).1 (by decide) (by decide) (by decide)
      (by decide),
   (rebuildType_unsupported layout32 (.struct [.other .FloatTyID, .integer 32] false)).2
      (by decide) (.other .FloatTyID) (by decide) (by decide),
   (rebuildType_unsupported layout32
      (.pointer (.struct [.other .FloatTyID, .integer 32] false) 0)).2
      (by decide) (.other .FloatTyID) (by decide) (by decide)⟩

/-! ### PointerArithmeticDecomposer -/

/-- C8: for every address computation whose indices are all zero, with the base
mapped to `V` and the result type rebuilt to `T`, the rewrite succeeds, makes
exactly one request to the builder, the pointer cast of `V` to `T`, records the
value of that cast in the value map for the instruction, and so emits no
addition, multiplication or element-address instruction. -/
theorem visitGetElementPtrInst_allZero (TD : TargetData) (D : Decomposition)
    (II : GetElementPtrInst) (s : State) (V : Value) (T : Ty)
    (hz : II.hasAllZeroIndices = true)
    (hV : mapValue s II.pointerOperand = .ok V)
    (hT : rebuildType TD II.self.type = .ok T) :
    ∃ s' : State,
      visitGetElementPtrInst TD D II s = .ok s' ∧
      s'.emitted = s.emitted ++ [.PointerCast V T "rbcast"] ∧
      s'.VMap.lookup II.self =
        some { id := s.emitted.length, kind := .Instruction, type := T, rebuilt := true } ∧
      (∀ r ∈ s'.emitted.drop s.emitted.length, r.isAddressArithmetic = false) := by
  refine ⟨(s.insert (.PointerCast V T "rbcast")).2.setVMap II.self
    (s.insert (.PointerCast V T "rbcast")).1, ?_, ?_, ?_, ?_⟩
  · simp only [visitGetElementPtrInst, hz, if_true, hV, hT]
    rfl
  · rfl
  · simp [State.setVMap, State.insert, ValueMapTy.lookup, Request.type]
  · simp [State.setVMap, State.insert, Request.isAddressArithmetic]

/-- C8, witness: rewriting `%p = getelementptr [4 x i32]* @g, i64 0, i64 0` from
the empty state emits the single cast of `@g` to `i32*`. -/
theorem visitGetElementPtrInst_allZero_witness :
    ∃ s' : State,
      visitGetElementPtrInst layout32 ⟨Example.g, 0, []⟩ Example.p ⟨[], []⟩ = .ok s' ∧
      s'.emitted = [] ++ [.PointerCast Example.g Example.i32p "rbcast"] ∧
      s'.VMap.lookup Example.p.self =
        some { id := 0, kind := .Instruction, type := Example.i32p, rebuilt := true } ∧
      (∀ r ∈ s'.emitted.drop 0, r.isAddressArithmetic = false) :=
  visitGetElementPtrInst_allZero layout32 ⟨Example.g, 0, []⟩ Example.p ⟨[], []⟩ Example.g
    Example.i32p (by decide) (by decide) (by decide)

/-- C9, the code at the failing input. The base `%p` is mapped to an `i32*`, so
the divisor is 4. With the constant offset 6, which 4 does not divide, the
rewrite emits the element-unit step `base + 1` (6 / 4 rounded toward zero,
named `rb.base`) and no cast to `i8*`; with the constant offset 8, which 4
divides, it casts the base to `i8*` and emits `base + 8` in bytes (named
`rb.base8`). The test `BaseOffs % divisor` selects the branches the other way
round from the specification. -/
theorem visitGetElementPtrInst_constant_offset_inverted :
    toUnsigned (layout32.getTypeAllocSize (.integer 32)) = 4 ∧
    visitGetElementPtrInst layout32 Example.qDecomposition Example.q Example.s1 =
      .ok { VMap := [(Example.q.self, Example.built 2 Example.i8p),
                     (Example.p.self, Example.built 0 Example.i32p)],
            emitted := [.PointerCast Example.g Example.i32p "rbcast",
                        .ConstGEP1_64 (Example.built 0 Example.i32p) 1 "rb.base",
                        .PointerCast (Example.built 1 Example.i32p) Example.i8p "q"] } ∧
    visitGetElementPtrInst layout32 { Example.qDecomposition with BaseOffs := 8 } Example.q
        Example.s1 =
      .ok { VMap := [(Example.q.self, Example.built 3 Example.i8p),
                     (Example.p.self, Example.built 0 Example.i32p)],
            emitted := [.PointerCast Example.g Example.i32p "rbcast",
                        .PointerCast (Example.built 0 Example.i32p) Example.i8p "",
                        .ConstGEP1_64 (Example.built 1 Example.i8p) 8 "rb.base8",
                        .PointerCast (Example.built 2 Example.i8p) Example.i8p "q"] } := by
  decide

/-- C10, the code at the failing input. For `%r = getelementptr i32* %p, i64 %i`
the divisor is 4, the constant offset 0 and the only stride 4 are divisible by
it, and yet the rewrite casts the base to `i8*` and adds the index, scaled by
4 / 4 = 1, to that byte pointer. -/
theorem visitGetElementPtrInst_divisible_casts_to_bytes :
    Example.rDecomposition.BaseOffs.tmod 4 = 0 ∧
    (Example.rDecomposition.VarIndices.all fun I => decide (I.2.tmod 4 = 0)) = true ∧
    visitGetElementPtrInst layout32 Example.rDecomposition Example.r Example.s1 =
      .ok { VMap := [(Example.r.self, Example.built 5 Example.i32p),
                     (Example.p.self, Example.built 0 Example.i32p)],
            emitted := [.PointerCast Example.g Example.i32p "rbcast",
                        .PointerCast (Example.built 0 Example.i32p) Example.i8p "",
                        .ConstGEP1_64 (Example.built 1 Example.i8p) 0 "rb.base8",
                        .TruncOrBitCast Example.i (.integer 32),
                        .GEP (Example.built 2 Example.i8p) (Example.built 3 (.integer 32)),
                        .PointerCast (Example.built 4 Example.i8p) Example.i32p "r"] } ∧
    (Request.PointerCast (Example.built 0 Example.i32p) Example.i8p "").isBytePointerCast =
      true := by
  decide

/-! ### ModuleRebuildOrchestrator: the blocks of one function -/

theorem createBlocks_length (olds : List BasicBlock) : ∀ (M : BBMapTy) (bs : List BasicBlock),
    (runOnFunction.createBlocks olds M bs).2.length = bs.length + olds.length := by
  induction olds with
  | nil => intro M bs; simp [runOnFunction.createBlocks]
  | cons BB rest ih =>
    intro M bs
    rw [runOnFunction.createBlocks, ih]
    simp; omega

theorem createBlocks_blocks_prefix (olds : List BasicBlock) : ∀ (M : BBMapTy) (bs : List BasicBlock)
    (j : Nat), j < bs.length → (runOnFunction.createBlocks olds M bs).2.get? j = bs.get? j := by
  induction olds with
  | nil => intro M bs j _; simp [runOnFunction.createBlocks]
  | cons BB rest ih =>
    intro M bs j hj
    rw [runOnFunction.createBlocks, ih _ _ j (by simp; omega)]
    simp [List.getElem?_append_left hj]

theorem createBlocks_blocks_at (olds : List BasicBlock) : ∀ (M : BBMapTy) (bs : List BasicBlock)
    (j : Nat) (BB : BasicBlock), olds.get? j = some BB →
      (runOnFunction.createBlocks olds M bs).2.get? (bs.length + j) =
        some { id := bs.length + j, name := BB.name, rebuilt := true } := by
  induction olds with
  | nil => intro M bs j BB h; simp at h
  | cons B rest ih =>
    intro M bs j BB h
    rw [runOnFunction.createBlocks]
    cases j with
    | zero =>
      simp at h
      subst h
      rw [Nat.add_zero, createBlocks_blocks_prefix _ _ _ _ (by simp)]
      simp
    | succ j =>
      simp at h
      have := ih ((B, { id := bs.length, name := B.name, rebuilt := true }) :: M)
        (bs ++ [{ id := bs.length, name := B.name, rebuilt := true }]) j BB (by simpa using h)
      simp only [List.length_append, List.length_singleton] at this
      rw [show bs.length + (j + 1) = bs.length + 1 + j by omega]
      exact this

theorem createBlocks_lookup_of_not_mem (olds : List BasicBlock) (K : BasicBlock) :
    ∀ (M : BBMapTy) (bs : List BasicBlock), K ∉ olds →
      (runOnFunction.createBlocks olds M bs).1.lookup K = M.lookup K := by
  induction olds with
  | nil => intro M bs _; rfl
  | cons BB rest ih =>
    intro M bs hK
    rw [runOnFunction.createBlocks, ih _ _ (fun h => hK (List.mem_cons_of_mem _ h))]
    have hne : BB ≠ K := fun h => hK (h ▸ List.mem_cons_self _ _)
    simp [BBMapTy.lookup, hne]

theorem createBlocks_lookup (olds : List BasicBlock) :
    ∀ (M : BBMapTy) (bs : List BasicBlock), olds.Nodup →
      ∀ (j : Nat) (BB : BasicBlock), olds.get? j = some BB →
        (runOnFunction.createBlocks olds M bs).1.lookup BB =
          some { id := bs.length + j, name := BB.name, rebuilt := true } := by
  induction olds with
  | nil => intro M bs _ j BB h; simp at h
  | cons B rest ih =>
    intro M bs hnd j BB h
    rw [List.nodup_cons] at hnd
    rw [runOnFunction.createBlocks]
    cases j with
    | zero =>
      simp at h
      subst h
      rw [createBlocks_lookup_of_not_mem rest B _ _ hnd.1]
      simp [BBMapTy.lookup]
    | succ j =>
      simp at h
      rw [ih _ _ hnd.2 j BB (by simpa using h)]
      simp; omega

theorem runOnFunction_ok (TD : TargetData) (Decompose : GetElementPtrInst → Decomposition)
    (FMap : FMapTy) (VMap : ValueMapTy) (BBMap : BBMapTy) (F : FunctionBody) (R : Rebuilt)
    (h : runOnFunction TD Decompose FMap VMap BBMap F = .ok R) :
    (R.BBMap, R.blocks) = runOnFunction.createBlocks (F.blocks.map Prod.fst) [] [] := by
  unfold runOnFunction at h
  split at h
  · cases h
  · simp only [ValueMapTy.clear, BBMapTy.clear] at h
    split at h
    · cases h
    · cases h
      rfl

/-- C13: for every function whose blocks are distinct objects, the first loop
of `runOnFunction`, which reads no instruction, creates as many new blocks as
the function has blocks; new block `j` is the block created for source block
`j`, with its name, and the block map sends source block `j` to it, so the map
is an order-preserving bijection between the old and the new blocks; and
whenever `runOnFunction` succeeds, the blocks of the new function and the
block map it leaves are those of that first loop. -/
theorem runOnFunction_blocks (TD : TargetData) (Decompose : GetElementPtrInst → Decomposition)
    (FMap : FMapTy) (VMap : ValueMapTy) (BBMap : BBMapTy) (F : FunctionBody)
    (hnd : (F.blocks.map Prod.fst).Nodup) :
    (runOnFunction.createBlocks (F.blocks.map Prod.fst) [] []).2.length = F.blocks.length ∧
    (∀ (j : Nat) (BB : BasicBlock), (F.blocks.map Prod.fst).get? j = some BB →
      (runOnFunction.createBlocks (F.blocks.map Prod.fst) [] []).2.get? j =
        some { id := j, name := BB.name, rebuilt := true } ∧
      (runOnFunction.createBlocks (F.blocks.map Prod.fst) [] []).1.lookup BB =
        some { id := j, name := BB.name, rebuilt := true }) ∧
    (∀ BB₁ BB₂ NBB, BB₁ ∈ F.blocks.map Prod.fst → BB₂ ∈ F.blocks.map Prod.fst →
      (runOnFunction.createBlocks (F.blocks.map Prod.fst) [] []).1.lookup BB₁ = some NBB →
      (runOnFunction.createBlocks (F.blocks.map Prod.fst) [] []).1.lookup BB₂ = some NBB →
      BB₁ = BB₂) ∧
    (∀ NBB ∈ (runOnFunction.createBlocks (F.blocks.map Prod.fst) [] []).2,
      ∃ BB ∈ F.blocks.map Prod.fst,
        (runOnFunction.createBlocks (F.blocks.map Prod.fst) [] []).1.lookup BB = some NBB) ∧
    (∀ R : Rebuilt, runOnFunction TD Decompose FMap VMap BBMap F = .ok R →
      R.BBMap = (runOnFunction.createBlocks (F.blocks.map Prod.fst) [] []).1 ∧
      R.blocks = (runOnFunction.createBlocks (F.blocks.map Prod.fst) [] []).2 ∧
      R.blocks.length = F.blocks.length) := by
  have hlen : (runOnFunction.createBlocks (F.blocks.map Prod.fst) [] []).2.length =
      F.blocks.length := by
    rw [createBlocks_length]; simp
  have hidx : ∀ (j : Nat) (BB : BasicBlock), (F.blocks.map Prod.fst).get? j = some BB →
      (runOnFunction.createBlocks (F.blocks.map Prod.fst) [] []).2.get? j =
        some { id := j, name := BB.name, rebuilt := true } ∧
      (runOnFunction.createBlocks (F.blocks.map Prod.fst) [] []).1.lookup BB =
        some { id := j, name := BB.name, rebuilt := true } := by
    intro j BB hj
    constructor
    · have := createBlocks_blocks_at _ [] [] j BB hj
      simpa using this
    · have := createBlocks_lookup _ [] [] hnd j BB hj
      simpa using this
  refine ⟨hlen, hidx, ?_, ?_, ?_⟩
  · intro BB₁ BB₂ NBB h₁ h₂ l₁ l₂
    obtain ⟨j₁, hj₁⟩ := List.mem_iff_get?.mp h₁
    obtain ⟨j₂, hj₂⟩ := List.mem_iff_get?.mp h₂
    have e₁ := (hidx j₁ BB₁ hj₁).2
    have e₂ := (hidx j₂ BB₂ hj₂).2
    rw [l₁] at e₁
    rw [l₂] at e₂
    have hj : j₁ = j₂ := by
      have := e₁.symm.trans e₂
      simp at this
      exact this.1
    subst hj
    rw [hj₁] at hj₂
    exact Option.some.inj hj₂
  · intro NBB hN
    obtain ⟨j, hj⟩ := List.mem_iff_get?.mp hN
    have hjlt : j < (F.blocks.map Prod.fst).length := by
      have : j < (runOnFunction.createBlocks (F.blocks.map Prod.fst) [] []).2.length := by
        by_contra hc
        rw [List.get?_eq_none.mpr (by omega)] at hj
        cases hj
      simpa [hlen] using this
    obtain ⟨BB, hBB⟩ : ∃ BB, (F.blocks.map Prod.fst).get? j = some BB :=
      ⟨_, List.get?_eq_get hjlt⟩
    refine ⟨BB, List.mem_iff_get?.mpr ⟨j, hBB⟩, ?_⟩
    have := hidx j BB hBB
    rw [hj] at this
    rw [this.2, ← this.1]
  · intro R h
    have hR := runOnFunction_ok TD Decompose FMap VMap BBMap F R h
    have hB : R.blocks = (runOnFunction.createBlocks (F.blocks.map Prod.fst) [] []).2 := by
      rw [← hR]
    have hM : R.BBMap = (runOnFunction.createBlocks (F.blocks.map Prod.fst) [] []).1 := by
      rw [← hR]
    exact ⟨hM, hB, by rw [hB]; exact hlen⟩

/-- C13, witness: `@fn` has the three blocks `entry`, `loop`, `exit`; the first
loop creates three blocks, and the rebuilt function has those three blocks and
the block map that sends each old block to the new block of its position. -/
theorem runOnFunction_blocks_witness :
    (runOnFunction.createBlocks (Example.fn.blocks.map Prod.fst) [] []).2.length =
      Example.fn.blocks.length ∧
    Example.fnRebuilt.BBMap =
      (runOnFunction.createBlocks (Example.fn.blocks.map Prod.fst) [] []).1 ∧
    Example.fnRebuilt.blocks =
      (runOnFunction.createBlocks (Example.fn.blocks.map Prod.fst) [] []).2 ∧
    Example.fnRebuilt.blocks.length = Example.fn.blocks.length :=
  have h := runOnFunction_blocks layout32 (fun _ => Example.rDecomposition)
    [(Example.fnF, Example.fnNF)] Example.s1.VMap [] Example.fn (by decide)
  ⟨h.1, h.2.2.2.2 Example.fnRebuilt (by decide)⟩

/-! ### InstructionRewriter: branches and switches -/

theorem addCase_last (VMap : ValueMapTy) (log : List Request) (SI V : Value) (D : BasicBlock)
    (n : Nat) (acc : List (Value × BasicBlock)) (OnVal : Value) (Dest : BasicBlock)
    (hSI : SI.id = log.length) :
    State.addCase { VMap := VMap, emitted := log ++ [.Switch V D n acc] } SI OnVal Dest =
      { VMap := VMap, emitted := log ++ [.Switch V D n (acc ++ [(OnVal, Dest)])] } := by
  simp [State.addCase, hSI]

theorem visitSwitchInst_loop (BBMap : BBMapTy) (I : SwitchInst) (m : BasicBlock → BasicBlock)
    (VMap : ValueMapTy) (log : List Request) (SI V : Value) (D : BasicBlock) (n : Nat)
    (hSI : SI.id = log.length) :
    ∀ (rest pre : List (Value × BasicBlock)) (acc : List (Value × BasicBlock)),
      I.cases = pre ++ rest →
      (∀ cb ∈ rest, mapBlock BBMap cb.2 = .ok (m cb.2)) →
      visitSwitchInst.loop BBMap I SI (pre.length + 1) rest.length
          { VMap := VMap, emitted := log ++ [.Switch V D n acc] } =
        .ok { VMap := VMap,
              emitted := log ++ [.Switch V D n (acc ++ rest.map fun cb => (cb.1, m cb.2))] } := by
  intro rest
  induction rest with
  | nil => intro pre acc _ _; simp [visitSwitchInst.loop]
  | cons cb rest ih =>
    intro pre acc hI hm
    have hget : I.cases.get? pre.length = some cb := by
      rw [hI, List.get?_eq_getElem?, List.getElem?_append_right (Nat.le_refl _)]
      simp
    have hmb := hm cb (List.mem_cons_self _ _)
    simp only [List.length_cons, visitSwitchInst.loop, SwitchInst.getSuccessor,
      SwitchInst.getCaseValue, Nat.add_sub_cancel, hget, Option.map_some',
      Nat.add_one_ne_zero, if_false, hmb]
    have := ih (pre ++ [cb]) (acc ++ [(cb.1, m cb.2)]) (by simp [hI])
      (fun c hc => hm c (List.mem_cons_of_mem _ hc))
    simp only [List.length_append, List.length_singleton] at this
    simp only [bind, Except.bind]
    rw [addCase_last _ _ _ _ _ _ _ _ _ hSI, this]
    simp

/-- C14: for every switch whose condition is mapped to `C` and whose target
blocks are mapped by `m` (the default destination and the destination of every
case), the rewrite succeeds and makes one request, the switch on `C` with
default `m D` and, in the same order, the cases `(c, m B)` of the source
cases `(c, B)` with their constants unchanged; the value map is unchanged. -/
theorem visitSwitchInst_cases (BBMap : BBMapTy) (I : SwitchInst) (s : State) (C : Value)
    (m : BasicBlock → BasicBlock)
    (hC : mapValue s I.condition = .ok C)
    (hD : mapBlock BBMap I.defaultDest = .ok (m I.defaultDest))
    (hB : ∀ cb ∈ I.cases, mapBlock BBMap cb.2 = .ok (m cb.2)) :
    visitSwitchInst BBMap I s =
      .ok { VMap := s.VMap,
            emitted := s.emitted ++
              [.Switch C (m I.defaultDest) (I.cases.length + 1)
                (I.cases.map fun cb => (cb.1, m cb.2))] } := by
  have := visitSwitchInst_loop BBMap I m s.VMap s.emitted
    { id := s.emitted.length, kind := .Instruction, type := .void, rebuilt := true }
    C (m I.defaultDest) (I.cases.length + 1) rfl I.cases [] [] rfl hB
  simp only [visitSwitchInst, hC, hD, bind, Except.bind, State.insert, Request.type,
    SwitchInst.getNumCases, Nat.add_sub_cancel]
  simpa using this

/-- C14, witness: the switch on `%c` with default `exit` and the cases
`7 -> loop`, `9 -> entry` is rebuilt with the same constants and the new
blocks. -/
theorem visitSwitchInst_cases_witness :
    visitSwitchInst Example.BBMap Example.sw Example.sC =
      .ok { VMap := Example.sC.VMap,
            emitted := [.Load Example.g "c",
              .Switch (Example.built 0 (.integer 32)) (Example.newBlock 2 "exit") 3
                [(Example.const32 7, Example.newBlock 1 "loop"),
                 (Example.const32 9, Example.newBlock 0 "entry")]] } :=
  (visitSwitchInst_cases Example.BBMap Example.sw Example.sC (Example.built 0 (.integer 32))
    (fun B => Example.newBlock B.id B.name) (by decide) (by decide) (by decide)).trans
    (by decide)

/-- C15: an unconditional branch to `B` whose target is mapped to `NB` becomes
the branch to `NB`, and a conditional branch `(c, T, F)` whose condition is
mapped to `C` and whose targets are mapped to `NT` and `NF` becomes the
conditional branch `(C, NT, NF)`; the value map is unchanged. The rewrite of a
branch fails only if a target has no entry in the block map or the condition
is not mapped (it is no constant and has no entry in the value map). -/
theorem visitBranchInst_successors (BBMap : BBMapTy) (s : State) :
    (∀ B NB, BBMap.lookup B = some NB →
      visitBranchInst BBMap (.unconditional B) s =
        .ok { VMap := s.VMap, emitted := s.emitted ++ [.Br NB] }) ∧
    (∀ c T F C NT NF, mapValue s c = .ok C → BBMap.lookup T = some NT →
      BBMap.lookup F = some NF →
      visitBranchInst BBMap (.conditional c T F) s =
        .ok { VMap := s.VMap, emitted := s.emitted ++ [.CondBr C NT NF] }) ∧
    (∀ B e, visitBranchInst BBMap (.unconditional B) s = .error e → BBMap.lookup B = none) ∧
    (∀ c T F e, visitBranchInst BBMap (.conditional c T F) s = .error e →
      (c.isConstant = false ∧ s.VMap.lookup c = none) ∨ BBMap.lookup T = none ∨
        BBMap.lookup F = none) := by
  refine ⟨?_, ?_, ?_, ?_⟩
  · intro B NB h
    simp [visitBranchInst, mapBlock, h, bind, Except.bind, State.insert]
  · intro c T F C NT NF hC hT hF
    simp [visitBranchInst, mapBlock, hC, hT, hF, bind, Except.bind, State.insert]
  · intro B e h
    cases hB : BBMap.lookup B with
    | none => rfl
    | some NB => simp [visitBranchInst, mapBlock, hB, bind, Except.bind] at h
  · intro c T F e h
    by_cases hc : c.isConstant = true
    · cases hT : BBMap.lookup T with
      | none => exact Or.inr (Or.inl rfl)
      | some NT =>
        cases hF : BBMap.lookup F with
        | none => exact Or.inr (Or.inr rfl)
        | some NF =>
          simp [visitBranchInst, mapBlock, mapValue, hc, hT, hF, bind, Except.bind] at h
    · cases hV : s.VMap.lookup c with
      | none => exact Or.inl ⟨by simpa using hc, rfl⟩
      | some C =>
        cases hT : BBMap.lookup T with
        | none => exact Or.inr (Or.inl rfl)
        | some NT =>
          cases hF : BBMap.lookup F with
          | none => exact Or.inr (Or.inr rfl)
          | some NF =>
            simp [visitBranchInst, mapBlock, mapValue, hc, hV, hT, hF, bind, Except.bind] at h

/-- C15, witness: the branch to `loop` becomes the branch to the new `loop`,
and the branch on `%c` to `loop` or `exit` becomes the branch on its mapped
value to the new `loop` or the new `exit`; with an empty block map the branch
to `loop` stops, and so does the branch on the unmapped `%i`. -/
theorem visitBranchInst_successors_witness :
    visitBranchInst Example.BBMap (.unconditional Example.loop) Example.sC =
      .ok { VMap := Example.sC.VMap,
            emitted := Example.sC.emitted ++ [.Br (Example.newBlock 1 "loop")] } ∧
    visitBranchInst Example.BBMap (.conditional Example.c Example.loop Example.exit)
        Example.sC =
      .ok { VMap := Example.sC.VMap,
            emitted := Example.sC.emitted ++
              [.CondBr (Example.built 0 (.integer 32)) (Example.newBlock 1 "loop")
                (Example.newBlock 2 "exit")] } ∧
    BBMapTy.lookup [] Example.loop = none ∧
    ((Example.i.isConstant = false ∧ Example.sC.VMap.lookup Example.i = none) ∨
      Example.BBMap.lookup Example.loop = none ∨ Example.BBMap.lookup Example.exit = none) :=
  ⟨(visitBranchInst_successors Example.BBMap Example.sC).1 Example.loop _ (by decide),
   (visitBranchInst_successors Example.BBMap Example.sC).2.1 Example.c Example.loop
     Example.exit _ _ _ (by decide) (by decide) (by decide),
   (visitBranchInst_successors [] Example.sC).2.2.1 Example.loop .assertBlockMapped
     (by decide),
   (visitBranchInst_successors Example.BBMap Example.sC).2.2.2 Example.i Example.loop
     Example.exit .assertMapped (by decide)⟩


/-! ### InstructionRewriter: phi nodes -/

theorem mapPHIValue_lookup (s s' : State) (V NV K KV : Value)
    (h : mapPHIValue s V = .ok (NV, s')) (hK : s.VMap.lookup K = some KV) :
    s'.VMap.lookup K = some KV := by
  unfold mapPHIValue at h
  split_ifs at h with hphi
  · cases hV : s.VMap.lookup V with
    | some W =>
      rw [hV] at h
      cases h
      exact hK
    | none =>
      rw [hV] at h
      cases h
      have hne : V ≠ K := by
        intro e
        rw [e, hK] at hV
        cases hV
      simp [State.setVMap, State.createPHI, ValueMapTy.lookup, hne, hK]
  · cases hV : mapValue s V with
    | error e => rw [hV] at h; cases h
    | ok W =>
      rw [hV] at h
      cases h
      exact hK

theorem setIncoming_VMap (s : State) (PN V : Value) (i : Nat) (BB : BasicBlock) :
    (s.setIncoming PN i V BB).VMap = s.VMap := by
  unfold State.setIncoming
  split <;> rfl

theorem visitPHINode_loop_lookup (BBMap : BBMapTy) (PN K KV : Value) :
    ∀ (k i : Nat) (s s' : State), visitPHINode.loop BBMap PN i k s = .ok s' →
      s.VMap.lookup K = some KV → s'.VMap.lookup K = some KV := by
  intro k
  induction k with
  | zero =>
    intro i s s' h hK
    simp [visitPHINode.loop] at h
    cases h
    exact hK
  | succ k ih =>
    intro i s s' h hK
    rw [visitPHINode.loop] at h
    split at h
    · rename_i IV IB hinc
      cases hm : mapPHIValue s IV with
      | error e => simp [hm, bind, Except.bind] at h
      | ok r =>
        obtain ⟨V, s₁⟩ := r
        cases hb : mapBlock BBMap IB with
        | error e => simp [hm, hb, bind, Except.bind] at h
        | ok BB =>
          simp only [hm, hb, bind, Except.bind] at h
          refine ih _ _ _ h ?_
          rw [setIncoming_VMap]
          exact mapPHIValue_lookup s s₁ IV V K KV hm hK
    · cases h

theorem phiIncoming_createPHI (s : State) (T : Ty) (K : Value) :
    ((s.createPHI T).2.setVMap K (s.createPHI T).1).phiIncoming (s.createPHI T).1 =
      some [] := by
  simp [State.phiIncoming, State.createPHI, State.setVMap]

/-- C16, the code at the failing input. The loop-carried phi node
`%x = phi i32 [ 0, %entry ], [ %x, %loop ]` has two incoming edges; after
`visitPHINode` the value map holds for it a phi node without any incoming
edge, since the loop of `visitPHINode` runs over the incoming edges of the new
phi node, which has none. -/
theorem visitPHINode_no_incoming :
    Example.x.incoming.length = 2 ∧
    visitPHINode Example.BBMap Example.x { VMap := [], emitted := [] } = .ok Example.sX ∧
    Example.sX.VMap.lookup Example.x.self = some Example.xNew ∧
    Example.sX.phiIncoming Example.xNew = some [] := by
  decide

/-- C17: rewriting a phi node returns for every input, whatever its incoming
values, and gives each source phi node at most one phi node of the new
function. `visitPHINode` on a phi node without entry in the value map creates
one phi node and records it; on a phi node with an entry it keeps that entry,
and when the entry is a placeholder (a phi node without incoming edge, as
`mapPHIValue` creates it) it makes no request and changes nothing.
`mapPHIValue` on a phi node returns its entry without any request when there
is one and creates and records one placeholder when there is none. -/
theorem visitPHINode_terminates_reuses (BBMap : BBMapTy) (I : PHINode) (s : State) :
    (s.VMap.lookup I.self = none →
      visitPHINode BBMap I s =
        .ok { VMap := (I.self, { id := s.emitted.length, kind := .PHINode,
                                 type := I.self.type, rebuilt := true }) :: s.VMap,
              emitted := s.emitted ++ [.PHI I.self.type []] }) ∧
    (∀ NV s', s.VMap.lookup I.self = some NV → visitPHINode BBMap I s = .ok s' →
      s'.VMap.lookup I.self = some NV) ∧
    (∀ NV, s.VMap.lookup I.self = some NV → s.phiIncoming NV = some [] →
      visitPHINode BBMap I s = .ok s) ∧
    (∀ V NV, V.kind = .PHINode → s.VMap.lookup V = some NV → mapPHIValue s V = .ok (NV, s)) ∧
    (∀ V, V.kind = .PHINode → s.VMap.lookup V = none →
      mapPHIValue s V =
        .ok ({ id := s.emitted.length, kind := .PHINode, type := V.type, rebuilt := true },
             { VMap := (V, { id := s.emitted.length, kind := .PHINode, type := V.type,
                             rebuilt := true }) :: s.VMap,
               emitted := s.emitted ++ [.PHI V.type []] })) := by
  refine ⟨?_, ?_, ?_, ?_, ?_⟩
  · intro h
    have hp := phiIncoming_createPHI s I.self.type I.self
    simp only [visitPHINode, h, bind, Except.bind, hp, List.length_nil, visitPHINode.loop]
    rfl
  · intro NV s' h hv
    simp only [visitPHINode, h, bind, Except.bind] at hv
    cases hp : s.phiIncoming NV with
    | none => simp [hp] at hv
    | some Incoming =>
      simp only [hp] at hv
      exact visitPHINode_loop_lookup BBMap NV I.self NV _ _ _ _ hv h
  · intro NV h hp
    simp [visitPHINode, h, bind, Except.bind, hp, visitPHINode.loop]
  · intro V NV hk h
    simp [mapPHIValue, hk, h]
  · intro V hk h
    simp [mapPHIValue, hk, h, State.createPHI, State.setVMap]

/-- C17, witness: the loop-carried phi node `%x`, which lists itself, gets one
phi node on its first visit; visiting it again, or meeting it as an incoming
value, reuses that phi node and makes no request. -/
theorem visitPHINode_terminates_reuses_witness :
    visitPHINode Example.BBMap Example.x { VMap := [], emitted := [] } = .ok Example.sX ∧
    visitPHINode Example.BBMap Example.x Example.sX = .ok Example.sX ∧
    mapPHIValue Example.sX Example.x.self = .ok (Example.xNew, Example.sX) :=
  ⟨(visitPHINode_terminates_reuses Example.BBMap Example.x { VMap := [], emitted := [] }).1
     (by decide),
   (visitPHINode_terminates_reuses Example.BBMap Example.x Example.sX).2.2.1 Example.xNew
     (by decide) (by decide),
   (visitPHINode_terminates_reuses Example.BBMap Example.x Example.sX).2.2.2.1
     Example.x.self Example.xNew (by decide) (by decide)⟩


/-! ### InstructionRewriter: stack allocations and calls -/

/-- C18, the code at the failing input. The allocation of one struct
`{i32, i32, i32}` becomes the allocation of 3 elements of `i32`, cast back to
the struct pointer type. For the allocation of `2 ^ 63` elements of
`[2 x i32]` the allocated type rebuilds to `[2 x i32]`, so the count should be
`2 ^ 63 * 2`, but the product is taken in a `uint64_t` and wraps: the rewrite
allocates 0 elements of `i32`. -/
theorem visitAllocaInst_count_wraps :
    visitAllocaInst layout32 Example.allocaS { VMap := [], emitted := [] } =
      .ok { VMap := [(Example.allocaS.self,
                      Example.built 1 (PointerType.getUnqual Example.S3))],
            emitted := [.Alloca (.integer 32) (some (u64const 3)) "s",
                        .PointerCast (Example.built 0 Example.i32p)
                          (PointerType.getUnqual Example.S3) "s"] } ∧
    rebuildType layout32 Example.allocaHuge.allocatedType = .ok (.array (.integer 32) 2) ∧
    Example.allocaHuge.arraySize.kind = .ConstantInt (2 ^ 63) ∧
    visitAllocaInst layout32 Example.allocaHuge { VMap := [], emitted := [] } =
      .ok { VMap := [(Example.allocaHuge.self,
                      Example.built 1 (PointerType.getUnqual (.array (.integer 32) 2)))],
            emitted := [.Alloca (.integer 32) (some (u64const 0)) "h",
                        .PointerCast (Example.built 0 Example.i32p)
                          (PointerType.getUnqual (.array (.integer 32) 2)) "h"] } := by
  decide

/-- C19: a stack allocation whose element count is no constant integer is
rejected: `visitAllocaInst` stops with the message "VLA not supported" against
the allocation, before any request to the builder and any change to the value
map. -/
theorem visitAllocaInst_not_constant (TD : TargetData) (AI : AllocaInst) (s : State)
    (h : ∀ zext : Nat, AI.arraySize.kind ≠ .ConstantInt zext) :
    visitAllocaInst TD AI s = .error (.stop "VLA not supported" AI.self) := by
  unfold visitAllocaInst
  split
  · rename_i zext hk
    exact absurd hk (h zext)
  · rfl

/-- C19, witness: `%v = alloca i32, i32 %i` is rejected. -/
theorem visitAllocaInst_not_constant_witness :
    visitAllocaInst layout32 Example.allocaVLA Example.s1 =
      .error (.stop "VLA not supported" Example.allocaVLA.self) :=
  visitAllocaInst_not_constant layout32 Example.allocaVLA Example.s1 (by
    intro zext h
    cases h)

theorem mapValue_VMap (s s' : State) (V : Value) (h : s'.VMap = s.VMap) :
    mapValue s' V = mapValue s V := by
  simp [mapValue, h]

/-- The bit casts the first loop of `visitCallInst` requests for the mapped
arguments `Vs` against the declared parameter types `Ts`: one for each
position whose types differ, in order. -/
theorem externalParams_spec (I : CallInst) :
    ∀ (Ts : List Ty) (i : Nat) (s : State) (Vs : List Value),
      List.Forall₂ (fun Op V => mapValue s Op = .ok V) (I.args.drop i) Vs →
      Vs.length = Ts.length →
      ∃ (Args : List Value) (s' : State),
        visitCallInst.externalParams I Ts i s = .ok (Args, s') ∧
        s'.VMap = s.VMap ∧
        s'.emitted = s.emitted ++
          (Vs.zip Ts).filterMap (fun p =>
            if p.1.type ≠ p.2 then some (Request.BitCast p.1 p.2) else none) ∧
        Args.length = Ts.length ∧
        (∀ (j : Nat) (V A : Value) (T : Ty), Vs.get? j = some V → Ts.get? j = some T →
          Args.get? j = some A →
          (V.type = T → A = V) ∧
          (V.type ≠ T → A.rebuilt = true ∧ A.type = T ∧ s.emitted.length ≤ A.id ∧
            s'.emitted.get? A.id = some (.BitCast V T))) := by
  intro Ts
  induction Ts with
  | nil =>
    intro i s Vs _ hlen
    have : Vs = [] := List.length_eq_zero.mp (by simpa using hlen)
    subst this
    exact ⟨[], s, rfl, rfl, by simp, rfl, by intro j V A T h; simp at h⟩
  | cons T Ts ih =>
    intro i s Vs hF hlen
    cases Vs with
    | nil => simp at hlen
    | cons V Vs =>
      cases hd : I.args.drop i with
      | nil => rw [hd] at hF; cases hF
      | cons Op rest =>
        rw [hd] at hF
        have hOp : I.args[i]? = some Op := by
          have := congrArg List.head? hd
          simpa [List.head?_drop] using this
        have hrest : I.args.drop (i + 1) = rest := by
          have := congrArg List.tail hd
          simpa [List.tail_drop] using this
        cases hF with
        | cons hV hF' =>
          by_cases hty : V.type = T
          · -- no cast
            obtain ⟨Args, s', hrun, hvm, hem, hal, hargs⟩ :=
              ih (i + 1) s Vs (by rw [hrest]; exact hF') (by simpa using hlen)
            refine ⟨V :: Args, s', ?_, hvm, ?_, by simp [hal], ?_⟩
            · simp [visitCallInst.externalParams, hOp, hV, hty, bind, Except.bind, hrun]
            · simp [hem, hty]
            · intro j V' A T' hj hT hA
              cases j with
              | zero =>
                simp at hj hT hA
                subst hj hT hA
                exact ⟨fun _ => rfl, fun h => absurd hty h⟩
              | succ j =>
                simp at hj hT hA
                exact hargs j V' A T' (by simpa using hj) (by simpa using hT)
                  (by simpa using hA)
          · -- one cast
            have hF'' : List.Forall₂
                (fun Op W => mapValue (s.insert (.BitCast V T)).2 Op = .ok W)
                (I.args.drop (i + 1)) Vs := by
              rw [hrest]
              refine List.Forall₂.imp ?_ hF'
              intro a b hab
              exact (mapValue_VMap s (s.insert (.BitCast V T)).2 a rfl).trans hab
            obtain ⟨Args, s', hrun, hvm, hem, hal, hargs⟩ :=
              ih (i + 1) (s.insert (.BitCast V T)).2 Vs hF'' (by simpa using hlen)
            refine ⟨(s.insert (.BitCast V T)).1 :: Args, s', ?_, hvm, ?_, by simp [hal], ?_⟩
            · simp [visitCallInst.externalParams, hOp, hV, hty, bind, Except.bind, hrun]
            · simp [hem, hty, State.insert]
            · intro j V' A T' hj hT hA
              cases j with
              | zero =>
                simp at hj hT hA
                subst hj hT hA
                refine ⟨fun h => absurd h hty, fun _ => ⟨rfl, rfl, Nat.le_refl _, ?_⟩⟩
                rw [hem]
                simp only [State.insert, List.get?_eq_getElem?]
                rw [List.getElem?_append_left (by simp),
                  List.getElem?_append_right (Nat.le_refl _)]
                simp
              | succ j =>
                simp at hj hT hA
                have := hargs j V' A T' (by simpa using hj) (by simpa using hT)
                  (by simpa using hA)
                refine ⟨this.1, fun h => ?_⟩
                obtain ⟨h1, h2, h3, h4⟩ := this.2 h
                refine ⟨h1, h2, ?_, h4⟩
                simp [State.insert] at h3
                omega

theorem filterMap_cast_length (Ps : List (Value × Ty)) :
    (Ps.filterMap (fun p =>
        if p.1.type ≠ p.2 then some (Request.BitCast p.1 p.2) else none)).length =
      (Ps.filter fun p => decide (p.1.type ≠ p.2)).length := by
  induction Ps with
  | nil => rfl
  | cons p Ps ih =>
    by_cases h : p.1.type = p.2
    · rw [List.filterMap_cons, List.filter_cons]
      simp only [ne_eq, h, not_true_eq_false, if_false, decide_False]
      exact ih
    · rw [List.filterMap_cons, List.filter_cons]
      simp only [ne_eq, h, not_false_eq_true, if_true, decide_True, List.length_cons]
      rw [ih]

/-- C20: for every call of an external (declaration-only) function `F` that is
not variadic, with as many arguments as `F` has parameters, each mapped (to
`Vs`), the rewrite succeeds; it requests one bit cast for each argument
position whose mapped type differs from the declared parameter type, in order
and no other, then the call of the same `F` with as many arguments as
parameters, argument `j` being mapped argument `j` itself when its type is the
declared one and its bit cast to the declared type otherwise; the value of the
call is recorded in the value map. -/
theorem visitCallInst_external (FMap : FMapTy) (I : CallInst) (F : Function) (s : State)
    (Vs : List Value)
    (hF : I.calledFunction = some F) (hd : F.isDeclaration = true)
    (hv : F.type.isVarArg = false)
    (hlen : I.args.length = F.type.params.length)
    (hV : List.Forall₂ (fun Op V => mapValue s Op = .ok V) I.args Vs) :
    ∃ (Args : List Value) (s' : State),
      visitCallInst FMap I s = .ok s' ∧
      s'.emitted = s.emitted ++
        (Vs.zip F.type.params).filterMap (fun p =>
          if p.1.type ≠ p.2 then some (Request.BitCast p.1 p.2) else none) ++
        [.Call F Args I.name] ∧
      ((Vs.zip F.type.params).filterMap (fun p =>
          if p.1.type ≠ p.2 then some (Request.BitCast p.1 p.2) else none)).length =
        ((Vs.zip F.type.params).filter fun p => decide (p.1.type ≠ p.2)).length ∧
      Args.length = F.type.params.length ∧
      (∀ (j : Nat) (V A : Value) (T : Ty), Vs.get? j = some V →
        F.type.params.get? j = some T → Args.get? j = some A →
        (V.type = T → A = V) ∧
        (V.type ≠ T → A.rebuilt = true ∧ A.type = T ∧ s.emitted.length ≤ A.id ∧
          s'.emitted.get? A.id = some (.BitCast V T))) ∧
      s'.VMap.lookup I.self =
        some { id := s'.emitted.length - 1, kind := .Instruction,
               type := F.type.returnType, rebuilt := true } := by
  have hVlen : Vs.length = F.type.params.length := by
    rw [← hlen]; exact (List.Forall₂.length_eq hV).symm
  obtain ⟨Args, s₁, hrun, hvm, hem, hal, hargs⟩ :=
    externalParams_spec I F.type.params 0 s Vs (by simpa using hV) hVlen
  refine ⟨Args, (s₁.insert (.Call F Args I.name)).2.setVMap I.self
    (s₁.insert (.Call F Args I.name)).1, ?_, ?_, filterMap_cast_length _, hal, ?_, ?_⟩
  · simp [visitCallInst, hF, hd, hv, hrun, bind, Except.bind]
  · simp [State.setVMap, State.insert, hem]
  · intro j V A T hj hT hA
    have := hargs j V A T hj hT hA
    refine ⟨this.1, fun h => ?_⟩
    obtain ⟨h1, h2, h3, h4⟩ := this.2 h
    refine ⟨h1, h2, h3, ?_⟩
    have hlt : A.id < s₁.emitted.length := by
      by_contra hc
      rw [List.get?_eq_none.mpr (by omega)] at h4
      cases h4
    simp only [State.setVMap, State.insert, List.get?_eq_getElem?]
    rw [List.getElem?_append_left hlt]
    simpa using h4
  · simp [State.setVMap, State.insert, ValueMapTy.lookup, Request.type]

/-- C20, witness: in `%r = call i32 @api(%p, %c)` the first argument is mapped
to an `i32*` where `@api` declares `i8*`, the second has the declared type
`i32`: the rewrite requests one bit cast, of the first argument, then the call
of `@api` with the cast and the second mapped argument. -/
theorem visitCallInst_external_witness :
    ∃ (Args : List Value) (s' : State),
      visitCallInst [] Example.call Example.sPC = .ok s' ∧
      s'.emitted = Example.sPC.emitted ++
        ([Example.built 0 Example.i32p, Example.built 1 (.integer 32)].zip
            Example.api.type.params).filterMap (fun p =>
          if p.1.type ≠ p.2 then some (Request.BitCast p.1 p.2) else none) ++
        [.Call Example.api Args Example.call.name] ∧
      (([Example.built 0 Example.i32p, Example.built 1 (.integer 32)].zip
            Example.api.type.params).filterMap (fun p =>
          if p.1.type ≠ p.2 then some (Request.BitCast p.1 p.2) else none)).length =
        (([Example.built 0 Example.i32p, Example.built 1 (.integer 32)].zip
            Example.api.type.params).filter fun p => decide (p.1.type ≠ p.2)).length ∧
      Args.length = Example.api.type.params.length ∧
      (∀ (j : Nat) (V A : Value) (T : Ty),
        [Example.built 0 Example.i32p, Example.built 1 (.integer 32)].get? j = some V →
        Example.api.type.params.get? j = some T → Args.get? j = some A →
        (V.type = T → A = V) ∧
        (V.type ≠ T → A.rebuilt = true ∧ A.type = T ∧ Example.sPC.emitted.length ≤ A.id ∧
          s'.emitted.get? A.id = some (.BitCast V T))) ∧
      s'.VMap.lookup Example.call.self =
        some { id := s'.emitted.length - 1, kind := .Instruction,
               type := Example.api.type.returnType, rebuilt := true } :=
  visitCallInst_external [] Example.call Example.api Example.sPC
    [Example.built 0 Example.i32p, Example.built 1 (.integer 32)] rfl rfl rfl rfl
    (List.Forall₂.cons (by decide) (List.Forall₂.cons (by decide) List.Forall₂.nil))


/-! ### PointerArithmeticDecomposer: the variable terms -/

theorem denoteLog_snoc (TD : TargetData) (env : Value → Int) (log : List Request)
    (r : Request) :
    denoteLog TD env (log ++ [r]) =
      denoteLog TD env log ++ [denoteRequest TD env (denoteLog TD env log) r] := by
  simp [denoteLog, List.foldl_append]

theorem denoteLog_length (TD : TargetData) (env : Value → Int) (log : List Request) :
    (denoteLog TD env log).length = log.length := by
  induction log using List.reverseRecOn with
  | nil => rfl
  | append_singleton l a ih => rw [denoteLog_snoc]; simp [ih]

theorem denoteValue_append (env : Value → Int) (vals extra : List Int) (V : Value)
    (h : V.rebuilt = true → V.id < vals.length) :
    denoteValue env (vals ++ extra) V = denoteValue env vals V := by
  unfold denoteValue
  split
  · rfl
  · by_cases hr : V.rebuilt = true
    · simp only [hr, if_true]
      rw [List.getD_append _ _ _ _ (h hr)]
    · simp [hr]

theorem denoteValue_old (env : Value → Int) (vals : List Int) (V : Value)
    (h : V.rebuilt = false) : denoteValue env vals V = denoteValue env [] V := by
  unfold denoteValue
  split
  · rfl
  · simp [h]

theorem denote_insert_old (TD : TargetData) (env : Value → Int) (s : State) (r : Request)
    (V : Value) (h : V.rebuilt = true → V.id < s.emitted.length) :
    (s.insert r).2.denote TD env V = s.denote TD env V := by
  simp only [State.denote, State.insert, denoteLog_snoc]
  exact denoteValue_append env _ _ V (by rw [denoteLog_length]; exact h)

theorem denote_insert_new (TD : TargetData) (env : Value → Int) (s : State) (r : Request) :
    (s.insert r).2.denote TD env (s.insert r).1 =
      denoteRequest TD env (denoteLog TD env s.emitted) r := by
  simp only [State.denote, State.insert, denoteLog_snoc, denoteValue]
  have hl := denoteLog_length TD env s.emitted
  simp [List.getD_eq_getElem?_getD, ← hl]

theorem denoteValue_i32const (env : Value → Int) (vals : List Int) (m : Int)
    (h : toInt32 m = m) : denoteValue env vals (i32const m) = m := by
  unfold toInt32 at h
  simp only [denoteValue, i32const, getSExtValue]
  have h1 : (0 : Int) ≤ m % 2 ^ 32 := Int.emod_nonneg _ (by norm_num)
  rw [Int.toNat_of_nonneg h1]
  norm_num at h ⊢
  omega

/-- What the running sum of `sumVarIndices` denotes: nothing yet is `0`. -/
theorem sumVarIndices_denote (TD : TargetData) (env : Value → Int) (d : Nat) :
    ∀ (L : List (Value × Int)) (Sum : Option Value) (s : State),
      (∀ I ∈ L, toInt32 (I.2.tdiv d) = I.2.tdiv d) →
      (∀ I ∈ L, I.1.rebuilt = false) →
      (∀ S, Sum = some S → S.rebuilt = true → S.id < s.emitted.length) →
      ∃ (Sum' : Option Value) (s' : State) (more : List Request),
        sumVarIndices d L Sum s = .ok (Sum', s') ∧
        s'.emitted = s.emitted ++ more ∧ s'.VMap = s.VMap ∧
        (∀ S, Sum' = some S → S.rebuilt = true → S.id < s'.emitted.length) ∧
        (Sum ≠ none ∨ L ≠ [] → Sum' ≠ none) ∧
        (Sum'.elim 0 (s'.denote TD env)) =
          (Sum.elim 0 (s.denote TD env)) +
            (L.map fun I => denoteValue env [] I.1 * I.2.tdiv d).sum := by
  intro L
  induction L with
  | nil =>
    intro Sum s _ _ hS
    exact ⟨Sum, s, [], rfl, by simp, rfl, hS, by simp, by simp⟩
  | cons I L ih =>
    intro Sum s hfit hold hS
    have hfitI := hfit I (List.mem_cons_self _ _)
    have holdI := hold I (List.mem_cons_self _ _)
    -- the truncation of the index
    obtain ⟨V₁, s₁, h₁, hV₁, hl₁, hvm₁⟩ : ∃ V₁ s₁,
        s.insert (.TruncOrBitCast I.1 (.integer 32)) = (V₁, s₁) ∧
        s₁.denote TD env V₁ = denoteValue env [] I.1 ∧
        s₁.emitted = s.emitted ++ [.TruncOrBitCast I.1 (.integer 32)] ∧ s₁.VMap = s.VMap := by
      refine ⟨(s.insert (.TruncOrBitCast I.1 (.integer 32))).1,
        (s.insert (.TruncOrBitCast I.1 (.integer 32))).2, rfl, ?_, rfl, rfl⟩
      exact (denote_insert_new TD env s _).trans (denoteValue_old env _ _ holdI)
    have hid₁ : V₁.rebuilt = true → V₁.id < s₁.emitted.length := by
      intro _
      have : V₁ = (s.insert (.TruncOrBitCast I.1 (.integer 32))).1 := by rw [h₁]
      rw [this, hl₁]
      simp [State.insert]
    -- the multiplication by the factor
    obtain ⟨V₂, s₂, m₂, h₂, hV₂, hl₂, hvm₂, hid₂⟩ : ∃ V₂ s₂ more₂,
        (if toInt32 (I.2.tdiv d) ≠ 1 then s₁.insert (.NSWMul (i32const (I.2.tdiv d)) V₁)
          else (V₁, s₁)) = (V₂, s₂) ∧
        s₂.denote TD env V₂ = denoteValue env [] I.1 * I.2.tdiv d ∧
        s₂.emitted = s₁.emitted ++ more₂ ∧ s₂.VMap = s.VMap ∧
        (V₂.rebuilt = true → V₂.id < s₂.emitted.length) := by
      by_cases hm : toInt32 (I.2.tdiv d) = 1
      · refine ⟨V₁, s₁, [], by simp [hm], ?_, by simp, hvm₁, hid₁⟩
        rw [hV₁, ← hfitI, hm, Int.mul_one]
      · refine ⟨(s₁.insert (.NSWMul (i32const (I.2.tdiv d)) V₁)).1,
          (s₁.insert (.NSWMul (i32const (I.2.tdiv d)) V₁)).2,
          [.NSWMul (i32const (I.2.tdiv d)) V₁], by rw [if_pos hm], ?_, rfl, hvm₁, ?_⟩
        · refine (denote_insert_new TD env s₁ _).trans ?_
          simp only [denoteRequest]
          rw [denoteValue_i32const env _ _ hfitI]
          have : denoteValue env (denoteLog TD env s₁.emitted) V₁ = s₁.denote TD env V₁ := rfl
          rw [this, hV₁, Int.mul_comm]
        · intro _
          simp [State.insert]
    -- the addition to the running sum
    obtain ⟨S₃, s₃, m₃, h₃, hV₃, hl₃, hvm₃, hid₃⟩ : ∃ S₃ s₃ more₃,
        (match Sum with
          | some Sum => s₂.insert (.NSWAdd Sum V₂)
          | none => (V₂, s₂)) = (S₃, s₃) ∧
        s₃.denote TD env S₃ =
          Sum.elim 0 (s.denote TD env) + denoteValue env [] I.1 * I.2.tdiv d ∧
        s₃.emitted = s₂.emitted ++ more₃ ∧ s₃.VMap = s.VMap ∧
        (S₃.rebuilt = true → S₃.id < s₃.emitted.length) := by
      cases Sum with
      | none =>
        refine ⟨V₂, s₂, [], rfl, ?_, by simp, hvm₂, hid₂⟩
        simp [hV₂]
      | some S =>
        refine ⟨(s₂.insert (.NSWAdd S V₂)).1, (s₂.insert (.NSWAdd S V₂)).2,
          [.NSWAdd S V₂], rfl, ?_, rfl, hvm₂, ?_⟩
        · refine (denote_insert_new TD env s₂ _).trans ?_
          simp only [denoteRequest, Option.elim]
          have e₂ : denoteValue env (denoteLog TD env s₂.emitted) V₂ = s₂.denote TD env V₂ :=
            rfl
          have eS : denoteValue env (denoteLog TD env s₂.emitted) S = s.denote TD env S := by
            have hSs := hS S rfl
            simp only [State.denote, hl₂, hl₁]
            rw [List.append_assoc]
            generalize ([Request.TruncOrBitCast I.1 (Ty.integer 32)] ++ m₂) = extra
            clear h₂ hV₂ hl₂ hvm₂ hid₂ h₁ hV₁ hl₁ hvm₁ hid₁
            induction extra using List.reverseRecOn with
            | nil => simp
            | append_singleton l a ih' =>
              rw [← List.append_assoc, denoteLog_snoc]
              rw [denoteValue_append env _ _ S
                (by rw [denoteLog_length]; intro hr; have := hSs hr; simp; omega)]
              exact ih'
          rw [e₂, eS, hV₂]
        · intro _
          simp [State.insert]
    obtain ⟨Sum', s', more, hrun, hem, hvm, hS', hne, hden⟩ :=
      ih (some S₃) s₃ (fun J hJ => hfit J (List.mem_cons_of_mem _ hJ))
        (fun J hJ => hold J (List.mem_cons_of_mem _ hJ))
        (fun S hSe => by cases hSe; exact hid₃)
    refine ⟨Sum', s', [.TruncOrBitCast I.1 (.integer 32)] ++ m₂ ++ m₃ ++ more, ?_, ?_,
      hvm.trans hvm₃, hS', fun _ => hne (Or.inl (by simp)), ?_⟩
    · rw [sumVarIndices]
      simp only [hfitI, ne_eq, not_true_eq_false, if_false]
      rw [h₁]
      simp only []
      rw [hfitI] at h₂
      rw [h₂]
      simp only []
      rw [h₃]
      exact hrun
    · rw [hem, hl₃, hl₂, hl₁]
      simp only [List.append_assoc]
    · rw [hden, List.map_cons, List.sum_cons]
      show s₃.denote TD env S₃ + _ = _
      rw [hV₃]
      ring

/-- C11: in every address computation of the general case (base mapped to a
pointer `P` whose pointee size, the divisor, is not zero) in which at least one
stride is not divisible by the divisor, and every stride fits 32 bits (else
the rewrite stops), the rewrite succeeds and its last two requests are the
element-address step `GEP P8 Sum` and the cast of its value to the type of the
instruction, recorded in the value map. The pointer `P8` the index sum is
added to has type `i8*`, and for every assignment of integers to the old
values `Sum` denotes the sum of every index times its raw byte stride. -/
theorem visitGetElementPtrInst_byte_granularity (TD : TargetData) (D : Decomposition)
    (II : GetElementPtrInst) (s : State) (P : Value) (ETy : Ty)
    (hz : II.hasAllZeroIndices = false)
    (hP : mapValue s D.base = .ok P)
    (hE : castPointerElementType P.type = .ok ETy)
    (hd : toUnsigned (TD.getTypeAllocSize ETy) ≠ 0)
    (hnd : ∃ I ∈ D.VarIndices, I.2.tmod (toUnsigned (TD.getTypeAllocSize ETy)) ≠ 0)
    (hfit : ∀ I ∈ D.VarIndices, toInt32 I.2 = I.2)
    (hold : ∀ I ∈ D.VarIndices, I.1.rebuilt = false) :
    ∃ (s' : State) (pre : List Request) (P8 Sum : Value),
      visitGetElementPtrInst TD D II s = .ok s' ∧
      s'.emitted = s.emitted ++ pre ++
        [.GEP P8 Sum,
         .PointerCast { id := (s.emitted ++ pre).length, kind := .Instruction,
                        type := P8.type, rebuilt := true } II.self.type II.name] ∧
      P8.type = PointerType.getUnqual (.integer 8) ∧
      (∀ env : Value → Int,
        s'.denote TD env Sum = (D.VarIndices.map fun I => denoteValue env [] I.1 * I.2).sum) ∧
      s'.VMap.lookup II.self =
        some { id := (s.emitted ++ pre).length + 1, kind := .Instruction,
               type := II.self.type, rebuilt := true } := by
  -- the constant term
  obtain ⟨P₁, s₁, base, h₁, hl₁⟩ : ∃ P₁ s₁ base,
      (if D.BaseOffs.tmod (toUnsigned (TD.getTypeAllocSize ETy)) ≠ 0 then
          s.insert (.ConstGEP1_64 P
            (D.BaseOffs.tdiv (toUnsigned (TD.getTypeAllocSize ETy))) "rb.base")
        else
          ((s.insert (.PointerCast P (PointerType.getUnqual (.integer 8)) "")).2.insert
            (.ConstGEP1_64 (s.insert (.PointerCast P (PointerType.getUnqual (.integer 8)) "")).1
              D.BaseOffs "rb.base8"))) = (P₁, s₁) ∧
      s₁.emitted = s.emitted ++ base := by
    split_ifs
    · exact ⟨_, _, [.ConstGEP1_64 P
        (D.BaseOffs.tdiv (toUnsigned (TD.getTypeAllocSize ETy))) "rb.base"], rfl, rfl⟩
    · exact ⟨_, _, [.PointerCast P (PointerType.getUnqual (.integer 8)) "",
        .ConstGEP1_64 (s.insert (.PointerCast P (PointerType.getUnqual (.integer 8)) "")).1
          D.BaseOffs "rb.base8"], rfl, by simp [State.insert]⟩
  have hall : (D.VarIndices.all fun I =>
      decide (I.2.tmod (toUnsigned (TD.getTypeAllocSize ETy)) = 0)) = false := by
    obtain ⟨I, hI, hne⟩ := hnd
    rw [Bool.eq_false_iff]
    intro hc
    rw [List.all_eq_true] at hc
    exact hne (by simpa using hc I hI)
  -- the variable terms, at divisor 1
  obtain ⟨Sum', s₃, more, hrun, hl₃, _, hS₃, hne, hden⟩ := sumVarIndices_denote TD
    (fun _ => 0) 1 D.VarIndices none
    (s₁.insert (.PointerCast P₁ (PointerType.getUnqual (.integer 8)) "")).2
    (by intro I hI; simpa using hfit I hI) hold (by intro S hS; cases hS)
  have hne' : D.VarIndices ≠ [] := by
    obtain ⟨I, hI, _⟩ := hnd
    exact List.ne_nil_of_mem hI
  obtain ⟨Sum, hSum⟩ : ∃ Sum, Sum' = some Sum := by
    cases hs : Sum' with
    | none => exact absurd hs (hne (Or.inr hne'))
    | some S => exact ⟨S, rfl⟩
  subst hSum
  refine ⟨((s₃.insert (.GEP (s₁.insert (.PointerCast P₁ (PointerType.getUnqual (.integer 8))
      "")).1 Sum)).2.insert (.PointerCast (s₃.insert (.GEP (s₁.insert (.PointerCast P₁
      (PointerType.getUnqual (.integer 8)) "")).1 Sum)).1 II.self.type II.name)).2.setVMap
      II.self ((s₃.insert (.GEP (s₁.insert (.PointerCast P₁ (PointerType.getUnqual
      (.integer 8)) "")).1 Sum)).2.insert (.PointerCast (s₃.insert (.GEP (s₁.insert
      (.PointerCast P₁ (PointerType.getUnqual (.integer 8)) "")).1 Sum)).1 II.self.type
      II.name)).1,
    base ++ [.PointerCast P₁ (PointerType.getUnqual (.integer 8)) ""] ++ more,
    (s₁.insert (.PointerCast P₁ (PointerType.getUnqual (.integer 8)) "")).1, Sum,
    ?_, ?_, rfl, ?_, ?_⟩
  · unfold visitGetElementPtrInst
    simp only [hz, Bool.false_eq_true, if_false, hP, hE, bind, Except.bind, hd]
    rw [h₁]
    simp only [hall, Bool.not_false, if_true]
    rw [hrun]
  · simp [State.setVMap, State.insert, hl₃, hl₁, Request.type]
  · intro env
    obtain ⟨Sum'', s₃', more', hrun', _, _, _, _, hden'⟩ := sumVarIndices_denote TD
      env 1 D.VarIndices none
      (s₁.insert (.PointerCast P₁ (PointerType.getUnqual (.integer 8)) "")).2
      (by intro I hI; simpa using hfit I hI) hold (by intro S hS; cases hS)
    rw [hrun] at hrun'
    cases hrun'
    have hv := hS₃ Sum rfl
    have hden'' : s₃.denote TD env Sum =
        (D.VarIndices.map fun I => denoteValue env [] I.1 * I.2).sum := by
      simpa using hden'
    rw [← hden'']
    show State.denote TD env ((s₃.insert _).2.insert _).2 Sum = _
    rw [denote_insert_old, denote_insert_old]
    · exact hv
    · intro hr
      have := hv hr
      simp [State.insert]
      omega
  · simp [State.setVMap, State.insert, ValueMapTy.lookup, hl₃, hl₁, Request.type]
    omega

/-- C11, witness: for `%f`, the address of field 1 of element `%i` of an array
of `{i32, i32}`, the divisor is 32 (the size of the array the base points to)
and the stride 8 is not divisible by it: the index sum is added to an `i8*`
and denotes `%i * 8`. -/
theorem visitGetElementPtrInst_byte_granularity_witness :
    ∃ (s' : State) (pre : List Request) (P8 Sum : Value),
      visitGetElementPtrInst layout32 Example.fDecomposition Example.f Example.sA = .ok s' ∧
      s'.emitted = Example.sA.emitted ++ pre ++
        [.GEP P8 Sum,
         .PointerCast { id := (Example.sA.emitted ++ pre).length, kind := .Instruction,
                        type := P8.type, rebuilt := true } Example.f.self.type
           Example.f.name] ∧
      P8.type = PointerType.getUnqual (.integer 8) ∧
      (∀ env : Value → Int,
        s'.denote layout32 env Sum =
          (Example.fDecomposition.VarIndices.map fun I => denoteValue env [] I.1 * I.2).sum) ∧
      s'.VMap.lookup Example.f.self =
        some { id := (Example.sA.emitted ++ pre).length + 1, kind := .Instruction,
               type := Example.f.self.type, rebuilt := true } :=
  visitGetElementPtrInst_byte_granularity layout32 Example.fDecomposition Example.f
    Example.sA (Example.built 1 Example.A4p) (.array Example.S2 4) (by decide) (by decide)
    (by decide) (by decide) ⟨(Example.i, 8), by decide, by decide⟩ (by decide) (by decide)

/-- C12, the code at the failing input. For `%f`, the address of field 1 of
element `%i` of an array of `{i32, i32}`, the decomposition against the
original layout is base `%a`, constant offset 4, index `%i` with stride 8; with
`%i = 1` the byte offset is `4 + 1 * 8 = 12`. The base is mapped to a pointer
to the whole array, so the divisor is 32; 4 is not divisible by it and the
rewrite emits the element step `base + 4 / 32 = base + 0`, dropping the
constant offset: the address recorded for `%f` is 8 bytes past the mapped
base, not 12. -/
theorem visitGetElementPtrInst_offset_not_preserved :
    visitGetElementPtrInst layout32 Example.fDecomposition Example.f Example.sA =
      .ok Example.sF ∧
    mapValue Example.sA Example.fDecomposition.base = .ok (Example.built 1 Example.A4p) ∧
    Example.sF.VMap.lookup Example.f.self = some (Example.built 7 Example.i32p) ∧
    Example.sF.denote layout32 Example.env (Example.built 7 Example.i32p) -
      Example.sF.denote layout32 Example.env (Example.built 1 Example.A4p) = 8 ∧
    Example.fDecomposition.BaseOffs +
      (Example.fDecomposition.VarIndices.map fun I => Example.env I.1 * I.2).sum = 12 := by
  decide

/-! ### InstructionRewriter: operands, unsupported instructions and calls -/

/-- C28: `mapValue` returns a constant operand itself, whatever the value map
holds; it returns the entry of the value map for an operand that is no
constant and has one; and it fails, at the assertion on the entry, exactly when
the operand is no constant and has no entry. -/
theorem mapValue_spec (s : State) (V : Value) :
    (V.isConstant = true → ∀ s' : State, mapValue s' V = .ok V) ∧
    (V.isConstant = false → ∀ NV : Value, s.VMap.lookup V = some NV →
      mapValue s V = .ok NV) ∧
    ((∃ e, mapValue s V = .error e) ↔ (V.isConstant = false ∧ s.VMap.lookup V = none)) ∧
    (∀ e, mapValue s V = .error e → e = .assertMapped) := by
  refine ⟨?_, ?_, ?_, ?_⟩
  · intro hc s'
    simp [mapValue, hc, mapConstant]
  · intro hc NV hl
    simp [mapValue, hc, hl]
  · constructor
    · rintro ⟨e, he⟩
      cases hc : V.isConstant with
      | true => simp [mapValue, hc] at he
      | false =>
        cases hl : s.VMap.lookup V with
        | none => exact ⟨rfl, rfl⟩
        | some NV => simp [mapValue, hc, hl] at he
    · rintro ⟨hc, hl⟩
      exact ⟨.assertMapped, by simp [mapValue, hc, hl]⟩
  · intro e he
    cases hc : V.isConstant with
    | true => simp [mapValue, hc] at he
    | false =>
      cases hl : s.VMap.lookup V with
      | none =>
        simp [mapValue, hc, hl] at he
        exact he.symm
      | some NV => simp [mapValue, hc, hl] at he

/-- C28, witness: the constant `@g` maps to itself in a state whose value map
holds another entry for it, `%c` maps to its entry, and `%i`, which is no
constant and has no entry, fails. -/
theorem mapValue_spec_witness :
    mapValue { VMap := [(Example.g, Example.i)], emitted := [] } Example.g = .ok Example.g ∧
    mapValue Example.sC Example.c = .ok (Example.built 0 (.integer 32)) ∧
    (∃ e, mapValue Example.sC Example.i = .error e) :=
  ⟨(mapValue_spec Example.sC Example.g).1 rfl _,
   (mapValue_spec Example.sC Example.c).2.1 rfl _ rfl,
   (mapValue_spec Example.sC Example.i).2.2.1.mpr ⟨rfl, rfl⟩⟩

theorem visitBasicBlock_append (TD : TargetData) (Decompose : GetElementPtrInst → Decomposition)
    (FMap : FMapTy) (BBMap : BBMapTy) (post : List Instruction) :
    ∀ (pre : List Instruction) (s : State),
      visitBasicBlock TD Decompose FMap BBMap (pre ++ post) s =
        (visitBasicBlock TD Decompose FMap BBMap pre s).bind
          (visitBasicBlock TD Decompose FMap BBMap post)
  | [], s => rfl
  | I :: pre, s => by
    simp only [List.cons_append, visitBasicBlock, bind]
    cases visit TD Decompose FMap BBMap I s with
    | error e => rfl
    | ok s₁ => exact visitBasicBlock_append TD Decompose FMap BBMap post pre s₁

theorem visitBlocks_unsupported (TD : TargetData)
    (Decompose : GetElementPtrInst → Decomposition) (FMap : FMapTy) (BBMap : BBMapTy)
    (self : Value) (opcodeName : String) :
    ∀ (blocks : List (BasicBlock × List Instruction)) (s : State) (ends : List (BasicBlock × Nat)),
      (∃ b ∈ blocks, Instruction.Other self opcodeName ∈ b.2) →
      ∃ e, runOnFunction.visitBlocks TD Decompose FMap BBMap blocks s ends = .error e
  | [], _, _, h => by
    obtain ⟨b, hb, _⟩ := h
    cases hb
  | (BB, insts) :: rest, s, ends, h => by
    simp only [runOnFunction.visitBlocks, bind, Except.bind]
    cases hm : mapBlock BBMap BB with
    | error e => exact ⟨e, rfl⟩
    | ok NBB =>
      cases hv : visitBasicBlock TD Decompose FMap BBMap insts s with
      | error e => exact ⟨e, rfl⟩
      | ok s₁ =>
        simp only
        obtain ⟨b, hb, hI⟩ := h
        rcases List.mem_cons.mp hb with rfl | hb
        · exfalso
          obtain ⟨pre, post, hsplit⟩ := List.append_of_mem hI
          simp only at hsplit
          rw [hsplit, visitBasicBlock_append] at hv
          cases hp : visitBasicBlock TD Decompose FMap BBMap pre s with
          | error e => rw [hp] at hv; cases hv
          | ok s₂ =>
            rw [hp] at hv
            simp [Except.bind, visitBasicBlock, visit, visitInstruction, bind] at hv
        · exact visitBlocks_unsupported TD Decompose FMap BBMap self opcodeName rest s₁ _
            ⟨b, hb, hI⟩

/-- C27: an instruction of a kind without a visitor of its own in the pass
(any kind other than alloca, return, branch, switch, unreachable, integer
comparison, load, store, address computation, phi, cast, select, call and
binary operator) is rejected: visiting it raises the stop signal with the
message of `visitInstruction` and that instruction; the visit of a block
whose earlier instructions are rewritten ends in that signal, and no function
holding such an instruction is rebuilt. -/
theorem visit_unsupported (TD : TargetData) (Decompose : GetElementPtrInst → Decomposition)
    (FMap : FMapTy) (BBMap : BBMapTy) (self : Value) (opcodeName : String) :
    (∀ s : State, visit TD Decompose FMap BBMap (.Other self opcodeName) s =
      .error (.stop "ClamAV bytecode backend rebuilder does not know about " self)) ∧
    (∀ (pre post : List Instruction) (s s' : State),
      visitBasicBlock TD Decompose FMap BBMap pre s = .ok s' →
      visitBasicBlock TD Decompose FMap BBMap (pre ++ .Other self opcodeName :: post) s =
        .error (.stop "ClamAV bytecode backend rebuilder does not know about " self)) ∧
    (∀ (VMap : ValueMapTy) (BBMap₀ : BBMapTy) (F : FunctionBody),
      (∃ b ∈ F.blocks, Instruction.Other self opcodeName ∈ b.2) →
      ∃ e, runOnFunction TD Decompose FMap VMap BBMap₀ F = .error e) := by
  refine ⟨fun s => rfl, ?_, ?_⟩
  · intro pre post s s' h
    rw [visitBasicBlock_append, h]
    rfl
  · intro VMap BBMap₀ F h
    unfold runOnFunction
    cases FMap.lookup F.F with
    | none => exact ⟨_, rfl⟩
    | some NF =>
      simp only
      obtain ⟨e, he⟩ := visitBlocks_unsupported TD Decompose FMap
        (runOnFunction.createBlocks (F.blocks.map Prod.fst) BBMap₀.clear []).1 self opcodeName
        F.blocks { VMap := VMap.clear, emitted := [] } [] h
      exact ⟨e, by rw [he]⟩

/-- C27, witness: a floating-point comparison is rejected where it stands, a
`va_arg` after a rewritten `unreachable` ends the visit of its block, and the
function `@fn` with a floating-point comparison in its second block is not
rebuilt. -/
theorem visit_unsupported_witness :
    visit layout32 Example.noDecompose [] Example.BBMap (.Other Example.fcmp "fcmp") Example.sC =
      .error (.stop "ClamAV bytecode backend rebuilder does not know about " Example.fcmp) ∧
    visitBasicBlock layout32 Example.noDecompose [] Example.BBMap
        ([Instruction.Unreachable] ++ .Other Example.vaArg "va_arg" :: [.Unreachable])
        Example.sC =
      .error (.stop "ClamAV bytecode backend rebuilder does not know about " Example.vaArg) ∧
    (∃ e, runOnFunction layout32 Example.noDecompose [(Example.fnF, Example.fnNF)] [] []
        Example.fnFCmp = .error e) :=
  ⟨(visit_unsupported layout32 Example.noDecompose [] Example.BBMap Example.fcmp "fcmp").1
      Example.sC,
   (visit_unsupported layout32 Example.noDecompose [] Example.BBMap Example.vaArg
      "va_arg").2.1 [.Unreachable] [.Unreachable] Example.sC _ rfl,
   (visit_unsupported layout32 Example.noDecompose [(Example.fnF, Example.fnNF)]
      Example.BBMap Example.fcmp "fcmp").2.2 [] [] Example.fnFCmp
      ⟨(Example.loop, [.Other Example.fcmp "fcmp", .Unreachable]), by decide, by decide⟩⟩


theorem createFunctions_variadic (TD : TargetData) :
    ∀ (functions : List FunctionBody) (FMap : FMapTy) (M : Module),
      (∃ F ∈ functions, F.F.type.isVarArg = true) →
      ∃ e, runOnModule.createFunctions TD functions FMap M = .error e
  | [], _, _, h => by
    obtain ⟨F, hF, _⟩ := h
    cases hF
  | G :: rest, FMap, M, h => by
    simp only [runOnModule.createFunctions, bind, Except.bind]
    cases hc : createFunction TD G.F M with
    | error e => exact ⟨e, rfl⟩
    | ok r =>
      simp only
      obtain ⟨F, hF, hv⟩ := h
      rcases List.mem_cons.mp hF with rfl | hF
      · simp [createFunction, hv] at hc
      · exact createFunctions_variadic TD rest _ _ ⟨F, hF, hv⟩

/-- C22: variadic constructs are fatal. `createFunction` fails, at its
assertion and without creating a function, for every function whose type is
variadic; `visitCallInst` fails, at its assertion and without requesting a
call, for every call of an external declaration whose type is variadic; and
the pass returns no module when a function of the module with a body is
variadic. -/
theorem variadic_fatal (TD : TargetData) :
    (∀ (F : Function) (M : Module), F.type.isVarArg = true →
      createFunction TD F M = .error .assertNotVarArg) ∧
    (∀ (FMap : FMapTy) (I : CallInst) (F : Function) (s : State),
      I.calledFunction = some F → F.isDeclaration = true → F.type.isVarArg = true →
      visitCallInst FMap I s = .error .assertNotVarArg) ∧
    (∀ (Decompose : GetElementPtrInst → Decomposition) (FMap : FMapTy) (VMap : ValueMapTy)
      (BBMap : BBMapTy) (M : Module) (F : FunctionBody),
      F ∈ M.functions → F.F.isDeclaration = false → F.F.type.isVarArg = true →
      ∃ e, runOnModule TD Decompose FMap VMap BBMap M = .error e) := by
  refine ⟨?_, ?_, ?_⟩
  · intro F M hv
    simp [createFunction, hv]
  · intro FMap I F s hF hd hv
    simp [visitCallInst, hF, hd, hv]
  · intro Decompose FMap VMap BBMap M F hF hd hv
    obtain ⟨e, he⟩ := createFunctions_variadic TD
      (M.functions.filter fun F => !F.F.isDeclaration) FMap.clear M
      ⟨F, List.mem_filter.mpr ⟨hF, by simp [hd]⟩, hv⟩
    exact ⟨e, by simp [runOnModule, he, bind, Except.bind]⟩

/-- C22, witness: creating a function for the variadic `@log` fails, the call
of the variadic declaration `@printf` fails, and the module holding `@log` is
not rebuilt. -/
theorem variadic_fatal_witness :
    createFunction layout32 Example.logFn Example.emptyModule = .error .assertNotVarArg ∧
    visitCallInst [] Example.callPrintf Example.sPC = .error .assertNotVarArg ∧
    (∃ e, runOnModule layout32 Example.noDecompose [] [] [] Example.moduleLog = .error e) :=
  ⟨(variadic_fatal layout32).1 Example.logFn Example.emptyModule rfl,
   (variadic_fatal layout32).2.1 [] Example.callPrintf Example.printf Example.sPC rfl rfl rfl,
   (variadic_fatal layout32).2.2 Example.noDecompose [] [] [] Example.moduleLog
      { F := Example.logFn, blocks := [(Example.entry, [.Ret { returnValue := none }])] }
      (by decide) rfl rfl⟩


/-! ### ModuleRebuildOrchestrator: the three phases -/

theorem createFunction_params_ok (TD : TargetData) :
    ∀ (Ts Ps : List Ty), List.Forall₂ (fun T P => rebuildType TD T = .ok P) Ts Ps →
      createFunction.params TD Ts = .ok Ps
  | _, _, .nil => rfl
  | _, _, .cons h hs => by
    simp [createFunction.params, h, createFunction_params_ok TD _ _ hs, bind, Except.bind]

theorem createFunction_params_error (TD : TargetData) :
    ∀ (Ts : List Ty), (∃ T ∈ Ts, ∃ e, rebuildType TD T = .error e) →
      ∃ e, createFunction.params TD Ts = .error e
  | [], h => by
    obtain ⟨T, hT, _⟩ := h
    cases hT
  | U :: rest, h => by
    simp only [createFunction.params, bind, Except.bind]
    cases hU : rebuildType TD U with
    | error e => exact ⟨e, rfl⟩
    | ok P =>
      simp only
      obtain ⟨T, hT, e, he⟩ := h
      rcases List.mem_cons.mp hT with rfl | hT
      · rw [hU] at he; cases he
      · obtain ⟨e', he'⟩ := createFunction_params_error TD rest ⟨T, hT, e, he⟩
        exact ⟨e', by rw [he']⟩

/-- C24: for every function `F` that is not variadic, when `rebuildType`
succeeds on each parameter type (giving `Ps`) and on the return type (giving
`R`), `createFunction` creates a function that is not variadic, has the name
of `F`, internal linkage, as many parameters as `F`, the parameter types `Ps`
in order and the return type `R`, and appends it to the module; when
`rebuildType` fails on a parameter type or on the return type,
`createFunction` fails. -/
theorem createFunction_spec (TD : TargetData) (F : Function) (M : Module)
    (hv : F.type.isVarArg = false) :
    (∀ (Ps : List Ty) (R : Ty),
      List.Forall₂ (fun T P => rebuildType TD T = .ok P) F.type.params Ps →
      rebuildType TD F.type.returnType = .ok R →
      ∃ (NF : Function) (M' : Module), createFunction TD F M = .ok (NF, M') ∧
        NF.type.isVarArg = false ∧ NF.name = F.name ∧ NF.linkage = .InternalLinkage ∧
        NF.type.params.length = F.type.params.length ∧ NF.type.params = Ps ∧
        NF.type.returnType = R ∧ NF.rebuilt = true ∧
        M'.created = M.created ++ [NF] ∧ M'.functions = M.functions) ∧
    (((∃ T ∈ F.type.params, ∃ e, rebuildType TD T = .error e) ∨
        ∃ e, rebuildType TD F.type.returnType = .error e) →
      ∃ e, createFunction TD F M = .error e) := by
  constructor
  · intro Ps R hP hR
    refine ⟨(Function.Create { returnType := R, params := Ps, isVarArg := false }
        .InternalLinkage F.name M).1,
      (Function.Create { returnType := R, params := Ps, isVarArg := false }
        .InternalLinkage F.name M).2, ?_, rfl, rfl, rfl, ?_, rfl, rfl, rfl, rfl, rfl⟩
    · simp only [createFunction, hv, createFunction_params_ok TD _ _ hP, hR, bind,
        Except.bind]
      rfl
    · exact (List.Forall₂.length_eq hP).symm
  · intro h
    simp only [createFunction, hv, bind, Except.bind]
    cases hp : createFunction.params TD F.type.params with
    | error e => exact ⟨e, rfl⟩
    | ok Ps =>
      rcases h with h | ⟨e, he⟩
      · obtain ⟨e, he⟩ := createFunction_params_error TD _ h
        rw [hp] at he; cases he
      · exact ⟨e, by simp [he]⟩

/-- C24, witness: for `{i32, i32}* @pick([4 x {i32, i32}]*, i32)` the function
created is `i32* @pick(i32*, i32)` with internal linkage; for `void @fl(float)`
no function is created. -/
theorem createFunction_spec_witness :
    (∃ (NF : Function) (M' : Module),
      createFunction layout32 Example.pick Example.emptyModule = .ok (NF, M') ∧
        NF.type.isVarArg = false ∧ NF.name = Example.pick.name ∧
        NF.linkage = .InternalLinkage ∧
        NF.type.params.length = Example.pick.type.params.length ∧
        NF.type.params = [Example.i32p, .integer 32] ∧
        NF.type.returnType = Example.i32p ∧ NF.rebuilt = true ∧
        M'.created = Example.emptyModule.created ++ [NF] ∧
        M'.functions = Example.emptyModule.functions) ∧
    (∃ e, createFunction layout32 Example.fl Example.emptyModule = .error e) :=
  ⟨(createFunction_spec layout32 Example.pick Example.emptyModule rfl).1
      [Example.i32p, .integer 32] Example.i32p
      (List.Forall₂.cons (by decide) (List.Forall₂.cons (by decide) List.Forall₂.nil))
      (by decide),
   (createFunction_spec layout32 Example.fl Example.emptyModule rfl).2
      (Or.inl ⟨.other .FloatTyID, by decide, .unknownType, by decide⟩)⟩


theorem runOnFunction_NF (TD : TargetData) (Decompose : GetElementPtrInst → Decomposition)
    (FMap : FMapTy) (VMap : ValueMapTy) (BBMap : BBMapTy) (F : FunctionBody) (R : Rebuilt)
    (h : runOnFunction TD Decompose FMap VMap BBMap F = .ok R) :
    FMap.lookup F.F = some R.NF ∧ R.blocks.length = F.blocks.length := by
  have hb := runOnFunction_ok TD Decompose FMap VMap BBMap F R h
  constructor
  · unfold runOnFunction at h
    split at h
    · cases h
    · rename_i NF hl
      simp only at h
      split at h
      · cases h
      · cases h
        exact hl
  · have h2 := congrArg Prod.snd hb
    simp only at h2
    rw [h2, createBlocks_length]
    simp

theorem createFunction_ok (TD : TargetData) (F : Function) (M : Module) (NF : Function)
    (M' : Module) (h : createFunction TD F M = .ok (NF, M')) :
    M'.functions = M.functions ∧ M'.rebuilt = M.rebuilt ∧ M'.created = M.created ++ [NF] ∧
    NF.rebuilt = true ∧ NF.linkage = .InternalLinkage ∧ NF.name = F.name := by
  unfold createFunction at h
  split at h
  · cases h
  · simp only [bind, Except.bind] at h
    split at h
    · cases h
    · split at h
      · cases h
      · simp only [Function.Create, Except.ok.injEq, Prod.mk.injEq] at h
        obtain ⟨rfl, rfl⟩ := h
        exact ⟨rfl, rfl, rfl, rfl, rfl, rfl⟩

theorem FMap_lookup_append (K : Function) :
    ∀ (L₁ L₂ : FMapTy), K ∉ L₁.map Prod.fst →
      FMapTy.lookup (L₁ ++ L₂) K = FMapTy.lookup L₂ K
  | [], _, _ => rfl
  | (K', NF) :: L₁, L₂, h => by
    have hne : K' ≠ K := fun e => h (by simp [e])
    simp only [List.cons_append, FMapTy.lookup, hne, if_false]
    exact FMap_lookup_append K L₁ L₂ (fun hm => h (by simp at hm ⊢; exact Or.inr hm))

theorem FMap_lookup_zip :
    ∀ (Ks NFs : List Function) (FMap : FMapTy), Ks.Nodup → Ks.length = NFs.length →
      List.Forall₂ (fun K NF => FMapTy.lookup ((Ks.zip NFs).reverse ++ FMap) K = some NF)
        Ks NFs
  | [], [], _, _, _ => .nil
  | [], _ :: _, _, _, h => by simp at h
  | _ :: _, [], _, _, h => by simp at h
  | K :: Ks, N :: NFs, FMap, hnd, hlen => by
    have hK : K ∉ Ks := (List.nodup_cons.mp hnd).1
    have hnd' : Ks.Nodup := (List.nodup_cons.mp hnd).2
    have heq : ((K :: Ks).zip (N :: NFs)).reverse ++ FMap =
        (Ks.zip NFs).reverse ++ ((K, N) :: FMap) := by
      simp
    rw [heq]
    refine .cons ?_ (FMap_lookup_zip Ks NFs _ hnd' (by simpa using hlen))
    rw [FMap_lookup_append]
    · simp [FMapTy.lookup]
    · intro hm
      apply hK
      simp only [List.map_reverse, List.mem_reverse, List.mem_map] at hm
      obtain ⟨p, hp, rfl⟩ := hm
      exact (List.of_mem_zip hp).1

theorem createFunctions_spec (TD : TargetData) :
    ∀ (functions : List FunctionBody) (FMap FMap' : FMapTy) (M M' : Module),
      runOnModule.createFunctions TD functions FMap M = .ok (FMap', M') →
      M'.functions = M.functions ∧ M'.rebuilt = M.rebuilt ∧
      ∃ NFs : List Function, M'.created = M.created ++ NFs ∧
        NFs.length = functions.length ∧
        FMap' = ((functions.map fun F => F.F).zip NFs).reverse ++ FMap ∧
        List.Forall₂ (fun F NF => NF.rebuilt = true ∧ NF.linkage = .InternalLinkage ∧
          NF.name = F.F.name) functions NFs
  | [], FMap, FMap', M, M', h => by
    simp only [runOnModule.createFunctions, Except.ok.injEq, Prod.mk.injEq] at h
    obtain ⟨rfl, rfl⟩ := h
    exact ⟨rfl, rfl, [], by simp, rfl, by simp, .nil⟩
  | F :: rest, FMap, FMap', M, M', h => by
    simp only [runOnModule.createFunctions, bind, Except.bind] at h
    cases hc : createFunction TD F.F M with
    | error e => rw [hc] at h; cases h
    | ok r =>
      obtain ⟨NF, M₁⟩ := r
      rw [hc] at h
      simp only at h
      obtain ⟨h1, h2, h3, h4, h5, h6⟩ := createFunction_ok TD F.F M NF M₁ hc
      obtain ⟨g1, g2, NFs, g3, g4, g5, g6⟩ := createFunctions_spec TD rest _ _ _ _ h
      refine ⟨g1.trans h1, g2.trans h2, NF :: NFs, ?_, by simp [g4], ?_, .cons ⟨h4, h5, h6⟩ g6⟩
      · rw [g3, h3]; simp
      · rw [g5]; simp

theorem afterDeleteBody_id (D : Function) (B : FunctionBody) :
    (FunctionBody.afterDeleteBody D B).F.id = B.F.id := by
  simp only [FunctionBody.afterDeleteBody, Function.afterDeleteBody, Function.deleteBody]
  split_ifs <;> rfl

theorem afterDeleteBody_of_ne (D : Function) (B : FunctionBody) (hne : B.F.id ≠ D.id) :
    (FunctionBody.afterDeleteBody D B).F = B.F ∧
    (FunctionBody.afterDeleteBody D B).blocks.length = B.blocks.length := by
  simp [FunctionBody.afterDeleteBody, Function.afterDeleteBody, hne]

theorem afterDeleteBody_declaration (D : Function) (B : FunctionBody) (hne : B.F.id ≠ D.id)
    (hb : B.blocks = []) : FunctionBody.afterDeleteBody D B = B := by
  cases B with
  | mk F blocks =>
    simp only at hne hb
    subst hb
    simp [FunctionBody.afterDeleteBody, Function.afterDeleteBody, hne]

theorem deref_of_mem :
    ∀ (fs : List FunctionBody) (created : List Function) (rebuilt : List Rebuilt)
      (F : FunctionBody), (fs.map fun B => B.F.id).Nodup → F ∈ fs →
      Module.deref { functions := fs, created := created, rebuilt := rebuilt } F = F
  | [], _, _, _, _, h => by cases h
  | B :: fs, created, rebuilt, F, hnd, h => by
    simp only [List.map_cons, List.nodup_cons] at hnd
    by_cases hid : B.F.id = F.F.id
    · have hBF : F = B := by
        rcases List.mem_cons.mp h with h | h
        · exact h
        · exact absurd (by rw [hid]; exact List.mem_map.mpr ⟨F, h, rfl⟩) hnd.1
      subst hBF
      simp [Module.deref, List.find?]
    · have hF : F ∈ fs := by
        rcases List.mem_cons.mp h with h | h
        · exact absurd (by rw [h]) hid
        · exact h
      have := deref_of_mem fs created rebuilt F hnd.2 hF
      simp only [Module.deref, List.find?, hid, decide_False] at this ⊢
      exact this

theorem deref_deleteBody (M : Module) (D : Function) (G : FunctionBody)
    (hne : G.F.id ≠ D.id)
    (hG : (M.deref G).F = G.F ∧ (M.deref G).blocks.length = G.blocks.length) :
    ((M.deleteBody D).deref G).F = G.F ∧
    ((M.deleteBody D).deref G).blocks.length = G.blocks.length := by
  have hp : ((fun G' : FunctionBody => decide (G'.F.id = G.F.id)) ∘
        FunctionBody.afterDeleteBody D) = fun G' : FunctionBody => decide (G'.F.id = G.F.id) := by
    funext B
    simp [afterDeleteBody_id]
  simp only [Module.deref, Module.deleteBody, List.find?_map, hp] at hG ⊢
  cases hf : List.find? (fun G' : FunctionBody => decide (G'.F.id = G.F.id)) M.functions with
  | none => simp
  | some B =>
    rw [hf] at hG
    simp only [Option.getD_some, Option.map_some'] at hG ⊢
    have hB : B.F.id ≠ D.id := by rw [hG.1]; exact hne
    obtain ⟨h1, h2⟩ := afterDeleteBody_of_ne D B hB
    exact ⟨h1.trans hG.1, h2.trans hG.2⟩

theorem rewriteFunctions_spec (TD : TargetData) (Decompose : GetElementPtrInst → Decomposition)
    (FMap : FMapTy) :
    ∀ (rest : List FunctionBody) (VMap : ValueMapTy) (BBMap : BBMapTy) (M : Module)
      (VMap' : ValueMapTy) (BBMap' : BBMapTy) (M' : Module),
      (rest.map fun B => B.F.id).Nodup →
      (∀ F ∈ rest, (M.deref F).F = F.F ∧ (M.deref F).blocks.length = F.blocks.length) →
      runOnModule.rewriteFunctions TD Decompose FMap rest VMap BBMap M =
        .ok (VMap', BBMap', M') →
      M'.created = M.created ∧
      (∃ h : FunctionBody → FunctionBody, M'.functions = M.functions.map h ∧
        (∀ B, (h B).F.id = B.F.id) ∧
        (∀ B, B.F.id ∉ rest.map (fun B => B.F.id) → B.blocks = [] → h B = B)) ∧
      ∃ Rs : List Rebuilt, M'.rebuilt = M.rebuilt ++ Rs ∧
        List.Forall₂ (fun F R => FMap.lookup F.F = some R.NF ∧
          R.blocks.length = F.blocks.length) rest Rs
  | [], VMap, BBMap, M, VMap', BBMap', M', _, _, h => by
    simp only [runOnModule.rewriteFunctions, Except.ok.injEq, Prod.mk.injEq] at h
    obtain ⟨_, _, rfl⟩ := h
    exact ⟨rfl, ⟨id, by simp, fun _ => rfl, fun _ _ _ => rfl⟩, [], by simp, .nil⟩
  | F :: rest, VMap, BBMap, M, VMap', BBMap', M', hnd, hderef, h => by
    simp only [List.map_cons, List.nodup_cons] at hnd
    simp only [runOnModule.rewriteFunctions, bind, Except.bind] at h
    cases hr : runOnFunction TD Decompose FMap VMap BBMap (M.deref F) with
    | error e => rw [hr] at h; cases h
    | ok R =>
      rw [hr] at h
      simp only at h
      obtain ⟨hNF, hlen⟩ := runOnFunction_NF TD Decompose FMap VMap BBMap _ R hr
      obtain ⟨hF1, hF2⟩ := hderef F (List.mem_cons_self _ _)
      have hderef' : ∀ G ∈ rest,
          ((Module.deleteBody { M with rebuilt := M.rebuilt ++ [R] } (M.deref F).F).deref G).F
            = G.F ∧
          ((Module.deleteBody { M with rebuilt := M.rebuilt ++ [R] }
            (M.deref F).F).deref G).blocks.length = G.blocks.length := by
        intro G hG
        apply deref_deleteBody
        · rw [hF1]
          intro e
          exact hnd.1 (by rw [← e]; exact List.mem_map.mpr ⟨G, hG, rfl⟩)
        · exact hderef G (List.mem_cons_of_mem _ hG)
      obtain ⟨g1, ⟨k, g2, g3, g4⟩, Rs, g5, g6⟩ :=
        rewriteFunctions_spec TD Decompose FMap rest _ _ _ _ _ _ hnd.2 hderef' h
      refine ⟨g1, ⟨k ∘ FunctionBody.afterDeleteBody (M.deref F).F, ?_, ?_, ?_⟩,
        R :: Rs, ?_, .cons ⟨by rw [← hF1]; exact hNF, by rw [← hF2]; exact hlen⟩ g6⟩
      · rw [g2]
        simp [Module.deleteBody]
      · intro B
        simp only [Function.comp_apply, g3, afterDeleteBody_id]
      · intro B hB hb
        have hB1 : B.F.id ≠ F.F.id := fun e => hB (by simp [e])
        have hB2 : B.F.id ∉ rest.map (fun B => B.F.id) := fun hm => hB (by
          simp only [List.map_cons, List.mem_cons]
          exact Or.inr hm)
        simp only [Function.comp_apply]
        rw [afterDeleteBody_declaration _ B (by rw [hF1]; exact hB1) hb]
        exact g4 B hB2 hb
      · rw [g5]
        simp [Module.deleteBody]

theorem eraseFunctions_spec :
    ∀ (L : List FunctionBody) (M : Module),
      (runOnModule.eraseFunctions L M).functions =
        M.functions.filter (fun G => decide (G.F.id ∉ L.map fun B => B.F.id)) ∧
      (runOnModule.eraseFunctions L M).created = M.created ∧
      (runOnModule.eraseFunctions L M).rebuilt = M.rebuilt
  | [], M => by simp [runOnModule.eraseFunctions]
  | F :: rest, M => by
    obtain ⟨h1, h2, h3⟩ := eraseFunctions_spec rest (M.eraseFromParent F.F)
    refine ⟨?_, h2, h3⟩
    rw [runOnModule.eraseFunctions, h1]
    simp only [Module.eraseFromParent, List.filter_filter]
    congr 1
    funext G
    by_cases hG : G.F.id = F.F.id <;>
      by_cases hm : G.F.id ∈ rest.map (fun B => B.F.id) <;> simp [hG, hm]

theorem runOnModule_phases (TD : TargetData) (Decompose : GetElementPtrInst → Decomposition)
    (FMap : FMapTy) (VMap : ValueMapTy) (BBMap : BBMapTy) (M : Module) (r : ModuleRun)
    (h : runOnModule TD Decompose FMap VMap BBMap M = .ok r) :
    ∃ (M₁ M₂ : Module),
      runOnModule.createFunctions TD (M.functions.filter fun F => !F.F.isDeclaration) [] M =
        .ok (r.FMap, M₁) ∧
      runOnModule.rewriteFunctions TD Decompose r.FMap
          (M.functions.filter fun F => !F.F.isDeclaration) VMap BBMap M₁ =
        .ok (r.VMap, r.BBMap, M₂) ∧
      r.M = runOnModule.eraseFunctions (M.functions.filter fun F => !F.F.isDeclaration) M₂ ∧
      r.changed = true := by
  simp only [runOnModule, bind, Except.bind, FMapTy.clear] at h
  cases h1 : runOnModule.createFunctions TD
      (M.functions.filter fun F => !F.F.isDeclaration) [] M with
  | error e => rw [h1] at h; cases h
  | ok p =>
    obtain ⟨FMap₁, M₁⟩ := p
    rw [h1] at h
    simp only at h
    cases h2 : runOnModule.rewriteFunctions TD Decompose FMap₁
        (M.functions.filter fun F => !F.F.isDeclaration) VMap BBMap M₁ with
    | error e => rw [h2] at h; cases h
    | ok q =>
      obtain ⟨VMap₂, BBMap₂, M₂⟩ := q
      rw [h2] at h
      simp only [Except.ok.injEq] at h
      subst h
      exact ⟨M₁, M₂, rfl, h2, rfl, rfl⟩

theorem forall₂_and {α β : Type} {P Q : α → β → Prop} :
    ∀ {l₁ : List α} {l₂ : List β}, List.Forall₂ P l₁ l₂ → List.Forall₂ Q l₁ l₂ →
      List.Forall₂ (fun a b => P a b ∧ Q a b) l₁ l₂
  | _, _, .nil, .nil => .nil
  | _, _, .cons h hs, .cons g gs => .cons ⟨h, g⟩ (forall₂_and hs gs)

theorem nodup_filter_ids (fs : List FunctionBody) (p : FunctionBody → Bool)
    (hid : (fs.map fun B => B.F.id).Nodup) : ((fs.filter p).map fun B => B.F.id).Nodup :=
  List.Nodup.sublist (List.Sublist.map _ (List.filter_sublist fs)) hid

theorem nodup_functions_of_ids (fs : List FunctionBody)
    (hid : (fs.map fun B => B.F.id).Nodup) : (fs.map fun B => B.F).Nodup := by
  have : (fs.map fun B => B.F.id) = (fs.map fun B => B.F).map fun F => F.id := by simp
  rw [this] at hid
  exact List.Nodup.of_map _ hid

theorem mem_ids_iff (fs : List FunctionBody) (p : FunctionBody → Bool)
    (hid : (fs.map fun B => B.F.id).Nodup) (B : FunctionBody) (hB : B ∈ fs) :
    B.F.id ∈ (fs.filter p).map (fun B => B.F.id) ↔ p B = true := by
  constructor
  · intro hm
    obtain ⟨G, hG, hGB⟩ := List.mem_map.mp hm
    have hGfs : G ∈ fs := (List.mem_filter.mp hG).1
    have : G = B := List.inj_on_of_nodup_map hid hGfs hB hGB
    subst this
    exact (List.mem_filter.mp hG).2
  · intro hp
    exact List.mem_map.mpr ⟨B, List.mem_filter.mpr ⟨hB, hp⟩, rfl⟩

theorem runOnModule_ok (TD : TargetData) (Decompose : GetElementPtrInst → Decomposition)
    (FMap : FMapTy) (VMap : ValueMapTy) (BBMap : BBMapTy) (M : Module) (r : ModuleRun)
    (hid : (M.functions.map fun B => B.F.id).Nodup)
    (hdecl : ∀ B ∈ M.functions, B.F.isDeclaration = true → B.blocks = [])
    (h : runOnModule TD Decompose FMap VMap BBMap M = .ok r) :
    r.M.functions = M.functions.filter (fun F => F.F.isDeclaration) ∧
    ∃ (NFs : List Function) (Rs : List Rebuilt),
      r.M.created = M.created ++ NFs ∧ r.M.rebuilt = M.rebuilt ++ Rs ∧
      r.FMap = (((M.functions.filter fun F => !F.F.isDeclaration).map fun F => F.F).zip
        NFs).reverse ∧
      List.Forall₂ (fun F NF => r.FMap.lookup F.F = some NF ∧ NF.rebuilt = true ∧
          NF.linkage = .InternalLinkage ∧ NF.name = F.F.name)
        (M.functions.filter fun F => !F.F.isDeclaration) NFs ∧
      List.Forall₂ (fun F R => r.FMap.lookup F.F = some R.NF ∧
          R.blocks.length = F.blocks.length)
        (M.functions.filter fun F => !F.F.isDeclaration) Rs := by
  obtain ⟨M₁, M₂, h1, h2, h3, _⟩ := runOnModule_phases TD Decompose FMap VMap BBMap M r h
  obtain ⟨a1, a2, NFs, a3, a4, a5, a6⟩ := createFunctions_spec TD _ _ _ _ _ h1
  have hbd := nodup_filter_ids M.functions (fun F => !F.F.isDeclaration) hid
  have hderef : ∀ F ∈ M.functions.filter (fun F => !F.F.isDeclaration),
      (M₁.deref F).F = F.F ∧ (M₁.deref F).blocks.length = F.blocks.length := by
    intro F hF
    have : M₁.deref F = F := by
      have := deref_of_mem M.functions M₁.created M₁.rebuilt F hid (List.mem_filter.mp hF).1
      rw [← a1] at this
      exact this
    rw [this]
    exact ⟨rfl, rfl⟩
  obtain ⟨b1, ⟨k, b2, b3, b4⟩, Rs, b5, b6⟩ :=
    rewriteFunctions_spec TD Decompose r.FMap _ _ _ _ _ _ _ hbd hderef h2
  obtain ⟨c1, c2, c3⟩ := eraseFunctions_spec
    (M.functions.filter fun F => !F.F.isDeclaration) M₂
  refine ⟨?_, NFs, Rs, ?_, ?_, by simpa using a5, ?_, b6⟩
  · rw [h3, c1, b2, a1, List.filter_map]
    have hfil : List.filter ((fun G : FunctionBody => decide (G.F.id ∉
          (M.functions.filter fun F => !F.F.isDeclaration).map fun B => B.F.id)) ∘ k)
          M.functions = M.functions.filter (fun F => F.F.isDeclaration) := by
      apply List.filter_congr
      intro B hB
      have := mem_ids_iff M.functions (fun F => !F.F.isDeclaration) hid B hB
      simp only [Function.comp_apply, b3, this]
      cases B.F.isDeclaration <;> simp
    rw [hfil]
    conv_rhs => rw [← List.map_id (M.functions.filter fun F => F.F.isDeclaration)]
    apply List.map_congr_left
    intro B hB
    obtain ⟨hB1, hB2⟩ := List.mem_filter.mp hB
    simp only [id]
    apply b4 B
    · rw [mem_ids_iff M.functions (fun F => !F.F.isDeclaration) hid B hB1]
      simp [hB2]
    · exact hdecl B hB1 hB2
  · rw [h3, c2, b1, a3]
  · rw [h3, c3, b5, a2]
  · have hK := nodup_functions_of_ids _ hbd
    have hz := FMap_lookup_zip _ NFs [] hK (by simp [a4])
    rw [a5]
    have hz' : List.Forall₂ (fun (F : FunctionBody) NF => FMapTy.lookup
        ((((M.functions.filter fun F => !F.F.isDeclaration).map fun F => F.F).zip
          NFs).reverse ++ []) F.F = some NF)
        (M.functions.filter fun F => !F.F.isDeclaration) NFs := by
      rw [List.forall₂_map_left_iff] at hz
      exact hz
    exact (forall₂_and hz' a6).imp fun _ _ hab => ⟨hab.1, hab.2⟩

theorem forall₂_lookup_unique (L : Function → Option Function) :
    ∀ (l : List FunctionBody) (NFs : List Function) (Rs : List Rebuilt),
      List.Forall₂ (fun F NF => L F.F = some NF) l NFs →
      List.Forall₂ (fun (F : FunctionBody) (R : Rebuilt) => L F.F = some R.NF) l Rs →
      Rs.map (fun R => R.NF) = NFs
  | _, _, _, .nil, .nil => rfl
  | _, _, _, .cons h hs, .cons g gs => by
    have e := h.symm.trans g
    simp only [Option.some.injEq] at e
    simp only [List.map_cons, e, forall₂_lookup_unique L _ _ _ hs gs]

/-- C23, the code at Scenario C, the module of `@A` and `@B`, each calling the
other. After the skeletons are created the function map holds an entry for
`@A` and one for `@B`. The rewrite of `@A` calls the function created for
`@B`. The body of `@A` is then deleted, so when the call of `@A` in `@B` is
visited `@A` is a function without a body: the call is rewritten as the call
of an external declaration, and the rebuilt `@B` calls the old `@A`, not its
entry of the function map. -/
theorem runOnModule_mutual_recursion :
    runOnModule.createFunctions layout32 Example.moduleAB.functions [] Example.moduleAB =
      .ok ([(Example.B, Example.newB), (Example.A, Example.newA)],
           { Example.moduleAB with created := [Example.newA, Example.newB] }) ∧
    runOnModule layout32 Example.noDecompose [] [] [] Example.moduleAB =
      .ok { changed := true,
            M := { functions := [], created := [Example.newA, Example.newB],
                   rebuilt := [Example.rebuiltA, Example.rebuiltB] },
            FMap := [(Example.B, Example.newB), (Example.A, Example.newA)],
            VMap := Example.rebuiltB.st.VMap, BBMap := Example.rebuiltB.BBMap } ∧
    Example.rebuiltA.st.emitted = [.Call Example.newB [] "", .RetVoid] ∧
    Example.rebuiltB.st.emitted = [.Call Example.A.deleteBody [] "", .RetVoid] ∧
    FMapTy.lookup [(Example.B, Example.newB), (Example.A, Example.newA)] Example.A =
      some Example.newA ∧
    Example.A.deleteBody ≠ Example.newA ∧ Example.A.deleteBody.rebuilt = false := by
  decide

/-- C25: for every module whose functions are distinct objects and whose
declarations have no block, after a successful `runOnModule` the functions of
the input left in the module are its declarations, unchanged and in order; no
function left has the identity of an input function with a body; the pass has
created as many functions as the input has functions with a body, in their
order, each the entry of the function map for its original; the function map
has no other image; and each created function has received a body with as
many blocks as its original. -/
theorem runOnModule_frame (TD : TargetData) (Decompose : GetElementPtrInst → Decomposition)
    (FMap : FMapTy) (VMap : ValueMapTy) (BBMap : BBMapTy) (M : Module) (r : ModuleRun)
    (hid : (M.functions.map fun B => B.F.id).Nodup)
    (hdecl : ∀ B ∈ M.functions, B.F.isDeclaration = true → B.blocks = [])
    (hc : M.created = []) (hr : M.rebuilt = [])
    (h : runOnModule TD Decompose FMap VMap BBMap M = .ok r) :
    r.M.functions = M.functions.filter (fun F => F.F.isDeclaration) ∧
    (∀ F ∈ M.functions, F.F.isDeclaration = false → ∀ G ∈ r.M.functions, G.F.id ≠ F.F.id) ∧
    r.M.created.length = (M.functions.filter fun F => !F.F.isDeclaration).length ∧
    List.Forall₂ (fun F NF => r.FMap.lookup F.F = some NF ∧ NF.rebuilt = true)
      (M.functions.filter fun F => !F.F.isDeclaration) r.M.created ∧
    r.FMap.map Prod.snd = r.M.created.reverse ∧
    r.M.rebuilt.map (fun R => R.NF) = r.M.created ∧
    List.Forall₂ (fun F R => R.blocks.length = F.blocks.length)
      (M.functions.filter fun F => !F.F.isDeclaration) r.M.rebuilt := by
  obtain ⟨h1, NFs, Rs, h2, h3, h4, h5, h6⟩ :=
    runOnModule_ok TD Decompose FMap VMap BBMap M r hid hdecl h
  rw [hc, List.nil_append] at h2
  rw [hr, List.nil_append] at h3
  have hlen := List.Forall₂.length_eq h5
  refine ⟨h1, ?_, ?_, ?_, ?_, ?_, ?_⟩
  · intro F hF hFd G hG e
    rw [h1] at hG
    obtain ⟨hG1, hG2⟩ := List.mem_filter.mp hG
    have : G = F := List.inj_on_of_nodup_map hid hG1 hF e
    subst this
    rw [hFd] at hG2
    cases hG2
  · rw [h2]; exact hlen.symm
  · rw [h2]; exact h5.imp fun _ _ hab => ⟨hab.1, hab.2.1⟩
  · rw [h4, h2, List.map_reverse, List.map_snd_zip]
    simp [hlen]
  · rw [h3, h2]
    exact forall₂_lookup_unique (fun F => r.FMap.lookup F) _ NFs Rs
      (h5.imp fun _ _ hab => hab.1) (h6.imp fun _ _ hab => hab.1)
  · rw [h3]; exact h6.imp fun _ _ hab => hab.2

/-- C25, witness: in the module of the declaration `@api` and the function
`@fn`, the declaration is what is left of the input, and the one function
created is the entry of the function map for `@fn`, with three blocks. -/
theorem runOnModule_frame_witness :
    Example.runFn.M.functions =
      Example.moduleFn.functions.filter (fun F => F.F.isDeclaration) ∧
    (∀ F ∈ Example.moduleFn.functions, F.F.isDeclaration = false →
      ∀ G ∈ Example.runFn.M.functions, G.F.id ≠ F.F.id) ∧
    Example.runFn.M.created.length =
      (Example.moduleFn.functions.filter fun F => !F.F.isDeclaration).length ∧
    List.Forall₂ (fun F NF => Example.runFn.FMap.lookup F.F = some NF ∧ NF.rebuilt = true)
      (Example.moduleFn.functions.filter fun F => !F.F.isDeclaration)
      Example.runFn.M.created ∧
    Example.runFn.FMap.map Prod.snd = Example.runFn.M.created.reverse ∧
    Example.runFn.M.rebuilt.map (fun R => R.NF) = Example.runFn.M.created ∧
    List.Forall₂ (fun F R => R.blocks.length = F.blocks.length)
      (Example.moduleFn.functions.filter fun F => !F.F.isDeclaration)
      Example.runFn.M.rebuilt :=
  runOnModule_frame layout32 Example.noDecompose [] [] [] Example.moduleFn Example.runFn
    (by decide) (by decide) rfl rfl (by decide)

/-- C26, counterexample: the module `Example.moduleApi` holds one declaration
and no function with a body; `runOnModule` leaves it unchanged and returns
`true`, not `false`. -/
theorem runOnModule_unchanged_returns_true :
    (∀ F ∈ Example.moduleApi.functions, F.F.isDeclaration = true) ∧
    ∃ r, runOnModule layout32 Example.noDecompose [] [] [] Example.moduleApi = .ok r ∧
      r.M = Example.moduleApi ∧ r.changed ≠ false := by
  exact ⟨by decide, ModuleRun.mk true Example.moduleApi [] [] [], by decide, rfl, by decide⟩

/-- C26, amended: whenever `runOnModule` returns, the value it returns is
`true`; for a module without a function with a body it returns `true` as well,
with the module and the value and block maps as they were and the function
map cleared. -/
theorem runOnModule_returns_true (TD : TargetData)
    (Decompose : GetElementPtrInst → Decomposition) (FMap : FMapTy) (VMap : ValueMapTy)
    (BBMap : BBMapTy) (M : Module) :
    (∀ r, runOnModule TD Decompose FMap VMap BBMap M = .ok r → r.changed = true) ∧
    ((∀ F ∈ M.functions, F.F.isDeclaration = true) →
      runOnModule TD Decompose FMap VMap BBMap M =
        .ok { changed := true, M := M, FMap := [], VMap := VMap, BBMap := BBMap }) := by
  constructor
  · intro r h
    obtain ⟨_, _, _, _, _, hch⟩ := runOnModule_phases TD Decompose FMap VMap BBMap M r h
    exact hch
  · intro hall
    have hnil : M.functions.filter (fun F => !F.F.isDeclaration) = [] := by
      rw [List.filter_eq_nil_iff]
      intro F hF
      simp [hall F hF]
    simp [runOnModule, hnil, runOnModule.createFunctions, runOnModule.rewriteFunctions,
      runOnModule.eraseFunctions, FMapTy.clear, bind, Except.bind]

/-- C26, witness: the run on the module of `@api` and `@fn`, where `@fn` is
rebuilt, returns `true`, and so does the run on the module of `@api` alone. -/
theorem runOnModule_returns_true_witness :
    Example.runFn.changed = true ∧
    runOnModule layout32 Example.noDecompose [(Example.fnF, Example.fnNF)] Example.sC.VMap
        Example.BBMap Example.moduleApi =
      .ok { changed := true, M := Example.moduleApi, FMap := [], VMap := Example.sC.VMap,
            BBMap := Example.BBMap } :=
  ⟨(runOnModule_returns_true layout32 Example.noDecompose [] [] [] Example.moduleFn).1
      Example.runFn (by decide),
   (runOnModule_returns_true layout32 Example.noDecompose [(Example.fnF, Example.fnNF)]
      Example.sC.VMap Example.BBMap Example.moduleApi).2 (by decide)⟩


/-! ### PointerArithmeticDecomposer: scaled strides -/

theorem toInt32_eq_iff (m : Int) : toInt32 m = m ↔ fitsInt32 m = true := by
  unfold toInt32 fitsInt32
  simp only [decide_eq_true_eq]
  constructor
  · intro h
    constructor <;> omega
  · rintro ⟨h1, h2⟩
    omega

theorem sumVarIndices_overflow (d : Nat) :
    ∀ (L : List (Value × Int)) (Sum : Option Value) (s : State),
      (∃ I ∈ L, fitsInt32 (I.2.tdiv d) = false) →
      sumVarIndices d L Sum s = .error .assertFitsInt32
  | [], _, _, h => by
    obtain ⟨I, hI, _⟩ := h
    cases hI
  | J :: rest, Sum, s, h => by
    by_cases hJ : toInt32 (J.2.tdiv d) = J.2.tdiv d
    · have hrest : ∃ I ∈ rest, fitsInt32 (I.2.tdiv d) = false := by
        obtain ⟨I, hI, hf⟩ := h
        rcases List.mem_cons.mp hI with rfl | hI
        · rw [(toInt32_eq_iff _).mp hJ] at hf
          cases hf
        · exact ⟨I, hI, hf⟩
      simp only [sumVarIndices, hJ, ne_eq, not_true_eq_false, if_false]
      exact sumVarIndices_overflow d rest _ _ hrest
    · simp [sumVarIndices, hJ]

theorem sumVarIndices_scaledTerms (d : Nat) :
    ∀ (L : List (Value × Int)) (Sum : Option Value) (s : State),
      (∀ I ∈ L, fitsInt32 (I.2.tdiv d) = true) →
      sumVarIndices d L Sum s =
        .ok ((scaledTerms d L s.emitted.length Sum).2,
             { s with emitted := s.emitted ++ (scaledTerms d L s.emitted.length Sum).1 })
  | [], Sum, s, _ => by
    simp [sumVarIndices, scaledTerms]
  | J :: rest, Sum, s, h => by
    have hJ : toInt32 (J.2.tdiv d) = J.2.tdiv d :=
      (toInt32_eq_iff _).mpr (h J (List.mem_cons_self _ _))
    have hrest : ∀ I ∈ rest, fitsInt32 (I.2.tdiv d) = true :=
      fun I hI => h I (List.mem_cons_of_mem _ hI)
    simp only [sumVarIndices, hJ, ne_eq, not_true_eq_false, if_false]
    by_cases h1 : J.2.tdiv d = 1
    · cases Sum with
      | none =>
        simp only [h1, not_true_eq_false, if_false, State.insert, Request.type]
        rw [sumVarIndices_scaledTerms d rest _ _ hrest]
        simp [scaledTerms, h1]
      | some S =>
        simp only [h1, not_true_eq_false, if_false, State.insert, Request.type]
        rw [sumVarIndices_scaledTerms d rest _ _ hrest]
        simp [scaledTerms, h1, Nat.add_assoc]
    · cases Sum with
      | none =>
        simp only [h1, not_false_eq_true, if_true, State.insert, Request.type]
        rw [sumVarIndices_scaledTerms d rest _ _ hrest]
        simp [scaledTerms, h1, i32const, Nat.add_assoc]
      | some S =>
        simp only [h1, not_false_eq_true, if_true, State.insert, Request.type]
        rw [sumVarIndices_scaledTerms d rest _ _ hrest]
        simp [scaledTerms, h1, i32const, Nat.add_assoc]

theorem visitGetElementPtrInst_general (TD : TargetData) (D : Decomposition)
    (II : GetElementPtrInst) (s : State) (P : Value) (ETy : Ty)
    (hz : II.hasAllZeroIndices = false)
    (hP : mapValue s D.base = .ok P)
    (hE : castPointerElementType P.type = .ok ETy)
    (hd : toUnsigned (TD.getTypeAllocSize ETy) ≠ 0) :
    ∃ (P₂ : Value) (s₂ : State) (pre : List Request),
      s₂.emitted = s.emitted ++ pre ∧ (∀ r ∈ pre, r.isIndexTerm = false) ∧
      s₂.VMap = s.VMap ∧
      visitGetElementPtrInst TD D II s =
      (sumVarIndices (scaleDivisor (toUnsigned (TD.getTypeAllocSize ETy)) D.VarIndices)
        D.VarIndices none s₂).bind fun r =>
        .ok (((match r.1 with
              | some Sum => r.2.insert (.GEP P₂ Sum)
              | none => (P₂, r.2)).2.insert
            (.PointerCast (match r.1 with
              | some Sum => r.2.insert (.GEP P₂ Sum)
              | none => (P₂, r.2)).1 II.self.type II.name)).2.setVMap II.self
          ((match r.1 with
              | some Sum => r.2.insert (.GEP P₂ Sum)
              | none => (P₂, r.2)).2.insert
            (.PointerCast (match r.1 with
              | some Sum => r.2.insert (.GEP P₂ Sum)
              | none => (P₂, r.2)).1 II.self.type II.name)).1) := by
  -- the constant term
  obtain ⟨P₁, s₁, base, h₁, hl₁, hb₁, hv₁⟩ : ∃ P₁ s₁ base,
      (if D.BaseOffs.tmod (toUnsigned (TD.getTypeAllocSize ETy)) ≠ 0 then
          s.insert (.ConstGEP1_64 P
            (D.BaseOffs.tdiv (toUnsigned (TD.getTypeAllocSize ETy))) "rb.base")
        else
          ((s.insert (.PointerCast P (PointerType.getUnqual (.integer 8)) "")).2.insert
            (.ConstGEP1_64 (s.insert (.PointerCast P (PointerType.getUnqual (.integer 8)) "")).1
              D.BaseOffs "rb.base8"))) = (P₁, s₁) ∧
      s₁.emitted = s.emitted ++ base ∧ (∀ r ∈ base, r.isIndexTerm = false) ∧
      s₁.VMap = s.VMap := by
    split_ifs
    · exact ⟨_, _, [.ConstGEP1_64 P
        (D.BaseOffs.tdiv (toUnsigned (TD.getTypeAllocSize ETy))) "rb.base"], rfl, rfl,
        by simp [Request.isIndexTerm], rfl⟩
    · exact ⟨_, _, [.PointerCast P (PointerType.getUnqual (.integer 8)) "",
        .ConstGEP1_64 (s.insert (.PointerCast P (PointerType.getUnqual (.integer 8)) "")).1
          D.BaseOffs "rb.base8"], rfl, by simp [State.insert],
        by simp [Request.isIndexTerm], rfl⟩
  -- the cast to bytes when some stride is not divisible
  obtain ⟨P₂, s₂, pre, h₂, hl₂, hb₂, hv₂⟩ : ∃ P₂ s₂ pre,
      (if (!D.VarIndices.all fun I =>
            decide (I.2.tmod (toUnsigned (TD.getTypeAllocSize ETy)) = 0)) = true then
          (1, (s₁.insert (.PointerCast P₁ (PointerType.getUnqual (.integer 8)) "")).1,
            (s₁.insert (.PointerCast P₁ (PointerType.getUnqual (.integer 8)) "")).2)
        else (toUnsigned (TD.getTypeAllocSize ETy), P₁, s₁)) =
        (scaleDivisor (toUnsigned (TD.getTypeAllocSize ETy)) D.VarIndices, P₂, s₂) ∧
      s₂.emitted = s.emitted ++ pre ∧ (∀ r ∈ pre, r.isIndexTerm = false) ∧
      s₂.VMap = s.VMap := by
    unfold scaleDivisor
    cases hall : D.VarIndices.all fun I =>
        decide (I.2.tmod (toUnsigned (TD.getTypeAllocSize ETy)) = 0) with
    | true => exact ⟨P₁, s₁, base, by simp, hl₁, hb₁, hv₁⟩
    | false =>
      refine ⟨(s₁.insert (.PointerCast P₁ (PointerType.getUnqual (.integer 8)) "")).1,
        (s₁.insert (.PointerCast P₁ (PointerType.getUnqual (.integer 8)) "")).2,
        base ++ [.PointerCast P₁ (PointerType.getUnqual (.integer 8)) ""],
        by simp, by simp [State.insert, hl₁], ?_, hv₁⟩
      intro r hr
      rcases List.mem_append.mp hr with hr | hr
      · exact hb₁ r hr
      · simp only [List.mem_singleton] at hr
        subst hr
        rfl
  refine ⟨P₂, s₂, pre, hl₂, hb₂, hv₂, ?_⟩
  unfold visitGetElementPtrInst
  simp only [hz, Bool.false_eq_true, if_false, hP, hE, bind, Except.bind, hd]
  rw [h₁]
  simp only
  rw [h₂]

/-- C30: in every address computation of the general case whose base is
mapped to a pointer with a pointee of non-zero size, the divisor, the rewrite
fails exactly when the scaled stride `stride / d` of some variable index does
not fit the signed 32-bit range, `d` being the divisor, or 1 when some stride
is not divisible by it, and it then fails at the assertion on that range.
When every scaled stride fits, the rewrite succeeds; after the requests for
the base, none of which belongs to the index sum, it requests the terms as
the specification words them (`scaledTerms`): each index in list order
truncated to 32 bits, multiplied by its scaled stride without signed wrap
unless that factor is 1, and added to the running sum without signed wrap;
then the element-address step with the sum, if there is an index, and the
cast to the type of the instruction. -/
theorem visitGetElementPtrInst_scaled_terms (TD : TargetData) (D : Decomposition)
    (II : GetElementPtrInst) (s : State) (P : Value) (ETy : Ty)
    (hz : II.hasAllZeroIndices = false)
    (hP : mapValue s D.base = .ok P)
    (hE : castPointerElementType P.type = .ok ETy)
    (hd : toUnsigned (TD.getTypeAllocSize ETy) ≠ 0) :
    ((∃ e, visitGetElementPtrInst TD D II s = .error e) ↔
      ∃ I ∈ D.VarIndices, fitsInt32 (I.2.tdiv
        (scaleDivisor (toUnsigned (TD.getTypeAllocSize ETy)) D.VarIndices)) = false) ∧
    (∀ e, visitGetElementPtrInst TD D II s = .error e → e = .assertFitsInt32) ∧
    ((∀ I ∈ D.VarIndices, fitsInt32 (I.2.tdiv
        (scaleDivisor (toUnsigned (TD.getTypeAllocSize ETy)) D.VarIndices)) = true) →
      ∃ (s' : State) (pre : List Request) (P' : Value),
        visitGetElementPtrInst TD D II s = .ok s' ∧
        (∀ r ∈ pre, r.isIndexTerm = false) ∧
        s'.emitted = s.emitted ++ pre ++
          (scaledTerms (scaleDivisor (toUnsigned (TD.getTypeAllocSize ETy)) D.VarIndices)
            D.VarIndices (s.emitted ++ pre).length none).1 ++
          (match (scaledTerms (scaleDivisor (toUnsigned (TD.getTypeAllocSize ETy))
              D.VarIndices) D.VarIndices (s.emitted ++ pre).length none).2 with
            | some Sum =>
              [.GEP P' Sum,
               .PointerCast { id := (s.emitted ++ pre).length + (scaledTerms
                                (scaleDivisor (toUnsigned (TD.getTypeAllocSize ETy))
                                  D.VarIndices)
                                D.VarIndices (s.emitted ++ pre).length none).1.length,
                              kind := .Instruction, type := P'.type, rebuilt := true }
                 II.self.type II.name]
            | none => [.PointerCast P' II.self.type II.name])) := by
  obtain ⟨P₂, s₂, pre, hl₂, hb₂, _, hrun⟩ :=
    visitGetElementPtrInst_general TD D II s P ETy hz hP hE hd
  have hfail : (∃ I ∈ D.VarIndices, fitsInt32 (I.2.tdiv
        (scaleDivisor (toUnsigned (TD.getTypeAllocSize ETy)) D.VarIndices)) = false) →
      visitGetElementPtrInst TD D II s = .error .assertFitsInt32 := by
    intro h
    rw [hrun, sumVarIndices_overflow _ _ _ _ h]
    rfl
  have hok : (∀ I ∈ D.VarIndices, fitsInt32 (I.2.tdiv
        (scaleDivisor (toUnsigned (TD.getTypeAllocSize ETy)) D.VarIndices)) = true) →
      ∃ (s' : State) (pre : List Request) (P' : Value),
        visitGetElementPtrInst TD D II s = .ok s' ∧
        (∀ r ∈ pre, r.isIndexTerm = false) ∧
        s'.emitted = s.emitted ++ pre ++
          (scaledTerms (scaleDivisor (toUnsigned (TD.getTypeAllocSize ETy)) D.VarIndices)
            D.VarIndices (s.emitted ++ pre).length none).1 ++
          (match (scaledTerms (scaleDivisor (toUnsigned (TD.getTypeAllocSize ETy))
              D.VarIndices) D.VarIndices (s.emitted ++ pre).length none).2 with
            | some Sum =>
              [.GEP P' Sum,
               .PointerCast { id := (s.emitted ++ pre).length + (scaledTerms
                                (scaleDivisor (toUnsigned (TD.getTypeAllocSize ETy))
                                  D.VarIndices)
                                D.VarIndices (s.emitted ++ pre).length none).1.length,
                              kind := .Instruction, type := P'.type, rebuilt := true }
                 II.self.type II.name]
            | none => [.PointerCast P' II.self.type II.name]) := by
    intro h
    rw [hrun, sumVarIndices_scaledTerms _ _ _ _ h, hl₂]
    refine ⟨_, pre, P₂, rfl, hb₂, ?_⟩
    cases (scaledTerms (scaleDivisor (toUnsigned (TD.getTypeAllocSize ETy)) D.VarIndices)
        D.VarIndices (s.emitted ++ pre).length none).2 with
    | none => simp [State.setVMap, State.insert]
    | some Sum => simp [State.setVMap, State.insert, Request.type, Nat.add_assoc]
  refine ⟨⟨?_, fun h => ⟨_, hfail h⟩⟩, ?_, hok⟩
  · rintro ⟨e, he⟩
    by_contra hne
    have hall : ∀ I ∈ D.VarIndices, fitsInt32 (I.2.tdiv
        (scaleDivisor (toUnsigned (TD.getTypeAllocSize ETy)) D.VarIndices)) = true := by
      intro I hI
      by_contra hf
      exact hne ⟨I, hI, by simpa using hf⟩
    obtain ⟨s', _, _, hs', _⟩ := hok hall
    rw [hs'] at he
    cases he
  · intro e he
    by_cases hex : ∃ I ∈ D.VarIndices, fitsInt32 (I.2.tdiv
        (scaleDivisor (toUnsigned (TD.getTypeAllocSize ETy)) D.VarIndices)) = false
    · rw [hfail hex] at he
      cases he
      rfl
    · have hall : ∀ I ∈ D.VarIndices, fitsInt32 (I.2.tdiv
          (scaleDivisor (toUnsigned (TD.getTypeAllocSize ETy)) D.VarIndices)) = true := by
        intro I hI
        by_contra hf
        exact hex ⟨I, hI, by simpa using hf⟩
      obtain ⟨s', _, _, hs', _⟩ := hok hall
      rw [hs'] at he
      cases he

/-- C30, witness: on `%p`, an `i32*` with divisor 4, an index with a stride
of `2 ^ 40` bytes has the scaled stride `2 ^ 38`, which does not fit, and the
rewrite fails; with the strides 4 and 12 the scaled strides are 1 and 3: the
first index is truncated only, the second is truncated and multiplied by 3,
and one addition sums the two terms. -/
theorem visitGetElementPtrInst_scaled_terms_witness :
    (∃ e, visitGetElementPtrInst layout32 Example.hugeDecomposition Example.r Example.s1 =
      .error e) ∧
    (scaledTerms 4 Example.twoDecomposition.VarIndices 3 none =
      ([.TruncOrBitCast Example.i (.integer 32),
        .TruncOrBitCast Example.j (.integer 32),
        .NSWMul (i32const 3) (Example.built 4 (.integer 32)),
        .NSWAdd (Example.built 3 (.integer 32)) (Example.built 5 (.integer 32))],
       some (Example.built 6 (.integer 32)))) ∧
    (∃ (s' : State) (pre : List Request) (P' : Value),
      visitGetElementPtrInst layout32 Example.twoDecomposition Example.r Example.s1 =
        .ok s' ∧
      (∀ r ∈ pre, r.isIndexTerm = false) ∧
      s'.emitted = Example.s1.emitted ++ pre ++
        (scaledTerms (scaleDivisor (toUnsigned (layout32.getTypeAllocSize (.integer 32)))
            Example.twoDecomposition.VarIndices)
          Example.twoDecomposition.VarIndices (Example.s1.emitted ++ pre).length none).1 ++
        (match (scaledTerms (scaleDivisor
            (toUnsigned (layout32.getTypeAllocSize (.integer 32)))
            Example.twoDecomposition.VarIndices) Example.twoDecomposition.VarIndices
            (Example.s1.emitted ++ pre).length none).2 with
          | some Sum =>
            [.GEP P' Sum,
             .PointerCast { id := (Example.s1.emitted ++ pre).length + (scaledTerms
                              (scaleDivisor
                                (toUnsigned (layout32.getTypeAllocSize (.integer 32)))
                                Example.twoDecomposition.VarIndices)
                              Example.twoDecomposition.VarIndices
                              (Example.s1.emitted ++ pre).length none).1.length,
                            kind := .Instruction, type := P'.type, rebuilt := true }
               Example.r.self.type Example.r.name]
          | none => [.PointerCast P' Example.r.self.type Example.r.name])) :=
  ⟨(visitGetElementPtrInst_scaled_terms layout32 Example.hugeDecomposition Example.r
      Example.s1 (Example.built 0 Example.i32p) (.integer 32) (by decide) (by decide)
      (by decide) (by decide)).1.mpr ⟨(Example.i, 1099511627776), by decide, by decide⟩,
   by decide,
   (visitGetElementPtrInst_scaled_terms layout32 Example.twoDecomposition Example.r
      Example.s1 (Example.built 0 Example.i32p) (.integer 32) (by decide) (by decide)
      (by decide) (by decide)).2.2 (by decide)⟩

/-! ### InstructionRewriter: the types of the values produced -/

theorem lookup_setVMap (s : State) (K V : Value) :
    (s.setVMap K V).VMap.lookup K = some V := by
  simp [State.setVMap, ValueMapTy.lookup]

/-- C29, counterexample: Scenario A. The pass rebuilds the module of `@sf`,
whose body allocates one `{i32, i32, i32}`; the second value produced in the
rebuilt function, the one recorded for the allocation, has the type
`{i32, i32, i32}*` of the source allocation, which is outside the restricted
vocabulary. -/
theorem runOnModule_alloca_original_type :
    runOnModule layout32 Example.noDecompose [] [] [] Example.moduleS =
      .ok { changed := true,
            M := { functions := [], created := [Example.newSf],
                   rebuilt := [Example.rebuiltS] },
            FMap := [(Example.sf, Example.newSf)],
            VMap := Example.rebuiltS.st.VMap, BBMap := Example.rebuiltS.BBMap } ∧
    Example.rebuiltS.st.emitted.map Request.type =
      [Example.i32p, PointerType.getUnqual Example.S3, .void] ∧
    Example.rebuiltS.st.VMap.lookup Example.allocaS.self =
      some (Example.built 1 (PointerType.getUnqual Example.S3)) ∧
    (PointerType.getUnqual Example.S3).inVocabulary = false := by
  decide

/-- C29, amended: whenever the rewrite of a stack allocation succeeds, it
requests the allocation of an element type `T` that is an integer type, void
or a pointer to an integer type (the rebuilt allocated type, or its element
type when that is an array), then the cast of that allocation to the type of
the source allocation, and the value recorded for the allocation has that
original type; whenever `mapPointer` succeeds, its value is the cast of the
mapped pointer to the type of the source pointer; the value recorded for a
rebuilt load has the pointee type of the source pointer; and the value
recorded for an address computation whose indices are all zero has the
rebuilt type of the instruction. The last part also states what the code
records in the general case of an address computation, a value of the
original type of the instruction: that is the defect of C31, a fact of the
code and no part of the amended sentence. -/
theorem recorded_pointer_types (TD : TargetData) :
    (∀ (AI : AllocaInst) (s s' : State), visitAllocaInst TD AI s = .ok s' →
      ∃ (R T : Ty) (count : Option Value),
        rebuildType TD AI.allocatedType = .ok R ∧
        T = (match R with
          | .array ETy _ => ETy
          | _ => R) ∧
        ((∃ bits, T = .integer bits) ∨ T = .void ∨ ∃ bits, T = .pointer (.integer bits) 0) ∧
        s'.emitted = s.emitted ++
          [.Alloca T count AI.name,
           .PointerCast { id := s.emitted.length, kind := .Instruction,
                          type := PointerType.getUnqual T, rebuilt := true }
             AI.self.type AI.name] ∧
        s'.VMap.lookup AI.self =
          some { id := s.emitted.length + 1, kind := .Instruction, type := AI.self.type,
                 rebuilt := true }) ∧
    (∀ (s s' : State) (P V : Value), mapPointer s P = .ok (V, s') →
      ∃ PV : Value, mapValue s P = .ok PV ∧
        s'.emitted = s.emitted ++ [.PointerCast PV P.type "rbcast"] ∧
        V = { id := s.emitted.length, kind := .Instruction, type := P.type,
              rebuilt := true }) ∧
    (∀ (I : LoadInst) (s s' : State) (ETy : Ty) (a : Nat),
      I.pointerOperand.type = .pointer ETy a → visitLoadInst I s = .ok s' →
      s'.VMap.lookup I.self =
        some { id := s.emitted.length + 1, kind := .Instruction, type := ETy,
               rebuilt := true }) ∧
    (∀ (D : Decomposition) (II : GetElementPtrInst) (s s' : State),
      visitGetElementPtrInst TD D II s = .ok s' →
      ∃ V : Value, s'.VMap.lookup II.self = some V ∧
        (II.hasAllZeroIndices = true → rebuildType TD II.self.type = .ok V.type) ∧
        (II.hasAllZeroIndices = false → V.type = II.self.type)) := by
  refine ⟨?_, ?_, ?_, ?_⟩
  · intro AI s s' h
    unfold visitAllocaInst at h
    split at h
    · rename_i zext hk
      simp only [bind, Except.bind] at h
      cases hR : rebuildType TD AI.allocatedType with
      | error e => rw [hR] at h; cases h
      | ok R =>
        rw [hR] at h
        simp only [Except.ok.injEq] at h
        subst h
        rcases rebuildType_ok_cases TD _ R hR with
          ⟨bits, rfl⟩ | rfl | ⟨bits, rfl⟩ | ⟨bits, n, rfl⟩
        · exact ⟨_, _, if zext % 2 ^ 64 = 1 then none else some (u64const (zext % 2 ^ 64)),
            rfl, rfl, Or.inl ⟨bits, rfl⟩,
            by simp [State.setVMap, State.insert, Request.type],
            by simp [State.setVMap, State.insert, Request.type, ValueMapTy.lookup]⟩
        · exact ⟨_, _, if zext % 2 ^ 64 = 1 then none else some (u64const (zext % 2 ^ 64)),
            rfl, rfl, Or.inr (Or.inl rfl),
            by simp [State.setVMap, State.insert, Request.type],
            by simp [State.setVMap, State.insert, Request.type, ValueMapTy.lookup]⟩
        · exact ⟨_, _, if zext % 2 ^ 64 = 1 then none else some (u64const (zext % 2 ^ 64)),
            rfl, rfl, Or.inr (Or.inr ⟨bits, rfl⟩),
            by simp [State.setVMap, State.insert, Request.type],
            by simp [State.setVMap, State.insert, Request.type, ValueMapTy.lookup]⟩
        · exact ⟨_, _,
            if zext % 2 ^ 64 * n % 2 ^ 64 = 1 then none
            else some (u64const (zext % 2 ^ 64 * n % 2 ^ 64)),
            rfl, rfl, Or.inl ⟨bits, rfl⟩,
            by simp [State.setVMap, State.insert, Request.type],
            by simp [State.setVMap, State.insert, Request.type, ValueMapTy.lookup]⟩
    · cases h
  · intro s s' P V h
    simp only [mapPointer, bind, Except.bind] at h
    cases hm : mapValue s P with
    | error e => rw [hm] at h; cases h
    | ok PV =>
      rw [hm] at h
      simp only [Except.ok.injEq, State.insert, Prod.mk.injEq] at h
      obtain ⟨rfl, rfl⟩ := h
      exact ⟨PV, rfl, rfl, rfl⟩
  · intro I s s' ETy a hT h
    simp only [visitLoadInst, mapPointer, bind, Except.bind] at h
    cases hm : mapValue s I.pointerOperand with
    | error e => rw [hm] at h; cases h
    | ok PV =>
      rw [hm] at h
      simp only [Except.ok.injEq] at h
      subst h
      simp [State.setVMap, State.insert, Request.type, ValueMapTy.lookup, hT]
  · intro D II s s' h
    cases hz : II.hasAllZeroIndices with
    | true =>
      simp only [visitGetElementPtrInst, hz, if_true, bind, Except.bind] at h
      cases hm : mapValue s II.pointerOperand with
      | error e => rw [hm] at h; cases h
      | ok V =>
        rw [hm] at h
        simp only at h
        cases hR : rebuildType TD II.self.type with
        | error e => rw [hR] at h; cases h
        | ok T =>
          rw [hR] at h
          simp only [Except.ok.injEq] at h
          subst h
          exact ⟨_, lookup_setVMap _ _ _, fun _ => rfl, fun hc => by cases hc⟩
    | false =>
      cases hP : mapValue s D.base with
      | error e =>
        simp [visitGetElementPtrInst, hz, hP, bind, Except.bind] at h
      | ok P =>
        cases hE : castPointerElementType P.type with
        | error e =>
          simp [visitGetElementPtrInst, hz, hP, hE, bind, Except.bind] at h
        | ok ETy =>
          by_cases hd : toUnsigned (TD.getTypeAllocSize ETy) = 0
          · simp [visitGetElementPtrInst, hz, hP, hE, hd, bind, Except.bind] at h
          · obtain ⟨P₂, s₂, pre, _, _, _, hrun⟩ :=
              visitGetElementPtrInst_general TD D II s P ETy hz hP hE hd
            rw [hrun] at h
            cases hs : sumVarIndices
                (scaleDivisor (toUnsigned (TD.getTypeAllocSize ETy)) D.VarIndices)
                D.VarIndices none s₂ with
            | error e => rw [hs] at h; cases h
            | ok r =>
              rw [hs] at h
              simp only [Except.bind, Except.ok.injEq] at h
              subst h
              exact ⟨_, lookup_setVMap _ _ _, fun hc => Bool.noConfusion hc, fun _ => rfl⟩

/-- C29, witness: the rewrite of `%s = alloca {i32, i32, i32}` allocates
elements of `i32` and records a value of type `{i32, i32, i32}*`; the pointer
`mapPointer` gives for `%s` has that type as well, the value recorded for
`%l = load {i32, i32, i32}* %s` has the struct type, and the value recorded
for the address computation `%f` has the type of `%f`. -/
theorem recorded_pointer_types_witness :
    (∃ (R T : Ty) (count : Option Value),
      rebuildType layout32 Example.allocaS.allocatedType = .ok R ∧
      T = (match R with
        | .array ETy _ => ETy
        | _ => R) ∧
      ((∃ bits, T = .integer bits) ∨ T = .void ∨ ∃ bits, T = .pointer (.integer bits) 0) ∧
      Example.rebuiltS.st.emitted.take 2 = [] ++
        [.Alloca T count Example.allocaS.name,
         .PointerCast { id := 0, kind := .Instruction,
                        type := PointerType.getUnqual T, rebuilt := true }
           Example.allocaS.self.type Example.allocaS.name] ∧
      Example.rebuiltS.st.VMap.lookup Example.allocaS.self =
        some { id := 0 + 1, kind := .Instruction, type := Example.allocaS.self.type,
               rebuilt := true }) ∧
    (∃ PV : Value, mapValue Example.rebuiltS.st Example.allocaS.self = .ok PV ∧
      Example.rebuiltS.st.emitted ++
          [.PointerCast (Example.built 1 (PointerType.getUnqual Example.S3))
            (PointerType.getUnqual Example.S3) "rbcast"] =
        Example.rebuiltS.st.emitted ++ [.PointerCast PV Example.allocaS.self.type "rbcast"] ∧
      Example.built 3 (PointerType.getUnqual Example.S3) =
        { id := Example.rebuiltS.st.emitted.length, kind := .Instruction,
          type := Example.allocaS.self.type, rebuilt := true }) ∧
    (∃ s', visitLoadInst Example.loadS Example.rebuiltS.st = .ok s' ∧
      s'.VMap.lookup Example.loadS.self = some (Example.built 4 Example.S3)) ∧
    (∃ V : Value, Example.sF.VMap.lookup Example.f.self = some V ∧
      (Example.f.hasAllZeroIndices = true →
        rebuildType layout32 Example.f.self.type = .ok V.type) ∧
      (Example.f.hasAllZeroIndices = false → V.type = Example.f.self.type)) :=
  ⟨(recorded_pointer_types layout32).1 Example.allocaS
      { VMap := [], emitted := [] }
      { VMap := (Example.rebuiltS.st.VMap), emitted := Example.rebuiltS.st.emitted.take 2 }
      (by decide),
   (recorded_pointer_types layout32).2.1 Example.rebuiltS.st
      { Example.rebuiltS.st with emitted := Example.rebuiltS.st.emitted ++
          [.PointerCast (Example.built 1 (PointerType.getUnqual Example.S3))
            (PointerType.getUnqual Example.S3) "rbcast"] }
      Example.allocaS.self (Example.built 3 (PointerType.getUnqual Example.S3)) (by decide),
   ⟨_, rfl, (recorded_pointer_types layout32).2.2.1 Example.loadS
      Example.rebuiltS.st _ Example.S3 0 rfl rfl⟩,
   (recorded_pointer_types layout32).2.2.2 Example.fDecomposition Example.f Example.sA
      Example.sF (by decide)⟩


/-! ### TypeRebuilder: the first element only -/

/-- C34: `rebuildType` of a composite follows sub-element 0 only: two
composite types that are no pointers, with the same storage size and the same
leaf on their first-element chain, are rebuilt alike, to the same array type
or to the same failure, whatever their other fields are. -/
theorem rebuildType_first_element_only (TD : TargetData) (C₁ C₂ : Ty)
    (hC₁ : C₁.isCompositeTy = true) (hP₁ : C₁.isPointerTy = false)
    (hC₂ : C₂.isCompositeTy = true) (hP₂ : C₂.isPointerTy = false)
    (hsize : TD.getTypeAllocSize C₁ = TD.getTypeAllocSize C₂)
    (hleaf : innerLeaf C₁ = innerLeaf C₂) :
    rebuildType TD C₁ = rebuildType TD C₂ := by
  rw [rebuildType_composite_eq TD C₁ hC₁ hP₁, rebuildType_composite_eq TD C₂ hC₂ hP₂,
    getInnerElementType_eq_innerLeaf C₁ hC₁, getInnerElementType_eq_innerLeaf C₂ hC₂,
    hleaf, hsize]

/-- C34, witness: `{i8, i32}`, of size 8 with the leaf `i8`, is rebuilt like
`[8 x i8]`, to the array of 8 elements of `i8`, although its second field is
an `i32`. -/
theorem rebuildType_first_element_only_witness :
    rebuildType layout32 Example.S8 = rebuildType layout32 (.array (.integer 8) 8) ∧
    rebuildType layout32 Example.S8 = .ok (.array (.integer 8) 8) ∧
    layout32.getTypeAllocSize Example.S8 = 8 :=
  ⟨rebuildType_first_element_only layout32 Example.S8 (.array (.integer 8) 8) rfl rfl rfl rfl
      (by decide) (by decide),
   by decide, by decide⟩


/-! ### InstructionRewriter: simple instructions, loads and stores -/

/-- C32: a binary operator, an integer comparison, a select and a type
conversion whose operands are mapped are each rewritten by one request of the
same kind, with the opcode (or the predicate) of the source instruction, the
`mapValue` images of the source operands in the same order and the name of the
source instruction; the destination type of a conversion is `rebuildType` of
the source destination type, and without it the conversion is not rewritten;
the value of the request is recorded in the value map under the source
instruction. -/
theorem simple_instructions_homomorphic (TD : TargetData) (s : State) :
    (∀ (I : BinaryOperator) (L R : Value),
      mapValue s I.operand0 = .ok L → mapValue s I.operand1 = .ok R →
      visitBinaryOperator I s =
        .ok { VMap := (I.self, { id := s.emitted.length, kind := .Instruction,
                                 type := L.type, rebuilt := true }) :: s.VMap,
              emitted := s.emitted ++ [.BinOp I.opcode L R I.name] }) ∧
    (∀ (I : ICmpInst) (L R : Value),
      mapValue s I.operand0 = .ok L → mapValue s I.operand1 = .ok R →
      visitICmpInst I s =
        .ok { VMap := (I.self, { id := s.emitted.length, kind := .Instruction,
                                 type := .integer 1, rebuilt := true }) :: s.VMap,
              emitted := s.emitted ++ [.ICmp I.predicate L R I.name] }) ∧
    (∀ (I : SelectInst) (C T F : Value),
      mapValue s I.condition = .ok C → mapValue s I.trueValue = .ok T →
      mapValue s I.falseValue = .ok F →
      visitSelectInst I s =
        .ok { VMap := (I.self, { id := s.emitted.length, kind := .Instruction,
                                 type := T.type, rebuilt := true }) :: s.VMap,
              emitted := s.emitted ++ [.Select C T F I.name] }) ∧
    (∀ (I : CastInst) (V : Value), mapValue s I.operand = .ok V →
      (∀ T : Ty, rebuildType TD I.self.type = .ok T →
        visitCastInst TD I s =
          .ok { VMap := (I.self, { id := s.emitted.length, kind := .Instruction,
                                   type := T, rebuilt := true }) :: s.VMap,
                emitted := s.emitted ++ [.Cast I.opcode V T I.name] }) ∧
      (∀ e, rebuildType TD I.self.type = .error e → visitCastInst TD I s = .error e)) := by
  refine ⟨?_, ?_, ?_, ?_⟩
  · intro I L R hL hR
    simp [visitBinaryOperator, hL, hR, bind, Except.bind, State.insert, State.setVMap,
      Request.type]
  · intro I L R hL hR
    simp [visitICmpInst, hL, hR, bind, Except.bind, State.insert, State.setVMap,
      Request.type]
  · intro I C T F hC hT hF
    simp [visitSelectInst, hC, hT, hF, bind, Except.bind, State.insert, State.setVMap,
      Request.type]
  · intro I V hV
    constructor
    · intro T hT
      simp [visitCastInst, hV, hT, bind, Except.bind, State.insert, State.setVMap,
        Request.type]
    · intro e he
      simp [visitCastInst, hV, he, bind, Except.bind]

/-- C32, witness: in a state that maps `%p` and `%c`, `%b = add i32 %c, 1`,
`%t = icmp eq i32 %c, 7`, `%m = select i1 true, i32 %c, i32 1` and
`%pc = bitcast i32* %p to {i32, i32}*` become the same instructions on the
images of `%c` and `%p`, the conversion with the destination type `i32*`. -/
theorem simple_instructions_homomorphic_witness :
    visitBinaryOperator Example.add Example.sPC =
      .ok { VMap := (Example.add.self, Example.built 2 (.integer 32)) :: Example.sPC.VMap,
            emitted := Example.sPC.emitted ++
              [.BinOp 8 (Example.built 1 (.integer 32)) Example.one32 "b"] } ∧
    visitICmpInst Example.icmp Example.sPC =
      .ok { VMap := (Example.icmp.self, Example.built 2 (.integer 1)) :: Example.sPC.VMap,
            emitted := Example.sPC.emitted ++
              [.ICmp 32 (Example.built 1 (.integer 32)) (Example.const32 7) "t"] } ∧
    visitSelectInst Example.select Example.sPC =
      .ok { VMap := (Example.select.self, Example.built 2 (.integer 32)) ::
              Example.sPC.VMap,
            emitted := Example.sPC.emitted ++
              [.Select Example.true1 (Example.built 1 (.integer 32)) Example.one32 "m"] } ∧
    visitCastInst layout32 Example.bitcast Example.sPC =
      .ok { VMap := (Example.bitcast.self, Example.built 2 Example.i32p) ::
              Example.sPC.VMap,
            emitted := Example.sPC.emitted ++
              [.Cast 44 (Example.built 0 Example.i32p) Example.i32p "pc"] } :=
  ⟨(simple_instructions_homomorphic layout32 Example.sPC).1 Example.add
      (Example.built 1 (.integer 32)) Example.one32 (by decide) (by decide),
   (simple_instructions_homomorphic layout32 Example.sPC).2.1 Example.icmp
      (Example.built 1 (.integer 32)) (Example.const32 7) (by decide) (by decide),
   (simple_instructions_homomorphic layout32 Example.sPC).2.2.1 Example.select
      Example.true1 (Example.built 1 (.integer 32)) Example.one32
      (by decide) (by decide) (by decide),
   ((simple_instructions_homomorphic layout32 Example.sPC).2.2.2 Example.bitcast
      (Example.built 0 Example.i32p) (by decide)).1 Example.i32p (by decide)⟩

/-- C35: for every load whose pointer operand is mapped, the rewrite requests
the cast of the image of the pointer to the type of the source pointer, then
the load from that cast, recorded under the source load; the type of the
rebuilt load is the pointee type of the source pointer, which is the type of
the source load. For every store whose operands are mapped, the rewrite
requests the same cast for the pointer, then the store of the plain image of
the value through that cast. -/
theorem load_store_pointer (s : State) :
    (∀ (I : LoadInst) (PV : Value) (a : Nat), mapValue s I.pointerOperand = .ok PV →
      I.pointerOperand.type = .pointer I.self.type a →
      visitLoadInst I s =
        .ok { VMap := (I.self, { id := s.emitted.length + 1, kind := .Instruction,
                                 type := I.self.type, rebuilt := true }) :: s.VMap,
              emitted := s.emitted ++
                [.PointerCast PV I.pointerOperand.type "rbcast",
                 .Load { id := s.emitted.length, kind := .Instruction,
                         type := I.pointerOperand.type, rebuilt := true } I.name] }) ∧
    (∀ (I : StoreInst) (V PV : Value), mapValue s I.valueOperand = .ok V →
      mapValue s I.pointerOperand = .ok PV →
      visitStoreInst I s =
        .ok { VMap := s.VMap,
              emitted := s.emitted ++
                [.PointerCast PV I.pointerOperand.type "rbcast",
                 .Store V { id := s.emitted.length, kind := .Instruction,
                            type := I.pointerOperand.type, rebuilt := true }] }) := by
  constructor
  · intro I PV a hP hT
    simp [visitLoadInst, mapPointer, hP, bind, Except.bind, State.insert, State.setVMap,
      Request.type, hT]
  · intro I V PV hV hP
    simp [visitStoreInst, mapPointer, hV, hP, bind, Except.bind, State.insert, Request.type]

/-- C35, witness: `%l = load i32* %p` becomes the load through the cast of the
image of `%p` to `i32*` and has type `i32`; `store i32 %c, i32* %p` stores the
image of `%c` through the same cast. -/
theorem load_store_pointer_witness :
    visitLoadInst Example.load Example.sPC =
      .ok { VMap := (Example.load.self, Example.built 3 (.integer 32)) :: Example.sPC.VMap,
            emitted := Example.sPC.emitted ++
              [.PointerCast (Example.built 0 Example.i32p) Example.i32p "rbcast",
               .Load (Example.built 2 Example.i32p) "l"] } ∧
    visitStoreInst Example.store Example.sPC =
      .ok { VMap := Example.sPC.VMap,
            emitted := Example.sPC.emitted ++
              [.PointerCast (Example.built 0 Example.i32p) Example.i32p "rbcast",
               .Store (Example.built 1 (.integer 32)) (Example.built 2 Example.i32p)] } :=
  ⟨(load_store_pointer Example.sPC).1 Example.load (Example.built 0 Example.i32p) 0
      (by decide) rfl,
   (load_store_pointer Example.sPC).2 Example.store (Example.built 1 (.integer 32))
      (Example.built 0 Example.i32p) (by decide) (by decide)⟩


/-! ### ModuleRebuildOrchestrator: scoping of the maps -/

/-- C31, the code at the failing input. `%e`, the address of element `%i` of
an array of `{i32, i32}`, has type `{i32, i32}*`, which `rebuildType` turns
into `i32*`. The rewrite of `%e`, in the general case, ends in the cast to
`{i32, i32}*` and records a value of that type, not of type `i32*`; the
rewrite of `%e0`, of the same type and with all indices zero, ends in the cast
to `i32*` and records a value of type `i32*`. -/
theorem visitGetElementPtrInst_general_original_type :
    Example.e.hasAllZeroIndices = false ∧
    Example.e0.hasAllZeroIndices = true ∧
    Example.e0.self.type = Example.e.self.type ∧
    rebuildType layout32 Example.e.self.type = .ok Example.i32p ∧
    (visitGetElementPtrInst layout32 Example.eDecomposition Example.e Example.sA).map
        (fun s' => (s'.emitted.getLast?, (s'.VMap.lookup Example.e.self).map fun V => V.type)) =
      .ok (some (.PointerCast (Example.built 7 Example.i8p)
              (PointerType.getUnqual Example.S2) "e"),
           some (PointerType.getUnqual Example.S2)) ∧
    (visitGetElementPtrInst layout32 Example.e0Decomposition Example.e0 Example.sA).map
        (fun s' => (s'.emitted.getLast?, (s'.VMap.lookup Example.e0.self).map fun V => V.type)) =
      .ok (some (.PointerCast (Example.built 1 Example.A4p) Example.i32p "rbcast"),
           some Example.i32p) ∧
    PointerType.getUnqual Example.S2 ≠ Example.i32p := by
  decide

/-- The type of the value recorded for an address computation. Whenever the
rewrite succeeds in the general case, its last request is the cast of the
computed pointer to the type of the source instruction, as it is, and the
value of that cast is recorded in the value map; in the all-zero case the last
request is the cast to `rebuildType` of that type. The two types are the same
when the type of the source instruction is an unqualified pointer to an
integer type, which `rebuildType` leaves as it is. -/
theorem visitGetElementPtrInst_result_type (TD : TargetData) (D : Decomposition)
    (II : GetElementPtrInst) (s s' : State)
    (h : visitGetElementPtrInst TD D II s = .ok s') :
    (II.hasAllZeroIndices = false →
      ∃ (log : List Request) (P' : Value),
        s'.emitted = log ++ [.PointerCast P' II.self.type II.name] ∧
        s'.VMap.lookup II.self =
          some { id := log.length, kind := .Instruction, type := II.self.type,
                 rebuilt := true }) ∧
    (II.hasAllZeroIndices = true →
      ∃ (T : Ty) (V : Value), rebuildType TD II.self.type = .ok T ∧
        s'.emitted = s.emitted ++ [.PointerCast V T "rbcast"] ∧
        s'.VMap.lookup II.self =
          some { id := s.emitted.length, kind := .Instruction, type := T,
                 rebuilt := true }) ∧
    (∀ bits : Nat, II.self.type = .pointer (.integer bits) 0 →
      rebuildType TD II.self.type = .ok II.self.type) := by
  refine ⟨?_, ?_, ?_⟩
  · intro hz
    cases hP : mapValue s D.base with
    | error e =>
      simp [visitGetElementPtrInst, hz, hP, bind, Except.bind] at h
    | ok P =>
      cases hE : castPointerElementType P.type with
      | error e =>
        simp [visitGetElementPtrInst, hz, hP, hE, bind, Except.bind] at h
      | ok ETy =>
        by_cases hd : toUnsigned (TD.getTypeAllocSize ETy) = 0
        · simp [visitGetElementPtrInst, hz, hP, hE, hd, bind, Except.bind] at h
        · obtain ⟨P₂, s₂, pre, _, _, _, hrun⟩ :=
            visitGetElementPtrInst_general TD D II s P ETy hz hP hE hd
          rw [hrun] at h
          cases hs : sumVarIndices
              (scaleDivisor (toUnsigned (TD.getTypeAllocSize ETy)) D.VarIndices)
              D.VarIndices none s₂ with
          | error e => rw [hs] at h; cases h
          | ok r =>
            rw [hs] at h
            simp only [Except.bind, Except.ok.injEq] at h
            subst h
            exact ⟨_, _, rfl, lookup_setVMap _ _ _⟩
  · intro hz
    simp only [visitGetElementPtrInst, hz, if_true, bind, Except.bind] at h
    cases hm : mapValue s II.pointerOperand with
    | error e => rw [hm] at h; cases h
    | ok V =>
      rw [hm] at h
      simp only at h
      cases hR : rebuildType TD II.self.type with
      | error e => rw [hR] at h; cases h
      | ok T =>
        rw [hR] at h
        simp only [Except.ok.injEq] at h
        subst h
        exact ⟨T, V, rfl, rfl, lookup_setVMap _ _ _⟩
  · intro bits hT
    rw [hT, rebuildType_pointer_eq]
    rfl


/-! ### The operands and the types of the rebuilt instructions -/

/-- C36, the code at the failing input. In a state that maps `%p` and `%i`,
the rewrite of `%r = getelementptr i32* %p, i64 %i` requests the truncation of
`%i` itself, the value of the old function, not of the image the value map
holds for `%i`: the rebuilt function has an instruction with an operand that
is neither a constant nor a value of the new function. -/
theorem visitGetElementPtrInst_old_index_operand :
    Example.sPI.VMap.lookup Example.i = some (Example.built 1 (.integer 64)) ∧
    (visitGetElementPtrInst layout32 Example.rDecomposition Example.r Example.sPI).map
        (fun s' => s'.emitted) =
      .ok (Example.sPI.emitted ++
        [.PointerCast (Example.built 0 Example.i32p) Example.i8p "",
         .ConstGEP1_64 (Example.built 2 Example.i8p) 0 "rb.base8",
         .TruncOrBitCast Example.i (.integer 32),
         .GEP (Example.built 3 Example.i8p) (Example.built 4 (.integer 32)),
         .PointerCast (Example.built 5 Example.i8p) Example.i32p "r"]) ∧
    Example.i ∈ (Request.TruncOrBitCast Example.i (.integer 32)).operands ∧
    Example.i.rebuilt = false ∧ Example.i.isConstant = false := by
  decide

/-- C39, the code at the failing input, the witness of the claim. In the
module of `@caller` and `@takes` the function created for `@takes` has the
parameter type `i32*`, `rebuildType` of `{i32, i32, i32}*`; the rebuilt
`@caller` calls it with the value recorded for `%s`, which has the type
`{i32, i32, i32}*` of the source allocation, without a cast. -/
theorem runOnModule_internal_call_type :
    (runOnModule layout32 Example.noDecompose [] [] [] Example.moduleCall).map
        (fun r => (r.FMap.lookup Example.takes,
          r.M.rebuilt.map fun R => R.st.emitted)) =
      .ok (some Example.newTakes,
        [[.Alloca (.integer 32) (some (u64const 3)) "s",
          .PointerCast (Example.built 0 Example.i32p) (PointerType.getUnqual Example.S3) "s",
          .Call Example.newTakes [Example.built 1 (PointerType.getUnqual Example.S3)] "",
          .RetVoid],
         [.RetVoid]]) ∧
    Example.newTakes.type.params = [Example.i32p] ∧
    rebuildType layout32 (PointerType.getUnqual Example.S3) = .ok Example.i32p ∧
    (Example.built 1 (PointerType.getUnqual Example.S3)).type ≠ Example.i32p := by
  decide

/-- C40, the code at the failing input. The leaf size `rebuildType` divides by
is never zero. But the allocation `%z = alloca [0 x i32]` is recorded as a
value of type `[0 x i32]*`, whose pointee has size 0, and the rewrite of
`%ze = getelementptr [0 x i32]* %z, i64 0, i64 %i` takes that size as divisor:
the remainder `BaseOffs % divisor` divides by zero. -/
theorem visitGetElementPtrInst_zero_divisor :
    (∀ (TD : TargetData) (T ETy : Ty), getInnerElementType T = .ok ETy →
      toUnsigned (TD.getTypeAllocSize ETy) ≠ 0) ∧
    visitAllocaInst layout32 Example.allocaZ { VMap := [], emitted := [] } = .ok Example.sZ ∧
    mapValue Example.sZ Example.zeDecomposition.base =
      .ok (Example.built 1 (PointerType.getUnqual Example.Z0)) ∧
    toUnsigned (layout32.getTypeAllocSize Example.Z0) = 0 ∧
    Example.ze.hasAllZeroIndices = false ∧
    visitGetElementPtrInst layout32 Example.zeDecomposition Example.ze Example.sZ =
      .error .divisionByZero := by
  refine ⟨?_, by decide, by decide, by decide, by decide, by decide⟩
  intro TD T ETy h
  obtain ⟨bits, rfl⟩ := getInnerElementType_integer T ETy h
  rw [toUnsigned_integer]
  exact Nat.pos_iff_ne_zero.mp (TD.integer_pos bits)


/-! ### Storage sizes -/

theorem allocaBytes_count (TD : TargetData) (T : Ty) (n : Nat) (Name : String)
    (hn : n < 2 ^ 64) :
    (Request.Alloca T (if n = 1 then none else some (u64const n)) Name).allocaBytes TD =
      n * TD.getTypeAllocSize T := by
  by_cases h1 : n = 1
  · simp [h1, Request.allocaBytes]
  · simp only [h1, if_false, Request.allocaBytes, u64const]
    rw [Nat.mod_eq_of_lt hn]

theorem visitAllocaInst_ok (TD : TargetData) (AI : AllocaInst) (s s' : State) (zext : Nat)
    (hk : AI.arraySize.kind = .ConstantInt zext)
    (h : visitAllocaInst TD AI s = .ok s') :
    ∃ R : Ty, rebuildType TD AI.allocatedType = .ok R ∧
      s'.emitted = s.emitted ++
        [.Alloca
            (match R with
              | .array ETy k => (ETy, zext % 2 ^ 64 * k % 2 ^ 64)
              | _ => (R, zext % 2 ^ 64)).1
            (if (match R with
                  | .array ETy k => (ETy, zext % 2 ^ 64 * k % 2 ^ 64)
                  | _ => (R, zext % 2 ^ 64)).2 = 1 then none
              else some (u64const (match R with
                  | .array ETy k => (ETy, zext % 2 ^ 64 * k % 2 ^ 64)
                  | _ => (R, zext % 2 ^ 64)).2))
            AI.name,
         .PointerCast
            { id := s.emitted.length, kind := .Instruction,
              type := PointerType.getUnqual (match R with
                  | .array ETy k => (ETy, zext % 2 ^ 64 * k % 2 ^ 64)
                  | _ => (R, zext % 2 ^ 64)).1,
              rebuilt := true }
            AI.self.type AI.name] := by
  unfold visitAllocaInst at h
  rw [hk] at h
  simp only [bind, Except.bind] at h
  cases hR : rebuildType TD AI.allocatedType with
  | error e => rw [hR] at h; cases h
  | ok R =>
    rw [hR] at h
    simp only [Except.ok.injEq] at h
    subst h
    refine ⟨R, rfl, ?_⟩
    simp [State.setVMap, State.insert, Request.type]

theorem rebuildType_size (TD : TargetData) (C R : Ty)
    (hC : C.isCompositeTy = true) (hP : C.isPointerTy = false)
    (hlt : TD.getTypeAllocSize C < 2 ^ 32) (h : rebuildType TD C = .ok R) :
    ∃ (bits k : Nat), R = .array (.integer bits) k ∧
      k * TD.getTypeAllocSize (.integer bits) = TD.getTypeAllocSize C := by
  rw [rebuildType_composite_eq TD C hC hP] at h
  cases hg : getInnerElementType C with
  | error e => rw [hg] at h; cases h
  | ok L =>
    obtain ⟨bits, rfl⟩ := getInnerElementType_integer _ _ hg
    rw [hg] at h
    have hbytes : toUnsigned (TD.getTypeAllocSize C) = TD.getTypeAllocSize C :=
      Nat.mod_eq_of_lt hlt
    simp only [Except.bind, toUnsigned_integer, hbytes] at h
    split_ifs at h with h0 hdiv
    cases h
    exact ⟨bits, _, rfl, Nat.div_mul_cancel (Nat.dvd_of_mod_eq_zero (by simpa using hdiv))⟩

/-- C38: flattening preserves the storage size. For every composite type `C`
that is no pointer, of a size below `2 ^ 32`, on which `rebuildType` succeeds,
the array it returns has the storage size of `C`. And for every rewrite of a
stack allocation of `n` elements that succeeds, where a composite allocated
type has a size below `2 ^ 32`, all pointer types have one size, and `n`
times the length of the rebuilt array fits 64 bits, the allocation requested
reserves `n` times the storage size of the source allocated type. -/
theorem flattening_preserves_size (TD : TargetData) :
    (∀ (C R : Ty), C.isCompositeTy = true → C.isPointerTy = false →
      TD.getTypeAllocSize C < 2 ^ 32 → rebuildType TD C = .ok R →
      TD.getTypeAllocSize R = TD.getTypeAllocSize C) ∧
    (∀ (AI : AllocaInst) (s s' : State) (n : Nat),
      AI.arraySize.kind = .ConstantInt n → n < 2 ^ 64 →
      (AI.allocatedType.isCompositeTy = true → AI.allocatedType.isPointerTy = false →
        TD.getTypeAllocSize AI.allocatedType < 2 ^ 32) →
      (∀ (P Q : Ty) (a b : Nat),
        TD.getTypeAllocSize (.pointer P a) = TD.getTypeAllocSize (.pointer Q b)) →
      (∀ (ETy : Ty) (k : Nat), rebuildType TD AI.allocatedType = .ok (.array ETy k) →
        n * k < 2 ^ 64) →
      visitAllocaInst TD AI s = .ok s' →
      ∃ (r cast : Request), s'.emitted = s.emitted ++ [r, cast] ∧
        r.allocaBytes TD = n * TD.getTypeAllocSize AI.allocatedType) := by
  constructor
  · intro C R hC hP hlt h
    obtain ⟨bits, k, rfl, hk⟩ := rebuildType_size TD C R hC hP hlt h
    rw [TD.array_size]
    exact hk
  · intro AI s s' n hk hn hsz hptr hfit h
    obtain ⟨R, hR, hem⟩ := visitAllocaInst_ok TD AI s s' n hk h
    refine ⟨_, _, hem, ?_⟩
    have hn' : n % 2 ^ 64 = n := Nat.mod_eq_of_lt hn
    by_cases hC : AI.allocatedType.isCompositeTy = true
    · by_cases hP : AI.allocatedType.isPointerTy = true
      · -- a pointer is rebuilt to a pointer
        obtain ⟨P, a, hT⟩ := isPointerTy_eq_pointer _ hP
        rw [hT, rebuildType_pointer_eq] at hR
        cases hg : getInnerElementType (.pointer P a) with
        | error e => rw [hg] at hR; cases hR
        | ok L =>
          rw [hg] at hR
          cases hR
          simp only [PointerType.getUnqual, hn']
          rw [allocaBytes_count TD _ n _ hn, hT]
          rw [hptr L P 0 a]
      · -- any other composite is rebuilt to an array
        simp only [Bool.not_eq_true] at hP
        obtain ⟨bits, k, rfl, hsize⟩ :=
          rebuildType_size TD _ R hC hP (hsz hC hP) hR
        have hnk : n * k % 2 ^ 64 = n * k := Nat.mod_eq_of_lt (hfit _ k hR)
        simp only [hn', hnk]
        rw [allocaBytes_count TD _ (n * k) _ (hfit _ k hR), ← hsize, Nat.mul_assoc]
    · -- integer and void types are kept
      cases hT : AI.allocatedType with
      | void =>
        rw [hT, rebuildType_void_eq] at hR
        cases hR
        simp only [hn']
        rw [allocaBytes_count TD _ n _ hn]
      | integer bits =>
        rw [hT, rebuildType_integer_eq] at hR
        cases hR
        simp only [hn']
        rw [allocaBytes_count TD _ n _ hn]
      | other id =>
        rw [hT, rebuildType_other_eq] at hR
        cases hR
      | pointer P a => rw [hT] at hC; simp [Ty.isCompositeTy] at hC
      | array ETy k => rw [hT] at hC; simp [Ty.isCompositeTy] at hC
      | vector ETy k => rw [hT] at hC; simp [Ty.isCompositeTy] at hC
      | struct fs p => rw [hT] at hC; simp [Ty.isCompositeTy] at hC


/-- C38, witness: `[4 x {i32, i32}]`, of 32 bytes, is rebuilt to `[8 x i32]`,
of 32 bytes; the allocation of 3 elements of it becomes the allocation of 24
elements of `i32`, which reserves 3 times 32 bytes. -/
theorem flattening_preserves_size_witness :
    layout32.getTypeAllocSize (.array (.integer 32) 8) =
      layout32.getTypeAllocSize (.array Example.S2 4) ∧
    (∃ (r cast : Request), Example.sA3.emitted = [] ++ [r, cast] ∧
      r.allocaBytes layout32 = 3 * layout32.getTypeAllocSize Example.allocaA3.allocatedType) ∧
    3 * layout32.getTypeAllocSize Example.allocaA3.allocatedType = 96 :=
  ⟨(flattening_preserves_size layout32).1 (.array Example.S2 4) (.array (.integer 32) 8)
      rfl rfl (by decide) (by decide),
   (flattening_preserves_size layout32).2 Example.allocaA3 { VMap := [], emitted := [] }
      Example.sA3 3 rfl (by decide) (fun _ _ => by decide) (fun _ _ _ _ => rfl)
      (fun ETy k h => by
        have h8 : rebuildType layout32 Example.allocaA3.allocatedType =
            .ok (.array (.integer 32) 8) := by decide
        rw [h8] at h
        cases h
        decide)
      (by decide),
   by decide⟩


/-! ### InstructionRewriter: formal parameters -/

theorem lookup_setVMap_ne (s : State) (K V A : Value) (h : K ≠ A) :
    (s.setVMap K V).VMap.lookup A = s.VMap.lookup A := by
  simp [State.setVMap, ValueMapTy.lookup, h]

theorem mapValue_unmapped (s : State) (A : Value) (hc : A.isConstant = false)
    (hA : s.VMap.lookup A = none) : mapValue s A = .error .assertMapped := by
  simp [mapValue, hc, hA]

theorem mapValue_error (s : State) (V : Value) (e : Fatal) (h : mapValue s V = .error e) :
    e = .assertMapped := by
  unfold mapValue at h
  split at h
  · cases h
  · split at h
    · cases h
    · cases h; rfl

theorem sumVarIndices_VMap (d : Nat) :
    ∀ (L : List (Value × Int)) (Sum : Option Value) (s : State) (r : Option Value × State),
      sumVarIndices d L Sum s = .ok r → r.2.VMap = s.VMap
  | [], _, _, _, h => by
    simp only [sumVarIndices, Except.ok.injEq] at h
    subst h
    rfl
  | I :: L, Sum, s, r, h => by
    simp only [sumVarIndices] at h
    split at h
    · cases h
    · have := sumVarIndices_VMap d L _ _ r h
      rw [this]
      cases Sum <;> split_ifs <;> rfl

theorem visitSwitchInst_loop_VMap (BBMap : BBMapTy) (I : SwitchInst) (SI : Value) :
    ∀ (k i : Nat) (s s' : State), visitSwitchInst.loop BBMap I SI i k s = .ok s' →
      s'.VMap = s.VMap
  | 0, _, _, _, h => by
    simp only [visitSwitchInst.loop, Except.ok.injEq] at h
    subst h
    rfl
  | k + 1, i, s, s', h => by
    simp only [visitSwitchInst.loop] at h
    split at h
    · simp only [bind, Except.bind] at h
      split at h
      · cases h
      · rw [visitSwitchInst_loop_VMap BBMap I SI k _ _ _ h]
        simp only [State.addCase]
        split <;> rfl
    · cases h

theorem externalParams_VMap (I : CallInst) :
    ∀ (Ts : List Ty) (i : Nat) (s : State) (r : List Value × State),
      visitCallInst.externalParams I Ts i s = .ok r → r.2.VMap = s.VMap
  | [], _, _, _, h => by
    simp only [visitCallInst.externalParams, Except.ok.injEq] at h
    subst h
    rfl
  | T :: Ts, i, s, r, h => by
    simp only [visitCallInst.externalParams] at h
    split at h
    · cases h
    · simp only [bind, Except.bind] at h
      split at h
      · cases h
      · split at h
        · cases h
        · rename_i V _ hm p hp
          simp only [Except.ok.injEq] at h
          subst h
          rw [externalParams_VMap I Ts _ _ p hp]
          split_ifs <;> rfl

theorem mapPHIValue_lookup_none (s s' : State) (V NV A : Value)
    (h : mapPHIValue s V = .ok (NV, s')) (hk : A.kind ≠ .PHINode) :
    s'.VMap.lookup A = s.VMap.lookup A := by
  unfold mapPHIValue at h
  split at h
  · rename_i hV
    split at h
    · cases h; rfl
    · simp only [Except.ok.injEq, Prod.mk.injEq] at h
      obtain ⟨_, rfl⟩ := h
      apply lookup_setVMap_ne
      intro e
      rw [e] at hV
      exact hk hV
  · simp only [bind, Except.bind] at h
    split at h
    · cases h
    · cases h; rfl

theorem visitPHINode_loop_lookup_none (BBMap : BBMapTy) (PN A : Value)
    (hk : A.kind ≠ .PHINode) :
    ∀ (k i : Nat) (s s' : State), visitPHINode.loop BBMap PN i k s = .ok s' →
      s'.VMap.lookup A = s.VMap.lookup A
  | 0, _, _, _, h => by
    simp only [visitPHINode.loop, Except.ok.injEq] at h
    subst h
    rfl
  | k + 1, i, s, s', h => by
    simp only [visitPHINode.loop] at h
    split at h
    · simp only [bind, Except.bind] at h
      split at h
      · cases h
      · rename_i r hr
        split at h
        · cases h
        · rw [visitPHINode_loop_lookup_none BBMap PN A hk k _ _ _ h, setIncoming_VMap]
          exact mapPHIValue_lookup_none s r.2 _ r.1 A hr hk
    · cases h


theorem visitGetElementPtrInst_lookup (TD : TargetData) (D : Decomposition)
    (II : GetElementPtrInst) (s s' : State) (A : Value)
    (h : visitGetElementPtrInst TD D II s = .ok s') (hne : II.self ≠ A) :
    s'.VMap.lookup A = s.VMap.lookup A := by
  cases hz : II.hasAllZeroIndices with
  | true =>
    simp only [visitGetElementPtrInst, hz, if_true, bind, Except.bind] at h
    cases hm : mapValue s II.pointerOperand with
    | error e => rw [hm] at h; cases h
    | ok V =>
      rw [hm] at h
      simp only at h
      cases hR : rebuildType TD II.self.type with
      | error e => rw [hR] at h; cases h
      | ok T =>
        rw [hR] at h
        simp only [Except.ok.injEq] at h
        subst h
        exact lookup_setVMap_ne _ _ _ _ hne
  | false =>
    cases hP : mapValue s D.base with
    | error e =>
      simp [visitGetElementPtrInst, hz, hP, bind, Except.bind] at h
    | ok P =>
      cases hE : castPointerElementType P.type with
      | error e =>
        simp [visitGetElementPtrInst, hz, hP, hE, bind, Except.bind] at h
      | ok ETy =>
        by_cases hd : toUnsigned (TD.getTypeAllocSize ETy) = 0
        · simp [visitGetElementPtrInst, hz, hP, hE, hd, bind, Except.bind] at h
        · obtain ⟨P₂, s₂, pre, _, _, hv, hrun⟩ :=
            visitGetElementPtrInst_general TD D II s P ETy hz hP hE hd
          rw [hrun] at h
          cases hs : sumVarIndices
              (scaleDivisor (toUnsigned (TD.getTypeAllocSize ETy)) D.VarIndices)
              D.VarIndices none s₂ with
          | error e => rw [hs] at h; cases h
          | ok r =>
            rw [hs] at h
            simp only [Except.bind, Except.ok.injEq] at h
            subst h
            rw [lookup_setVMap_ne _ _ _ _ hne, ← hv, ← sumVarIndices_VMap _ _ _ _ r hs]
            cases r.1 <;> rfl

theorem visitPHINode_lookup_none (BBMap : BBMapTy) (I : PHINode) (s s' : State) (A : Value)
    (h : visitPHINode BBMap I s = .ok s') (hne : I.self ≠ A) (hk : A.kind ≠ .PHINode) :
    s'.VMap.lookup A = s.VMap.lookup A := by
  unfold visitPHINode at h
  cases hl : s.VMap.lookup I.self with
  | some VV =>
    cases hp : s.phiIncoming VV with
    | none => simp [hl, hp, bind, Except.bind] at h
    | some inc =>
      simp only [hl, hp, bind, Except.bind] at h
      exact visitPHINode_loop_lookup_none BBMap VV A hk _ _ _ _ h
  | none =>
    simp only [hl, bind, Except.bind] at h
    split at h
    · rw [visitPHINode_loop_lookup_none BBMap _ A hk _ _ _ _ h]
      exact lookup_setVMap_ne _ _ _ _ hne
    · cases h

theorem visitCallInst_lookup (FMap : FMapTy) (I : CallInst) (s s' : State) (A : Value)
    (h : visitCallInst FMap I s = .ok s') (hne : I.self ≠ A) :
    s'.VMap.lookup A = s.VMap.lookup A := by
  unfold visitCallInst at h
  split at h
  · cases h
  · split at h
    · split at h
      · cases h
      · simp only [bind, Except.bind] at h
        split at h
        · cases h
        · rename_i r hr
          simp only [Except.ok.injEq] at h
          subst h
          rw [lookup_setVMap_ne _ _ _ _ hne]
          show r.2.VMap.lookup A = _
          rw [externalParams_VMap I _ _ _ r hr]
    · split at h
      · cases h
      · simp only [bind, Except.bind] at h
        split at h
        · cases h
        · simp only [Except.ok.injEq] at h
          subst h
          exact lookup_setVMap_ne _ _ _ _ hne

theorem visit_lookup (TD : TargetData) (Decompose : GetElementPtrInst → Decomposition)
    (FMap : FMapTy) (BBMap : BBMapTy) (A : Value) (hk : A.kind ≠ .PHINode) :
    ∀ (I : Instruction) (s s' : State), visit TD Decompose FMap BBMap I s = .ok s' →
      I.defines ≠ some A → s'.VMap.lookup A = s.VMap.lookup A := by
  intro I s s' h hdef
  cases I with
  | Alloca I =>
    have hne : I.self ≠ A := fun e => hdef (by simp [Instruction.defines, e])
    simp only [visit] at h
    unfold visitAllocaInst at h
    split at h
    · simp only [bind, Except.bind] at h
      split at h
      · cases h
      · simp only [Except.ok.injEq] at h
        subst h
        exact lookup_setVMap_ne _ _ _ _ hne
    · cases h
  | Ret I =>
    simp only [visit, visitReturnInst] at h
    split at h
    · cases h; rfl
    · simp only [bind, Except.bind] at h
      split at h
      · cases h
      · cases h; rfl
  | Br I =>
    simp only [visit, visitBranchInst] at h
    split at h
    · simp only [bind, Except.bind] at h
      split at h
      · cases h
      · split at h
        · cases h
        · split at h
          · cases h
          · cases h; rfl
    · simp only [bind, Except.bind] at h
      split at h
      · cases h
      · cases h; rfl
  | Switch I =>
    simp only [visit, visitSwitchInst, bind, Except.bind] at h
    split at h
    · cases h
    · split at h
      · cases h
      · rw [visitSwitchInst_loop_VMap BBMap I _ _ _ _ _ h]
        rfl
  | Unreachable =>
    simp only [visit, visitUnreachableInst, Except.ok.injEq] at h
    subst h
    rfl
  | ICmp I =>
    have hne : I.self ≠ A := fun e => hdef (by simp [Instruction.defines, e])
    simp only [visit, visitICmpInst, bind, Except.bind] at h
    split at h
    · cases h
    · split at h
      · cases h
      · simp only [Except.ok.injEq] at h
        subst h
        exact lookup_setVMap_ne _ _ _ _ hne
  | Load I =>
    have hne : I.self ≠ A := fun e => hdef (by simp [Instruction.defines, e])
    simp only [visit, visitLoadInst, mapPointer, bind, Except.bind] at h
    split at h
    · cases h
    · rename_i r hr
      split at hr
      · cases hr
      · simp only [Except.ok.injEq] at hr h
        subst hr
        subst h
        exact lookup_setVMap_ne _ _ _ _ hne
  | Store I =>
    simp only [visit, visitStoreInst, mapPointer, bind, Except.bind] at h
    split at h
    · cases h
    · split at h
      · cases h
      · rename_i r hr
        split at hr
        · cases hr
        · simp only [Except.ok.injEq] at hr h
          subst hr
          subst h
          rfl
  | GetElementPtr I =>
    have hne : I.self ≠ A := fun e => hdef (by simp [Instruction.defines, e])
    exact visitGetElementPtrInst_lookup TD _ I s s' A h hne
  | PHI I =>
    have hne : I.self ≠ A := fun e => hdef (by simp [Instruction.defines, e])
    exact visitPHINode_lookup_none BBMap I s s' A h hne hk
  | Cast I =>
    have hne : I.self ≠ A := fun e => hdef (by simp [Instruction.defines, e])
    simp only [visit, visitCastInst, bind, Except.bind] at h
    split at h
    · cases h
    · split at h
      · cases h
      · simp only [Except.ok.injEq] at h
        subst h
        exact lookup_setVMap_ne _ _ _ _ hne
  | Select I =>
    have hne : I.self ≠ A := fun e => hdef (by simp [Instruction.defines, e])
    simp only [visit, visitSelectInst, bind, Except.bind] at h
    split at h
    · cases h
    · split at h
      · cases h
      · split at h
        · cases h
        · simp only [Except.ok.injEq] at h
          subst h
          exact lookup_setVMap_ne _ _ _ _ hne
  | Call I =>
    have hne : I.self ≠ A := fun e => hdef (by simp [Instruction.defines, e])
    exact visitCallInst_lookup FMap I s s' A h hne
  | BinaryOp I =>
    have hne : I.self ≠ A := fun e => hdef (by simp [Instruction.defines, e])
    simp only [visit, visitBinaryOperator, bind, Except.bind] at h
    split at h
    · cases h
    · split at h
      · cases h
      · simp only [Except.ok.injEq] at h
        subst h
        exact lookup_setVMap_ne _ _ _ _ hne
  | Other self opcodeName =>
    simp only [visit, visitInstruction] at h
    cases h


theorem internalParams_unmapped (I : CallInst) (s : State) (A : Value)
    (hA : mapValue s A = .error .assertMapped) :
    ∀ (Ts : List Ty) (i : Nat), A ∈ (I.args.drop i).take Ts.length →
      visitCallInst.internalParams I s Ts i = .error .assertMapped
  | [], _, h => by simp at h
  | T :: Ts, i, h => by
    cases hd : I.args.drop i with
    | nil => rw [hd] at h; simp at h
    | cons Op rest =>
      rw [hd] at h
      have hOp : I.args[i]? = some Op := by
        have := congrArg List.head? hd
        simpa [List.head?_drop] using this
      have hrest : I.args.drop (i + 1) = rest := by
        have := congrArg List.tail hd
        simpa [List.tail_drop] using this
      simp only [visitCallInst.internalParams, List.get?_eq_getElem?, hOp, bind, Except.bind]
      simp only [List.length_cons, List.take_succ_cons, List.mem_cons] at h
      cases hm : mapValue s Op with
      | error e => rw [mapValue_error s Op e hm]
      | ok V =>
        rcases h with rfl | h
        · rw [hA] at hm; cases hm
        · simp only
          rw [internalParams_unmapped I s A hA Ts (i + 1) (by rw [hrest]; exact h)]

theorem externalParams_unmapped (I : CallInst) (A : Value) (hc : A.isConstant = false) :
    ∀ (Ts : List Ty) (i : Nat) (s : State), s.VMap.lookup A = none →
      A ∈ (I.args.drop i).take Ts.length →
      visitCallInst.externalParams I Ts i s = .error .assertMapped
  | [], _, _, _, h => by simp at h
  | T :: Ts, i, s, hA, h => by
    cases hd : I.args.drop i with
    | nil => rw [hd] at h; simp at h
    | cons Op rest =>
      rw [hd] at h
      have hOp : I.args[i]? = some Op := by
        have := congrArg List.head? hd
        simpa [List.head?_drop] using this
      have hrest : I.args.drop (i + 1) = rest := by
        have := congrArg List.tail hd
        simpa [List.tail_drop] using this
      simp only [visitCallInst.externalParams, List.get?_eq_getElem?, hOp, bind, Except.bind]
      simp only [List.length_cons, List.take_succ_cons, List.mem_cons] at h
      cases hm : mapValue s Op with
      | error e => rw [mapValue_error s Op e hm]
      | ok V =>
        rcases h with rfl | h
        · rw [mapValue_unmapped s A hc hA] at hm; cases hm
        · simp only
          by_cases hty : V.type = T
          · simp only [hty, ne_eq, not_true_eq_false, if_false]
            rw [externalParams_unmapped I A hc Ts (i + 1) s hA (by rw [hrest]; exact h)]
          · simp only [hty, ne_eq, not_false_eq_true, if_true]
            rw [externalParams_unmapped I A hc Ts (i + 1) _ (by exact hA)
              (by rw [hrest]; exact h)]

theorem visit_unmapped_operand (TD : TargetData)
    (Decompose : GetElementPtrInst → Decomposition) (FMap : FMapTy) (BBMap : BBMapTy)
    (A : Value) (hc : A.isConstant = false) (I : Instruction) (s : State)
    (hA : s.VMap.lookup A = none) (hop : A ∈ I.mappedOperands Decompose) :
    ∃ e, visit TD Decompose FMap BBMap I s = .error e ∧
      (e = .assertMapped ∨
        ((∃ C, I = .Call C) ∧ (e = .assertNotVarArg ∨ e = .assertFunctionMapped))) := by
  have hm := mapValue_unmapped s A hc hA
  cases I with
  | Alloca I => simp [Instruction.mappedOperands] at hop
  | Unreachable => simp [Instruction.mappedOperands] at hop
  | PHI I => simp [Instruction.mappedOperands] at hop
  | Other self opcodeName => simp [Instruction.mappedOperands] at hop
  | Ret I =>
    refine ⟨.assertMapped, ?_, Or.inl rfl⟩
    cases hr : I.returnValue with
    | none => simp [Instruction.mappedOperands, hr] at hop
    | some V =>
      simp only [Instruction.mappedOperands, hr, Option.toList, List.mem_singleton] at hop
      subst hop
      simp [visit, visitReturnInst, hr, hm, bind, Except.bind]
  | Br I =>
    refine ⟨.assertMapped, ?_, Or.inl rfl⟩
    cases I with
    | unconditional succ0 => simp [Instruction.mappedOperands] at hop
    | conditional condition succ0 succ1 =>
      simp only [Instruction.mappedOperands, List.mem_singleton] at hop
      subst hop
      simp [visit, visitBranchInst, hm, bind, Except.bind]
  | Switch I =>
    refine ⟨.assertMapped, ?_, Or.inl rfl⟩
    simp only [Instruction.mappedOperands, List.mem_singleton] at hop
    subst hop
    simp [visit, visitSwitchInst, hm, bind, Except.bind]
  | ICmp I =>
    refine ⟨.assertMapped, ?_, Or.inl rfl⟩
    simp only [Instruction.mappedOperands, List.mem_cons, List.mem_singleton,
      List.not_mem_nil, or_false] at hop
    simp only [visit, visitICmpInst, bind, Except.bind]
    cases h0 : mapValue s I.operand0 with
    | error e => rw [mapValue_error s _ e h0]
    | ok L =>
      rcases hop with rfl | rfl
      · rw [hm] at h0; cases h0
      · simp [hm]
  | Load I =>
    refine ⟨.assertMapped, ?_, Or.inl rfl⟩
    simp only [Instruction.mappedOperands, List.mem_singleton] at hop
    subst hop
    simp [visit, visitLoadInst, mapPointer, hm, bind, Except.bind]
  | Store I =>
    refine ⟨.assertMapped, ?_, Or.inl rfl⟩
    simp only [Instruction.mappedOperands, List.mem_cons, List.mem_singleton,
      List.not_mem_nil, or_false] at hop
    simp only [visit, visitStoreInst, mapPointer, bind, Except.bind]
    cases h0 : mapValue s I.valueOperand with
    | error e => rw [mapValue_error s _ e h0]
    | ok L =>
      rcases hop with rfl | rfl
      · rw [hm] at h0; cases h0
      · simp [hm]
  | GetElementPtr I =>
    refine ⟨.assertMapped, ?_, Or.inl rfl⟩
    simp only [Instruction.mappedOperands, List.mem_singleton] at hop
    cases hz : I.hasAllZeroIndices with
    | true =>
      simp only [hz, if_true] at hop
      subst hop
      simp [visit, visitGetElementPtrInst, hz, hm, bind, Except.bind]
    | false =>
      simp only [hz, Bool.false_eq_true, if_false] at hop
      rw [hop] at hm
      simp [visit, visitGetElementPtrInst, hz, hm, bind, Except.bind]
  | Cast I =>
    refine ⟨.assertMapped, ?_, Or.inl rfl⟩
    simp only [Instruction.mappedOperands, List.mem_singleton] at hop
    subst hop
    simp [visit, visitCastInst, hm, bind, Except.bind]
  | Select I =>
    refine ⟨.assertMapped, ?_, Or.inl rfl⟩
    simp only [Instruction.mappedOperands, List.mem_cons, List.mem_singleton,
      List.not_mem_nil, or_false] at hop
    simp only [visit, visitSelectInst, bind, Except.bind]
    cases h0 : mapValue s I.condition with
    | error e => rw [mapValue_error s _ e h0]
    | ok C =>
      cases h1 : mapValue s I.trueValue with
      | error e => rw [mapValue_error s _ e h1]
      | ok T =>
        rcases hop with rfl | rfl | rfl
        · rw [hm] at h0; cases h0
        · rw [hm] at h1; cases h1
        · simp [hm]
  | BinaryOp I =>
    refine ⟨.assertMapped, ?_, Or.inl rfl⟩
    simp only [Instruction.mappedOperands, List.mem_cons, List.mem_singleton,
      List.not_mem_nil, or_false] at hop
    simp only [visit, visitBinaryOperator, bind, Except.bind]
    cases h0 : mapValue s I.operand0 with
    | error e => rw [mapValue_error s _ e h0]
    | ok L =>
      rcases hop with rfl | rfl
      · rw [hm] at h0; cases h0
      · simp [hm]
  | Call I =>
    cases hF : I.calledFunction with
    | none => simp [Instruction.mappedOperands, hF] at hop
    | some F =>
      simp only [Instruction.mappedOperands, hF] at hop
      have hop' : A ∈ (I.args.drop 0).take F.type.params.length := by simpa using hop
      simp only [visit, visitCallInst, hF]
      cases hd : F.isDeclaration with
      | true =>
        cases hv : F.type.isVarArg with
        | true => exact ⟨.assertNotVarArg, by simp, Or.inr ⟨⟨I, rfl⟩, Or.inl rfl⟩⟩
        | false =>
          refine ⟨.assertMapped, ?_, Or.inl rfl⟩
          simp [externalParams_unmapped I A hc _ 0 s hA hop', bind, Except.bind]
      | false =>
        cases hl : FMap.lookup F with
        | none => exact ⟨.assertFunctionMapped, by simp, Or.inr ⟨⟨I, rfl⟩, Or.inr rfl⟩⟩
        | some NF =>
          refine ⟨.assertMapped, ?_, Or.inl rfl⟩
          simp [internalParams_unmapped I s A hm _ 0 hop', bind, Except.bind]


theorem visitBasicBlock_lookup (TD : TargetData)
    (Decompose : GetElementPtrInst → Decomposition) (FMap : FMapTy) (BBMap : BBMapTy)
    (A : Value) (hk : A.kind ≠ .PHINode) :
    ∀ (insts : List Instruction) (s s' : State),
      visitBasicBlock TD Decompose FMap BBMap insts s = .ok s' →
      (∀ I ∈ insts, I.defines ≠ some A) → s'.VMap.lookup A = s.VMap.lookup A
  | [], s, s', h, _ => by
    simp only [visitBasicBlock, Except.ok.injEq] at h
    subst h
    rfl
  | I :: insts, s, s', h, hdef => by
    simp only [visitBasicBlock, bind, Except.bind] at h
    cases hv : visit TD Decompose FMap BBMap I s with
    | error e => rw [hv] at h; cases h
    | ok s₁ =>
      rw [hv] at h
      rw [visitBasicBlock_lookup TD Decompose FMap BBMap A hk insts s₁ s' h
        (fun J hJ => hdef J (List.mem_cons_of_mem _ hJ))]
      exact visit_lookup TD Decompose FMap BBMap A hk I s s₁ hv
        (hdef I (List.mem_cons_self _ _))

theorem visitBasicBlock_unmapped (TD : TargetData)
    (Decompose : GetElementPtrInst → Decomposition) (FMap : FMapTy) (BBMap : BBMapTy)
    (A : Value) (hc : A.isConstant = false) (hk : A.kind ≠ .PHINode) :
    ∀ (insts : List Instruction) (s : State), s.VMap.lookup A = none →
      (∀ I ∈ insts, I.defines ≠ some A) →
      (∃ I ∈ insts, A ∈ I.mappedOperands Decompose) →
      ∃ e, visitBasicBlock TD Decompose FMap BBMap insts s = .error e
  | [], _, _, _, h => by
    obtain ⟨I, hI, _⟩ := h
    cases hI
  | J :: insts, s, hA, hdef, h => by
    simp only [visitBasicBlock, bind, Except.bind]
    cases hv : visit TD Decompose FMap BBMap J s with
    | error e => exact ⟨e, rfl⟩
    | ok s₁ =>
      obtain ⟨I, hI, hop⟩ := h
      rcases List.mem_cons.mp hI with rfl | hI
      · obtain ⟨e, he, _⟩ :=
          visit_unmapped_operand TD Decompose FMap BBMap A hc I s hA hop
        rw [he] at hv
        cases hv
      · have hA₁ : s₁.VMap.lookup A = none := by
          rw [visit_lookup TD Decompose FMap BBMap A hk J s s₁ hv
            (hdef J (List.mem_cons_self _ _))]
          exact hA
        exact visitBasicBlock_unmapped TD Decompose FMap BBMap A hc hk insts s₁ hA₁
          (fun K hK => hdef K (List.mem_cons_of_mem _ hK)) ⟨I, hI, hop⟩

theorem visitBlocks_lookup (TD : TargetData)
    (Decompose : GetElementPtrInst → Decomposition) (FMap : FMapTy) (BBMap : BBMapTy)
    (A : Value) (hk : A.kind ≠ .PHINode) :
    ∀ (blocks : List (BasicBlock × List Instruction)) (s : State)
      (ends : List (BasicBlock × Nat)) (r : State × List (BasicBlock × Nat)),
      runOnFunction.visitBlocks TD Decompose FMap BBMap blocks s ends = .ok r →
      (∀ b ∈ blocks, ∀ I ∈ b.2, I.defines ≠ some A) →
      r.1.VMap.lookup A = s.VMap.lookup A
  | [], s, ends, r, h, _ => by
    simp only [runOnFunction.visitBlocks, Except.ok.injEq] at h
    subst h
    rfl
  | (BB, insts) :: blocks, s, ends, r, h, hdef => by
    simp only [runOnFunction.visitBlocks, bind, Except.bind] at h
    cases hm : mapBlock BBMap BB with
    | error e => rw [hm] at h; cases h
    | ok NBB =>
      rw [hm] at h
      simp only at h
      cases hv : visitBasicBlock TD Decompose FMap BBMap insts s with
      | error e => rw [hv] at h; cases h
      | ok s₁ =>
        rw [hv] at h
        rw [visitBlocks_lookup TD Decompose FMap BBMap A hk blocks s₁ _ r h
          (fun b hb => hdef b (List.mem_cons_of_mem _ hb))]
        exact visitBasicBlock_lookup TD Decompose FMap BBMap A hk insts s s₁ hv
          (hdef (BB, insts) (List.mem_cons_self _ _))

theorem visitBlocks_unmapped (TD : TargetData)
    (Decompose : GetElementPtrInst → Decomposition) (FMap : FMapTy) (BBMap : BBMapTy)
    (A : Value) (hc : A.isConstant = false) (hk : A.kind ≠ .PHINode) :
    ∀ (blocks : List (BasicBlock × List Instruction)) (s : State)
      (ends : List (BasicBlock × Nat)), s.VMap.lookup A = none →
      (∀ b ∈ blocks, ∀ I ∈ b.2, I.defines ≠ some A) →
      (∃ b ∈ blocks, ∃ I ∈ b.2, A ∈ I.mappedOperands Decompose) →
      ∃ e, runOnFunction.visitBlocks TD Decompose FMap BBMap blocks s ends = .error e
  | [], _, _, _, _, h => by
    obtain ⟨b, hb, _⟩ := h
    cases hb
  | (BB, insts) :: blocks, s, ends, hA, hdef, h => by
    simp only [runOnFunction.visitBlocks, bind, Except.bind]
    cases hm : mapBlock BBMap BB with
    | error e => exact ⟨e, rfl⟩
    | ok NBB =>
      simp only
      cases hv : visitBasicBlock TD Decompose FMap BBMap insts s with
      | error e => exact ⟨e, rfl⟩
      | ok s₁ =>
        simp only
        obtain ⟨b, hb, I, hI, hop⟩ := h
        rcases List.mem_cons.mp hb with rfl | hb
        · obtain ⟨e, he⟩ := visitBasicBlock_unmapped TD Decompose FMap BBMap A hc hk insts s
            hA (hdef (BB, insts) (List.mem_cons_self _ _)) ⟨I, hI, hop⟩
          rw [he] at hv
          cases hv
        · have hA₁ : s₁.VMap.lookup A = none := by
            rw [visitBasicBlock_lookup TD Decompose FMap BBMap A hk insts s s₁ hv
              (hdef (BB, insts) (List.mem_cons_self _ _))]
            exact hA
          exact visitBlocks_unmapped TD Decompose FMap BBMap A hc hk blocks s₁ _ hA₁
            (fun b' hb' => hdef b' (List.mem_cons_of_mem _ hb')) ⟨b, hb, I, hI, hop⟩

/-- C37: a formal parameter `A` of the old function, which no instruction
defines, never gets an entry of the value map: `runOnFunction` clears the map
and the visitors add entries for the instructions they rewrite only. So the
visit of any instruction that passes `A` to `mapValue` (as the value returned,
the condition of a branch or switch, an operand of a comparison, binary
operator, cast or select, the pointer of a load, the value or pointer of a
store, an argument of a call, or the base of an address computation) fails:
at the assertion of `mapValue`, or for a call at an assertion on the callee
before it; and `runOnFunction` rebuilds no function whose body holds such an
instruction. -/
theorem runOnFunction_formal_parameter (TD : TargetData)
    (Decompose : GetElementPtrInst → Decomposition) (FMap : FMapTy) (A : Value)
    (hA : A.kind = .Argument) :
    (∀ (F : FunctionBody) (VMap : ValueMapTy) (BBMap : BBMapTy) (R : Rebuilt),
      (∀ b ∈ F.blocks, ∀ I ∈ b.2, I.defines ≠ some A) →
      runOnFunction TD Decompose FMap VMap BBMap F = .ok R →
      R.st.VMap.lookup A = none) ∧
    (∀ (BBMap : BBMapTy) (I : Instruction) (s : State), s.VMap.lookup A = none →
      A ∈ I.mappedOperands Decompose →
      ∃ e, visit TD Decompose FMap BBMap I s = .error e ∧
        (e = .assertMapped ∨
          ((∃ C, I = .Call C) ∧ (e = .assertNotVarArg ∨ e = .assertFunctionMapped)))) ∧
    (∀ (F : FunctionBody) (VMap : ValueMapTy) (BBMap : BBMapTy),
      (∀ b ∈ F.blocks, ∀ I ∈ b.2, I.defines ≠ some A) →
      (∃ b ∈ F.blocks, ∃ I ∈ b.2, A ∈ I.mappedOperands Decompose) →
      ∃ e, runOnFunction TD Decompose FMap VMap BBMap F = .error e) := by
  have hc : A.isConstant = false := by simp [Value.isConstant, hA]
  have hk : A.kind ≠ .PHINode := by rw [hA]; exact fun e => ValueKind.noConfusion e
  refine ⟨?_, ?_, ?_⟩
  · intro F VMap BBMap R hdef h
    unfold runOnFunction at h
    split at h
    · cases h
    · simp only at h
      split at h
      · cases h
      · rename_i s ends hv
        cases h
        exact visitBlocks_lookup TD Decompose FMap _ A hk F.blocks _ _ _ hv hdef
  · intro BBMap I s hs hop
    exact visit_unmapped_operand TD Decompose FMap BBMap A hc I s hs hop
  · intro F VMap BBMap hdef hop
    unfold runOnFunction
    cases FMap.lookup F.F with
    | none => exact ⟨_, rfl⟩
    | some NF =>
      simp only
      obtain ⟨e, he⟩ := visitBlocks_unmapped TD Decompose FMap
        (runOnFunction.createBlocks (F.blocks.map Prod.fst) BBMap.clear []).1 A hc hk
        F.blocks { VMap := VMap.clear, emitted := [] } [] rfl hdef hop
      exact ⟨e, by rw [he]⟩

/-- C37, witness: `@inc` adds 1 to its formal parameter `%n`; the visit of
`%d = add i32 %n, 1` fails at the assertion of `mapValue`, and `@inc` is not
rebuilt. -/
theorem runOnFunction_formal_parameter_witness :
    (∃ e, visit layout32 Example.noDecompose [(Example.incF, Example.newInc)] []
        (.BinaryOp Example.addN) { VMap := [], emitted := [] } = .error e ∧
      (e = .assertMapped ∨
        ((∃ C, Instruction.BinaryOp Example.addN = .Call C) ∧
          (e = .assertNotVarArg ∨ e = .assertFunctionMapped)))) ∧
    (∃ e, runOnFunction layout32 Example.noDecompose [(Example.incF, Example.newInc)] [] []
        Example.inc = .error e) ∧
    runOnFunction layout32 Example.noDecompose [(Example.incF, Example.newInc)] [] []
        Example.inc = .error .assertMapped :=
  ⟨(runOnFunction_formal_parameter layout32 Example.noDecompose
      [(Example.incF, Example.newInc)] Example.n rfl).2.1 [] (.BinaryOp Example.addN)
      { VMap := [], emitted := [] } rfl (by decide),
   (runOnFunction_formal_parameter layout32 Example.noDecompose
      [(Example.incF, Example.newInc)] Example.n rfl).2.2 Example.inc [] []
      (by decide)
      ⟨(Example.entry, [.BinaryOp Example.addN,
          .Ret { returnValue := some Example.addN.self }]), by decide,
        .BinaryOp Example.addN, by decide, by decide⟩,
   by decide⟩


end ClamBCRebuild
